import Mathlib

/-! libsimdpp: integer `cmp_lt` and `min` dispatch.

A shallow embedding of `simdpp/core/cmp_lt.h`, `simdpp/core/i_min.h` and
`simdpp/types/int8x32.h`.

* A vector register is an array of `n` lanes, every lane a `w`-bit pattern
  (a natural number below `2 ^ w`).  Signed and unsigned vectors share this
  layout; signedness lives in the operation that reads the lanes.
* The capability flags `SIMDPP_USE_*` are a record of booleans; every
  `#if / #elif` chain of the sources becomes an `if / else if` chain over that
  record, and a chain with no matching arm yields `none`.
* An arm whose body calls an intrinsic on an operand that has no conversion to
  the native register type is ill-formed and yields `none` as well.
-/

namespace simdpp

/-! ## Capability selection -/

/-- The compile-time capability flags `SIMDPP_USE_*` consulted by the sources. -/
structure Caps where
  USE_NULL : Bool
  USE_SSE2 : Bool
  USE_SSE4_1 : Bool
  USE_AVX : Bool
  USE_AVX2 : Bool
  USE_XOP : Bool
  USE_NEON : Bool
  USE_ALTIVEC : Bool
deriving DecidableEq, Repr

/-! ## Vector type model -/

/-- A register of `n` lanes of `w` bits each. -/
structure Reg (w n : Nat) where
  lane : Fin n → Nat
  bound : ∀ i, lane i < 2 ^ w

/-- The lane pattern with every bit set (`all_bits` of the vector classes:
`0xff` for 8-bit lanes, `0xffff` for 16-bit, `0xffffffff` for 32-bit). -/
def all_bits (w : Nat) : Nat := 2 ^ w - 1

/-- Two's-complement reading of a `w`-bit lane pattern. -/
def toSigned (w : Nat) (x : Nat) : Int :=
  if x < 2 ^ (w - 1) then (x : Int) else (x : Int) - ((2 ^ w : Nat) : Int)

/-- The `w`-bit pattern of an integer (truncation to the low `w` bits). -/
def ofSigned (w : Nat) (z : Int) : Nat := (z % ((2 ^ w : Nat) : Int)).toNat

abbrev gint8x16 := Reg 8 16
abbrev int8x16 := Reg 8 16
abbrev uint8x16 := Reg 8 16
abbrev mask_int8x16 := Reg 8 16
abbrev int16x8 := Reg 16 8
abbrev uint16x8 := Reg 16 8
abbrev mask_int16x8 := Reg 16 8
abbrev int32x4 := Reg 32 4
abbrev uint32x4 := Reg 32 4
abbrev mask_int32x4 := Reg 32 4
abbrev gint8x32 := Reg 8 32
abbrev int8x32 := Reg 8 32
abbrev uint8x32 := Reg 8 32
abbrev int16x16 := Reg 16 16
abbrev uint16x16 := Reg 16 16
abbrev mask_int16x16 := Reg 16 16
abbrev int32x8 := Reg 32 8
abbrev uint32x8 := Reg 32 8
abbrev mask_int32x8 := Reg 32 8

theorem Reg.ext_lane {w n : Nat} {a b : Reg w n} (h : ∀ i, a.lane i = b.lane i) : a = b := by
  cases a with
  | mk la ba =>
    cases b with
    | mk lb bb =>
      have hl : la = lb := funext h
      subst hl
      rfl

instance instDecidableEqReg (w n : Nat) : DecidableEq (Reg w n) := fun a b =>
  decidable_of_iff (∀ i, a.lane i = b.lane i)
    ⟨Reg.ext_lane, fun h i => by rw [h]⟩

theorem all_bits_lt (w : Nat) : all_bits w < 2 ^ w := by
  have h : 0 < 2 ^ w := Nat.two_pow_pos w
  unfold all_bits
  omega

/-- Applies a lane operation to every pair of corresponding lanes. -/
def Reg.zipLanes {w n : Nat} (f : Nat → Nat → Nat)
    (hf : ∀ x y, x < 2 ^ w → y < 2 ^ w → f x y < 2 ^ w) (a b : Reg w n) : Reg w n :=
  ⟨fun i => f (a.lane i) (b.lane i), fun i => hf _ _ (a.bound i) (b.bound i)⟩

/-- Modelled from the spec: the one-value `make_const(v0)` factory, declared in the vector
classes (`r = [ v0 v0 ... v0 ]`) with its body not among the sources: every lane holds
`v0` converted to the `w`-bit element type. -/
def make_const (w n : Nat) (v0 : Nat) : Reg w n :=
  ⟨fun _ => v0 % 2 ^ w, fun _ => Nat.mod_lt _ (Nat.two_pow_pos w)⟩

/-- Signedness of the element type of a vector (`int8_t` against `uint8_t`, ...). -/
inductive Signedness where
  | signed
  | unsigned
deriving DecidableEq, Repr

/-- The value of a lane pattern under the element type's interpretation. -/
def readLane (s : Signedness) (w x : Nat) : Int :=
  match s with
  | Signedness.signed => toSigned w x
  | Signedness.unsigned => (x : Int)

/-! ## Lane-level semantics of the operations the sources call -/

/-- Result lane of a signed greater-than compare instruction. -/
def lane_cmpgt_s (w x y : Nat) : Nat := if toSigned w y < toSigned w x then all_bits w else 0

/-- Result lane of a signed less-than compare instruction. -/
def lane_cmplt_s (w x y : Nat) : Nat := if toSigned w x < toSigned w y then all_bits w else 0

/-- Result lane of an unsigned less-than compare instruction. -/
def lane_cmplt_u (w x y : Nat) : Nat := if x < y then all_bits w else 0

/-- Result lane of the scalar comparison `(a < b) ? all_bits : 0` at the element type. -/
def lane_null_cmp_lt (s : Signedness) (w x y : Nat) : Nat :=
  if readLane s w x < readLane s w y then all_bits w else 0

/-- Result lane of the scalar minimum `a <= b ? a : b` at the element type. -/
def lane_null_min (s : Signedness) (w x y : Nat) : Nat :=
  if readLane s w x ≤ readLane s w y then x else y

/-- Result lane of the x86 packed minimum: the destination lane is kept when it is
strictly below the source lane, else the source lane is taken. -/
def lane_mm_min (s : Signedness) (w x y : Nat) : Nat :=
  if readLane s w x < readLane s w y then x else y

/-- Result lane of the NEON minimum: the low `w` bits of the smaller value. -/
def lane_vmin (s : Signedness) (w x y : Nat) : Nat :=
  ofSigned w (min (readLane s w x) (readLane s w y))

/-- Result lane of the ALTIVEC minimum: `b` when `b` is strictly smaller, else `a`. -/
def lane_vec_min (s : Signedness) (w x y : Nat) : Nat :=
  if readLane s w y < readLane s w x then y else x

/-- Result lane of the bitwise select `(on AND mask) OR (off AND NOT mask)`. -/
def lane_blend (w von voff mask : Nat) : Nat :=
  (von &&& mask) ||| (voff &&& (mask ^^^ all_bits w))

theorem ite_all_bits_lt (w : Nat) (p : Prop) [Decidable p] :
    (if p then all_bits w else 0) < 2 ^ w := by
  split
  · exact all_bits_lt w
  · exact Nat.two_pow_pos w

theorem ite_lane_lt {w x y : Nat} (p : Prop) [Decidable p] (hx : x < 2 ^ w) (hy : y < 2 ^ w) :
    (if p then x else y) < 2 ^ w := by
  split
  · exact hx
  · exact hy

theorem ofSigned_lt (w : Nat) (z : Int) : ofSigned w z < 2 ^ w := by
  have hpos : (0 : Int) < ((2 ^ w : Nat) : Int) := by exact_mod_cast Nat.two_pow_pos w
  have h1 := Int.emod_lt_of_pos z hpos
  have h2 := Int.emod_nonneg z (ne_of_gt hpos)
  unfold ofSigned
  omega

/-! ## Native instructions and helper operations -/

/-- Modelled from the spec: `null::cmp_lt` of `simdpp/null/compare.h` (not among the
sources), the scalar fallback that compares every lane with ordinary scalar
comparison at the element type: `r_i = (a_i < b_i) ? all_bits : 0`. -/
def null.cmp_lt (s : Signedness) {w n : Nat} (a b : Reg w n) : Reg w n :=
  Reg.zipLanes (lane_null_cmp_lt s w) (fun _ _ _ _ => ite_all_bits_lt w _) a b

/-- Modelled from the spec: `null::min` of `simdpp/null/math.h` (not among the
sources), the scalar fallback `r_i = (a_i <= b_i) ? a_i : b_i` at the element type. -/
def null.min (s : Signedness) {w n : Nat} (a b : Reg w n) : Reg w n :=
  Reg.zipLanes (lane_null_min s w) (fun _ _ hx hy => ite_lane_lt _ hx hy) a b

/-- Modelled from the spec: `bit_xor` of `simdpp/core/bit_xor.h` (not among the
sources), the bitwise exclusive or of two vectors. -/
def bit_xor {w n : Nat} (a b : Reg w n) : Reg w n :=
  Reg.zipLanes (fun x y => x ^^^ y) (fun _ _ hx hy => Nat.xor_lt_two_pow hx hy) a b

/-- Modelled from the spec: `blend` of `simdpp/core/blend.h` (not among the sources):
selects lane-wise from `on` where the mask lane is all-ones and from `off` where it
is all-zero, as the bitwise select `(on AND mask) OR (off AND NOT mask)`. -/
def blend {w n : Nat} (von voff mask : Reg w n) : Reg w n :=
  ⟨fun i => lane_blend w (von.lane i) (voff.lane i) (mask.lane i),
   fun i => Nat.or_lt_two_pow (Nat.and_lt_two_pow _ (mask.bound i))
     (Nat.and_lt_two_pow _ (Nat.xor_lt_two_pow (mask.bound i) (all_bits_lt w)))⟩

/-- The SSE2 / AVX2 signed greater-than compare (`_mm_cmpgt_epi8/16/32`,
`_mm256_cmpgt_epi8/16/32`): lane `i` is all ones when `a_i > b_i` signed, else zero. -/
def mm_cmpgt_epi (w : Nat) {n : Nat} (a b : Reg w n) : Reg w n :=
  Reg.zipLanes (lane_cmpgt_s w) (fun _ _ _ _ => ite_all_bits_lt w _) a b

/-- The SSE2 signed less-than compare (`_mm_cmplt_epi8/16/32`): the greater-than
compare with its operands swapped. -/
def mm_cmplt_epi (w : Nat) {n : Nat} (a b : Reg w n) : Reg w n := mm_cmpgt_epi w b a

/-- The XOP unsigned less-than compare (`_mm_comlt_epu8/16/32`). -/
def mm_comlt_epu (w : Nat) {n : Nat} (a b : Reg w n) : Reg w n :=
  Reg.zipLanes (lane_cmplt_u w) (fun _ _ _ _ => ite_all_bits_lt w _) a b

/-- The NEON less-than compare (`vcltq_s8/16/32`, `vcltq_u8/16/32`). -/
def vcltq (s : Signedness) (w : Nat) {n : Nat} (a b : Reg w n) : Reg w n :=
  match s with
  | Signedness.signed =>
    Reg.zipLanes (lane_cmplt_s w) (fun _ _ _ _ => ite_all_bits_lt w _) a b
  | Signedness.unsigned =>
    Reg.zipLanes (lane_cmplt_u w) (fun _ _ _ _ => ite_all_bits_lt w _) a b

/-- The ALTIVEC less-than compare (`vec_cmplt` on `__vector int8_t`, `__vector uint8_t`,
...), overloaded on the element type of its operands. -/
def vec_cmplt (s : Signedness) (w : Nat) {n : Nat} (a b : Reg w n) : Reg w n :=
  match s with
  | Signedness.signed =>
    Reg.zipLanes (lane_cmplt_s w) (fun _ _ _ _ => ite_all_bits_lt w _) a b
  | Signedness.unsigned =>
    Reg.zipLanes (lane_cmplt_u w) (fun _ _ _ _ => ite_all_bits_lt w _) a b

/-- The x86 packed minimum (`_mm_min_epi8/16/32`, `_mm_min_epu8/16/32` and the
`_mm256_` forms). -/
def mm_min (s : Signedness) (w : Nat) {n : Nat} (a b : Reg w n) : Reg w n :=
  Reg.zipLanes (lane_mm_min s w) (fun _ _ hx hy => ite_lane_lt _ hx hy) a b

/-- The NEON minimum (`vminq_s8/16/32`, `vminq_u8/16/32`). -/
def vminq (s : Signedness) (w : Nat) {n : Nat} (a b : Reg w n) : Reg w n :=
  Reg.zipLanes (lane_vmin s w) (fun _ _ _ _ => ofSigned_lt w _) a b

/-- The ALTIVEC minimum (`vec_min`), overloaded on the element type. -/
def vec_min (s : Signedness) (w : Nat) {n : Nat} (a b : Reg w n) : Reg w n :=
  Reg.zipLanes (lane_vec_min s w) (fun _ _ hx hy => ite_lane_lt _ hy hx) a b

/-! ## Width decomposition -/

/-- Modelled from the spec: the low half of a double-width vector (element `[0]` of
the generic two-register vector class, which is not among the sources): lanes
`0 .. n-1`. -/
def half0 {w : Nat} (n : Nat) (a : Reg w (n + n)) : Reg w n :=
  ⟨fun i => a.lane ⟨i.val, by omega⟩, fun _ => a.bound _⟩

/-- Modelled from the spec: the high half of a double-width vector (element `[1]` of
the generic two-register vector class): lanes `n .. 2n-1`. -/
def half1 {w : Nat} (n : Nat) (a : Reg w (n + n)) : Reg w n :=
  ⟨fun i => a.lane ⟨i.val + n, by omega⟩, fun _ => a.bound _⟩

/-- Modelled from the spec: recombination of two half vectors into the full-width
vector, preserving lane order (the first half occupies the low-index lanes). -/
def combine {w : Nat} (n : Nat) (h0 h1 : Reg w n) : Reg w (n + n) :=
  ⟨fun i => if h : i.val < n then h0.lane ⟨i.val, h⟩ else h1.lane ⟨i.val - n, by omega⟩,
   fun i => by
     by_cases h : i.val < n
     · simp only [h, dite_true]
       exact h0.bound _
     · simp only [h, dite_false]
       exact h1.bound _⟩

/-- Modelled from the spec: the macro `SIMDPP_VEC_ARRAY_IMPL2(R, OP, A, B)` (not among
the sources): split both operands into their halves, dispatch `OP` on each pair of
halves, and recombine the two half-results in order. -/
def SIMDPP_VEC_ARRAY_IMPL2 {w : Nat} (n : Nat) (op : Reg w n → Reg w n → Option (Reg w n))
    (a b : Reg w (n + n)) : Option (Reg w (n + n)) :=
  match op (half0 n a) (half0 n b), op (half1 n a) (half1 n b) with
  | some r0, some r1 => some (combine n r0 r1)
  | _, _ => none

/-- The conversion of a `gint8<32>` (and of the derived `int8<32>`, `uint8<32>`) to the
native `__m256i` that an intrinsic call needs for a class-typed argument. The classes of
int8x32.h declare a constructor from `__m256i` but no conversion to it, and the member
`d_` is private: the conversion does not exist, so such a call is ill-formed and has no
value. -/
def gint8x32.to_m256i (_v : gint8x32) : Option (Reg 8 32) := none

/-- The class `mask_int8<32>`: a mask for a 32x 8-bit integer vector, stored as the
underlying generic vector `d_`. -/
structure mask_int8x32 where
  d_ : gint8x32

/-- The constructor `mask_int8<32>(__m256i d) : d_(d)`. -/
def mask_int8x32.of_m256i (d : Reg 8 32) : mask_int8x32 := ⟨d⟩

/-- The constructor `mask_int8<32>(gint8x32 d) : d_(d)`. -/
def mask_int8x32.of_gint8x32 (d : gint8x32) : mask_int8x32 := ⟨d⟩

/-- Lane `i` of a mask. -/
def mask_int8x32.lane (m : mask_int8x32) (i : Fin 32) : Nat := m.d_.lane i

/-! ## `cmp_lt` (simdpp/core/cmp_lt.h) -/

/-- The overload `cmp_lt(int8x16, int8x16)` (cmp_lt.h, lines 56-67). -/
def cmp_lt_int8x16 (c : Caps) (a b : int8x16) : Option mask_int8x16 :=
  if c.USE_NULL then some (null.cmp_lt Signedness.signed a b)
  else if c.USE_SSE2 then some (mm_cmplt_epi 8 a b)
  else if c.USE_NEON then some (vcltq Signedness.signed 8 a b)
  else if c.USE_ALTIVEC then some (vec_cmplt Signedness.signed 8 a b)
  else none

/-- The overload `cmp_lt(int8x32, int8x32)` (cmp_lt.h, lines 69-76). The AVX2 arm,
`return _mm256_cmpgt_epi8(b, a);`, hands the two `int8x32` objects to the intrinsic,
which needs them converted to `__m256i`. -/
def cmp_lt_int8x32 (c : Caps) (a b : int8x32) : Option mask_int8x32 :=
  if c.USE_AVX2 then
    (gint8x32.to_m256i b).bind fun rb => (gint8x32.to_m256i a).bind fun ra =>
      some (mask_int8x32.of_m256i (mm_cmpgt_epi 8 rb ra))
  else (SIMDPP_VEC_ARRAY_IMPL2 16 (cmp_lt_int8x16 c) a b).map mask_int8x32.of_gint8x32

/-- The overload `cmp_lt(uint8x16, uint8x16)` (cmp_lt.h, lines 97-113). -/
def cmp_lt_uint8x16 (c : Caps) (a b : uint8x16) : Option mask_int8x16 :=
  if c.USE_NULL then some (null.cmp_lt Signedness.unsigned a b)
  else if c.USE_XOP then some (mm_comlt_epu 8 a b)
  else if c.USE_SSE2 then
    let bias : uint8x16 := make_const 8 16 0x80
    let a1 := bit_xor a bias
    let b1 := bit_xor b bias
    some (mm_cmplt_epi 8 a1 b1)
  else if c.USE_NEON then some (vcltq Signedness.unsigned 8 a b)
  else if c.USE_ALTIVEC then some (vec_cmplt Signedness.unsigned 8 a b)
  else none

/-- The overload `cmp_lt(uint8x32, uint8x32)` (cmp_lt.h, lines 115-125). The AVX2 arm
ends in `return _mm256_cmpgt_epi8(b, a);` on the two biased `uint8x32` objects, which
the intrinsic needs converted to `__m256i`. -/
def cmp_lt_uint8x32 (c : Caps) (a b : uint8x32) : Option mask_int8x32 :=
  if c.USE_AVX2 then
    let bias : uint8x32 := make_const 8 32 0x80
    let a1 := bit_xor a bias
    let b1 := bit_xor b bias
    (gint8x32.to_m256i b1).bind fun rb => (gint8x32.to_m256i a1).bind fun ra =>
      some (mask_int8x32.of_m256i (mm_cmpgt_epi 8 rb ra))
  else (SIMDPP_VEC_ARRAY_IMPL2 16 (cmp_lt_uint8x16 c) a b).map mask_int8x32.of_gint8x32

/-- The overload `cmp_lt(int16x8, int16x8)` (cmp_lt.h, lines 140-151). -/
def cmp_lt_int16x8 (c : Caps) (a b : int16x8) : Option mask_int16x8 :=
  if c.USE_NULL then some (null.cmp_lt Signedness.signed a b)
  else if c.USE_SSE2 then some (mm_cmplt_epi 16 a b)
  else if c.USE_NEON then some (vcltq Signedness.signed 16 a b)
  else if c.USE_ALTIVEC then some (vec_cmplt Signedness.signed 16 a b)
  else none

/-- The overload `cmp_lt(int16x16, int16x16)` (cmp_lt.h, lines 153-160). The 256-bit classes with
16-bit lanes are not among the sources; the AVX2 arm is taken on their native
registers. -/
def cmp_lt_int16x16 (c : Caps) (a b : int16x16) : Option mask_int16x16 :=
  if c.USE_AVX2 then some (mm_cmpgt_epi 16 b a)
  else SIMDPP_VEC_ARRAY_IMPL2 8 (cmp_lt_int16x8 c) a b

/-- The overload `cmp_lt(uint16x8, uint16x8)` (cmp_lt.h, lines 181-197). -/
def cmp_lt_uint16x8 (c : Caps) (a b : uint16x8) : Option mask_int16x8 :=
  if c.USE_NULL then some (null.cmp_lt Signedness.unsigned a b)
  else if c.USE_XOP then some (mm_comlt_epu 16 a b)
  else if c.USE_SSE2 then
    let bias : uint16x8 := make_const 16 8 0x8000
    let a1 := bit_xor a bias
    let b1 := bit_xor b bias
    some (mm_cmplt_epi 16 a1 b1)
  else if c.USE_NEON then some (vcltq Signedness.unsigned 16 a b)
  else if c.USE_ALTIVEC then some (vec_cmplt Signedness.unsigned 16 a b)
  else none

/-- The overload `cmp_lt(uint16x16, uint16x16)` (cmp_lt.h, lines 199-209). The 256-bit classes with
16-bit lanes are not among the sources; the AVX2 arm is taken on their native
registers. -/
def cmp_lt_uint16x16 (c : Caps) (a b : uint16x16) : Option mask_int16x16 :=
  if c.USE_AVX2 then
    let bias : uint16x16 := make_const 16 16 0x8000
    let a1 := bit_xor a bias
    let b1 := bit_xor b bias
    some (mm_cmpgt_epi 16 b1 a1)
  else SIMDPP_VEC_ARRAY_IMPL2 8 (cmp_lt_uint16x8 c) a b

/-- The overload `cmp_lt(int32x4, int32x4)` (cmp_lt.h, lines 224-235). -/
def cmp_lt_int32x4 (c : Caps) (a b : int32x4) : Option mask_int32x4 :=
  if c.USE_NULL then some (null.cmp_lt Signedness.signed a b)
  else if c.USE_SSE2 then some (mm_cmplt_epi 32 a b)
  else if c.USE_NEON then some (vcltq Signedness.signed 32 a b)
  else if c.USE_ALTIVEC then some (vec_cmplt Signedness.signed 32 a b)
  else none

/-- The overload `cmp_lt(int32x8, int32x8)` (cmp_lt.h, lines 237-244). The 256-bit classes with
32-bit lanes are not among the sources; the AVX2 arm is taken on their native
registers. -/
def cmp_lt_int32x8 (c : Caps) (a b : int32x8) : Option mask_int32x8 :=
  if c.USE_AVX2 then some (mm_cmpgt_epi 32 b a)
  else SIMDPP_VEC_ARRAY_IMPL2 4 (cmp_lt_int32x4 c) a b

/-- The overload `cmp_lt(uint32x4, uint32x4)` (cmp_lt.h, lines 265-281). -/
def cmp_lt_uint32x4 (c : Caps) (a b : uint32x4) : Option mask_int32x4 :=
  if c.USE_NULL then some (null.cmp_lt Signedness.unsigned a b)
  else if c.USE_XOP then some (mm_comlt_epu 32 a b)
  else if c.USE_SSE2 then
    let bias : uint32x4 := make_const 32 4 0x80000000
    let a1 := bit_xor a bias
    let b1 := bit_xor b bias
    some (mm_cmplt_epi 32 a1 b1)
  else if c.USE_NEON then some (vcltq Signedness.unsigned 32 a b)
  else if c.USE_ALTIVEC then some (vec_cmplt Signedness.unsigned 32 a b)
  else none

/-- The overload `cmp_lt(uint32x8, uint32x8)` (cmp_lt.h, lines 283-293). The 256-bit classes with
32-bit lanes are not among the sources; the AVX2 arm is taken on their native
registers. -/
def cmp_lt_uint32x8 (c : Caps) (a b : uint32x8) : Option mask_int32x8 :=
  if c.USE_AVX2 then
    let bias : uint32x8 := make_const 32 8 0x80000000
    let a1 := bit_xor a bias
    let b1 := bit_xor b bias
    some (mm_cmpgt_epi 32 b1 a1)
  else SIMDPP_VEC_ARRAY_IMPL2 4 (cmp_lt_uint32x4 c) a b

/-! ## `min` (simdpp/core/i_min.h) -/

/-- The overload `min(int8x16, int8x16)` (i_min.h, lines 62-76). -/
def min_int8x16 (c : Caps) (a b : int8x16) : Option int8x16 :=
  if c.USE_NULL then some (null.min Signedness.signed a b)
  else if c.USE_SSE4_1 then some (mm_min Signedness.signed 8 a b)
  else if c.USE_SSE2 then
    (cmp_lt_int8x16 c a b).map (fun mask => blend a b mask)
  else if c.USE_NEON then some (vminq Signedness.signed 8 a b)
  else if c.USE_ALTIVEC then some (vec_min Signedness.signed 8 a b)
  else none

/-- The overload `min(int8x32, int8x32)` (i_min.h, lines 78-85). The AVX2 arm,
`return _mm256_min_epi8(a, b);`, hands the two `int8x32` objects to the intrinsic, which
needs them converted to `__m256i`. -/
def min_int8x32 (c : Caps) (a b : int8x32) : Option int8x32 :=
  if c.USE_AVX2 then
    (gint8x32.to_m256i a).bind fun ra => (gint8x32.to_m256i b).bind fun rb =>
      some (mm_min Signedness.signed 8 ra rb)
  else SIMDPP_VEC_ARRAY_IMPL2 16 (min_int8x16 c) a b

/-- The overload `min(uint8x16, uint8x16)` (i_min.h, lines 100-111). -/
def min_uint8x16 (c : Caps) (a b : uint8x16) : Option uint8x16 :=
  if c.USE_NULL then some (null.min Signedness.unsigned a b)
  else if c.USE_SSE2 then some (mm_min Signedness.unsigned 8 a b)
  else if c.USE_NEON then some (vminq Signedness.unsigned 8 a b)
  else if c.USE_ALTIVEC then some (vec_min Signedness.unsigned 8 a b)
  else none

/-- The overload `min(uint8x32, uint8x32)` (i_min.h, lines 113-120). The AVX2 arm,
`return _mm256_min_epu8(a, b);`, hands the two `uint8x32` objects to the intrinsic, which
needs them converted to `__m256i`. -/
def min_uint8x32 (c : Caps) (a b : uint8x32) : Option uint8x32 :=
  if c.USE_AVX2 then
    (gint8x32.to_m256i a).bind fun ra => (gint8x32.to_m256i b).bind fun rb =>
      some (mm_min Signedness.unsigned 8 ra rb)
  else SIMDPP_VEC_ARRAY_IMPL2 16 (min_uint8x16 c) a b

/-- The overload `min(int16x8, int16x8)` (i_min.h, lines 135-146). -/
def min_int16x8 (c : Caps) (a b : int16x8) : Option int16x8 :=
  if c.USE_NULL then some (null.min Signedness.signed a b)
  else if c.USE_SSE2 then some (mm_min Signedness.signed 16 a b)
  else if c.USE_NEON then some (vminq Signedness.signed 16 a b)
  else if c.USE_ALTIVEC then some (vec_min Signedness.signed 16 a b)
  else none

/-- The overload `min(int16x16, int16x16)` (i_min.h, lines 148-155). The 256-bit classes with
16-bit lanes are not among the sources; the AVX2 arm is taken on their native
registers. -/
def min_int16x16 (c : Caps) (a b : int16x16) : Option int16x16 :=
  if c.USE_AVX2 then some (mm_min Signedness.signed 16 a b)
  else SIMDPP_VEC_ARRAY_IMPL2 8 (min_int16x8 c) a b

/-- The overload `min(uint16x8, uint16x8)` (i_min.h, lines 174-188). -/
def min_uint16x8 (c : Caps) (a b : uint16x8) : Option uint16x8 :=
  if c.USE_NULL then some (null.min Signedness.unsigned a b)
  else if c.USE_SSE4_1 then some (mm_min Signedness.unsigned 16 a b)
  else if c.USE_SSE2 then
    (cmp_lt_uint16x8 c a b).map (fun mask => blend a b mask)
  else if c.USE_NEON then some (vminq Signedness.unsigned 16 a b)
  else if c.USE_ALTIVEC then some (vec_min Signedness.unsigned 16 a b)
  else none

/-- The overload `min(uint16x16, uint16x16)` (i_min.h, lines 190-197). The 256-bit classes with
16-bit lanes are not among the sources; the AVX2 arm is taken on their native
registers. -/
def min_uint16x16 (c : Caps) (a b : uint16x16) : Option uint16x16 :=
  if c.USE_AVX2 then some (mm_min Signedness.unsigned 16 a b)
  else SIMDPP_VEC_ARRAY_IMPL2 8 (min_uint16x8 c) a b

/-- The overload `min(int32x4, int32x4)` (i_min.h, lines 216-230). -/
def min_int32x4 (c : Caps) (a b : int32x4) : Option int32x4 :=
  if c.USE_NULL then some (null.min Signedness.signed a b)
  else if c.USE_SSE4_1 then some (mm_min Signedness.signed 32 a b)
  else if c.USE_SSE2 then
    (cmp_lt_int32x4 c a b).map (fun mask => blend a b mask)
  else if c.USE_NEON then some (vminq Signedness.signed 32 a b)
  else if c.USE_ALTIVEC then some (vec_min Signedness.signed 32 a b)
  else none

/-- The overload `min(int32x8, int32x8)` (i_min.h, lines 232-239). The 256-bit classes with
32-bit lanes are not among the sources; the AVX2 arm is taken on their native
registers. -/
def min_int32x8 (c : Caps) (a b : int32x8) : Option int32x8 :=
  if c.USE_AVX2 then some (mm_min Signedness.signed 32 a b)
  else SIMDPP_VEC_ARRAY_IMPL2 4 (min_int32x4 c) a b

/-- The overload `min(uint32x4, uint32x4)` (i_min.h, lines 258-272). -/
def min_uint32x4 (c : Caps) (a b : uint32x4) : Option uint32x4 :=
  if c.USE_NULL then some (null.min Signedness.unsigned a b)
  else if c.USE_SSE4_1 then some (mm_min Signedness.unsigned 32 a b)
  else if c.USE_SSE2 then
    (cmp_lt_uint32x4 c a b).map (fun mask => blend a b mask)
  else if c.USE_NEON then some (vminq Signedness.unsigned 32 a b)
  else if c.USE_ALTIVEC then some (vec_min Signedness.unsigned 32 a b)
  else none

/-- The overload `min(uint32x8, uint32x8)` (i_min.h, lines 274-281). The 256-bit classes with
32-bit lanes are not among the sources; the AVX2 arm is taken on their native
registers. -/
def min_uint32x8 (c : Caps) (a b : uint32x8) : Option uint32x8 :=
  if c.USE_AVX2 then some (mm_min Signedness.unsigned 32 a b)
  else SIMDPP_VEC_ARRAY_IMPL2 4 (min_uint32x4 c) a b

/-- Some arm of the `#if` chains over `NULL / SSE2 / NEON / ALTIVEC` is selected. -/
def Caps.hasPrimary (c : Caps) : Bool :=
  c.USE_NULL || c.USE_SSE2 || c.USE_NEON || c.USE_ALTIVEC

/-- The configuration reaches the plain `SIMDPP_USE_SSE2` arm of a chain whose
earlier arms test `NULL` and `XOP` (the sign-bias arm of the unsigned compares). -/
def Caps.sse2Bias (c : Caps) : Bool :=
  !c.USE_NULL && !c.USE_XOP && c.USE_SSE2

/-- The configuration reaches the plain `SIMDPP_USE_SSE2` arm of a chain whose
earlier arms test `NULL` and `SSE4_1` (the `cmp_lt` + `blend` arm of `min`). -/
def Caps.sse2Composite (c : Caps) : Bool :=
  !c.USE_NULL && !c.USE_SSE4_1 && c.USE_SSE2

/-- The wide result `res` is returned and is the in-order concatenation of the two
returned half results: the low half occupies lanes `0 .. n-1`, the high half lanes
`n .. 2n-1`. -/
def IsConcatOf {w : Nat} (n : Nat) (res : Option (Reg w (n + n)))
    (lo hi : Option (Reg w n)) : Prop :=
  ∃ r0 r1 r, lo = some r0 ∧ hi = some r1 ∧ res = some r ∧ r = combine n r0 r1
    ∧ ∀ i : Fin n, r.lane ⟨i.val, by omega⟩ = r0.lane i
        ∧ r.lane ⟨i.val + n, by omega⟩ = r1.lane i

/-! ## Nested width decomposition -/

/-- Lane count of an `n`-lane vector after `d` doublings of its width. -/
def wideLanes (n : Nat) : Nat → Nat
  | 0 => n
  | d + 1 => wideLanes n d + wideLanes n d

/-- Modelled from the spec: width decomposition nested `d` levels deep (the generic
helper is not among the sources, which only ever use one level): the operation on a
vector of `2^d` times the native width splits both operands into halves, dispatches the
operation one level down on each pair of halves and recombines, bottoming out at the
native-width operation `op`. -/
def decompose {w : Nat} (n : Nat) (op : Reg w n → Reg w n → Option (Reg w n)) :
    (d : Nat) → Reg w (wideLanes n d) → Reg w (wideLanes n d) → Option (Reg w (wideLanes n d))
  | 0 => op
  | d + 1 => SIMDPP_VEC_ARRAY_IMPL2 (wideLanes n d) (decompose n op d)

/-! ## `make_const` with several literals (simdpp/types/int8x32.h) -/

/-- Modelled from the spec: the literal pattern `v0..vk` repeated to fill `n` lanes, in
index order: `n / (k+1)` copies of the pattern laid end to end. -/
def fill_pattern {α : Type} (n : Nat) (vs : List α) : List α :=
  (List.replicate (n / vs.length) vs).flatten

/-- Modelled from the spec: the `uint8<32>::make_const` overloads (declared in
int8x32.h with 1, 2, 4, 8, 16 or 32 `uint8_t` literals, bodies not among the sources):
lane `i` holds entry `i` of the repeated pattern. -/
def uint8x32.make_const (vs : List Nat) : uint8x32 :=
  ⟨fun i => ((fill_pattern 32 vs).getD i.val 0) % 2 ^ 8,
   fun _ => Nat.mod_lt _ (Nat.two_pow_pos 8)⟩

/-- Modelled from the spec: the `int8<32>::make_const` overloads (declared in
int8x32.h with 1, 2, 4, 8, 16 or 32 `int8_t` literals, bodies not among the sources):
lane `i` holds the 8-bit pattern of entry `i` of the repeated pattern. -/
def int8x32.make_const (vs : List Int) : int8x32 :=
  ⟨fun i => ofSigned 8 ((fill_pattern 32 vs).getD i.val 0), fun _ => ofSigned_lt 8 _⟩

/-! ## Single-register vector classes (simdpp/types/int8x32.h) -/

/-- The constant `gint8<32>::vec_length`, inherited by `int8<32>` and `uint8<32>`. -/
def gint8x32.vec_length : Nat := 1

/-- The constant `mask_int8<32>::vec_length`. -/
def mask_int8x32.vec_length : Nat := 1

/-- `gint8<32>::operator[](unsigned i)`: `return *this;`. -/
def gint8x32.index (v : gint8x32) (_i : Nat) : gint8x32 := v

/-- `int8<32>::operator[](unsigned i)`: `return *this;`. -/
def int8x32.index (v : int8x32) (_i : Nat) : int8x32 := v

/-- `uint8<32>::operator[](unsigned i)`: `return *this;`. -/
def uint8x32.index (v : uint8x32) (_i : Nat) : uint8x32 := v

/-- `mask_int8<32>::operator[](unsigned i)`: `return *this;`. -/
def mask_int8x32.index (v : mask_int8x32) (_i : Nat) : mask_int8x32 := v

/-- The object a pointer designates, pointers being offsets from `this` counted in whole
vectors: offset `0` is the vector itself, any other offset is outside the object. -/
def deref {α : Type} (self : α) (p : Nat) : Option α := if p = 0 then some self else none

/-- `begin()` of the four classes: `return this;`. -/
def vec_begin {α : Type} (_self : α) : Nat := 0

/-- `end()` of the four classes: `return this+1;`. -/
def vec_end {α : Type} (self : α) : Nat := vec_begin self + 1

/-- The elements of the pointer range `[first, last)` over the storage of `self`. -/
def rangeElems {α : Type} (self : α) (first last : Nat) : List (Option α) :=
  (List.range' first (last - first)).map (deref self)

/-! ## The dispatch chains as arm selection -/

/-- The primary ISA flags of a configuration (scalar null, the SSE generations, AVX,
AVX2, NEON, ALTIVEC); XOP is an extension flag. -/
def Caps.primaryFlags (c : Caps) : List Bool :=
  [c.USE_NULL, c.USE_SSE2, c.USE_SSE4_1, c.USE_AVX, c.USE_AVX2, c.USE_NEON, c.USE_ALTIVEC]

/-- Exactly one primary ISA flag is true. -/
def Caps.exactlyOnePrimary (c : Caps) : Bool := c.primaryFlags.count true == 1

/-! ## Concrete configurations and vectors used as test inputs -/

/-- A build with only `SIMDPP_USE_NULL` set. -/
def capsNULL : Caps := ⟨true, false, false, false, false, false, false, false⟩

/-- A plain SSE2 build (no SSE4.1, no XOP, no AVX2). -/
def capsSSE2 : Caps := ⟨false, true, false, false, false, false, false, false⟩

/-- An SSE4.1 build. -/
def capsSSE4_1 : Caps := ⟨false, true, true, false, false, false, false, false⟩

/-- An XOP build (on top of SSE2 .. AVX). -/
def capsXOP : Caps := ⟨false, true, true, true, false, true, false, false⟩

/-- An AVX2 build. -/
def capsAVX2 : Caps := ⟨false, true, true, true, true, false, false, false⟩

/-- A NEON build. -/
def capsNEON : Caps := ⟨false, false, false, false, false, false, true, false⟩

/-- An ALTIVEC build. -/
def capsALTIVEC : Caps := ⟨false, false, false, false, false, false, false, true⟩

/-- A configuration whose only true flag is `SIMDPP_USE_AVX2`. -/
def capsOnlyAVX2 : Caps := ⟨false, false, false, false, true, false, false, false⟩

/-- A configuration whose only true flag is `SIMDPP_USE_SSE4_1`. -/
def capsOnlySSE4_1 : Caps := ⟨false, false, true, false, false, false, false, false⟩

/-- The vector `[0, 1, ..., n-1]` (lanes reduced to `w` bits). -/
def iotaVec (w n : Nat) : Reg w n :=
  ⟨fun i => i.val % 2 ^ w, fun _ => Nat.mod_lt _ (Nat.two_pow_pos w)⟩

/-- The vector `[n-1, ..., 1, 0]` (lanes reduced to `w` bits). -/
def revVec (w n : Nat) : Reg w n :=
  ⟨fun i => (n - 1 - i.val) % 2 ^ w, fun _ => Nat.mod_lt _ (Nat.two_pow_pos w)⟩

/-- The vector `[k+1, k+2, ..., k+n]` (lanes reduced to `w` bits). -/
def rampVec (w n k : Nat) : Reg w n :=
  ⟨fun i => (k + 1 + i.val) % 2 ^ w, fun _ => Nat.mod_lt _ (Nat.two_pow_pos w)⟩

/-! ## Lane arithmetic -/

theorem all_bits_8 : all_bits 8 = 0xff := by decide

theorem all_bits_16 : all_bits 16 = 0xffff := by decide

theorem all_bits_32 : all_bits 32 = 0xffffffff := by decide

theorem all_bits_pos {w : Nat} (hw : 0 < w) : 0 < all_bits w := by
  have h : 2 ^ 1 ≤ 2 ^ w := Nat.pow_le_pow_right (by decide) hw
  unfold all_bits
  omega

theorem two_pow_pred {w : Nat} (hw : 0 < w) : 2 ^ w = 2 * 2 ^ (w - 1) := by
  obtain ⟨k, rfl⟩ : ∃ k, w = k + 1 := ⟨w - 1, by omega⟩
  rw [Nat.pow_succ]
  simp
  omega

/-- XOR with a power of two above the value sets that bit: it adds the power. -/
theorem xor_two_pow_of_lt {k x : Nat} (h : x < 2 ^ k) : x ^^^ 2 ^ k = x + 2 ^ k := by
  apply Nat.eq_of_testBit_eq
  intro j
  rw [Nat.testBit_xor, Nat.add_comm]
  rcases Nat.lt_trichotomy j k with hj | hj | hj
  · rw [Nat.testBit_two_pow_add_gt hj, Nat.testBit_two_pow_of_ne (Nat.ne_of_gt hj)]
    simp
  · subst hj
    rw [Nat.testBit_two_pow_add_eq, Nat.testBit_two_pow_self, Nat.testBit_lt_two_pow h]
    rfl
  · have h1 : x < 2 ^ j :=
      Nat.lt_of_lt_of_le h (Nat.pow_le_pow_right (by decide) (Nat.le_of_lt hj))
    have h2 : 2 ^ k + x < 2 ^ j := by
      have h3 : 2 ^ (k + 1) ≤ 2 ^ j := Nat.pow_le_pow_right (by decide) hj
      rw [Nat.pow_succ] at h3
      omega
    rw [Nat.testBit_lt_two_pow h1, Nat.testBit_lt_two_pow h2,
      Nat.testBit_two_pow_of_ne (Nat.ne_of_lt hj)]
    rfl

/-- XOR with the top bit of a value that has it set clears it: it subtracts the power. -/
theorem xor_two_pow_of_ge {k x : Nat} (h1 : 2 ^ k ≤ x) (h2 : x < 2 ^ (k + 1)) :
    x ^^^ 2 ^ k = x - 2 ^ k := by
  have hy : x - 2 ^ k < 2 ^ k := by
    rw [Nat.pow_succ] at h2
    omega
  have hx : x = (x - 2 ^ k) ^^^ 2 ^ k := by
    rw [xor_two_pow_of_lt hy]
    omega
  calc x ^^^ 2 ^ k = ((x - 2 ^ k) ^^^ 2 ^ k) ^^^ 2 ^ k := by rw [← hx]
    _ = x - 2 ^ k := by rw [Nat.xor_assoc, Nat.xor_self, Nat.xor_zero]

/-- The signed reading of a sign-biased pattern is the unsigned value shifted down by
`2 ^ (w - 1)`. -/
theorem toSigned_xor_bias {w x : Nat} (hw : 0 < w) (hx : x < 2 ^ w) :
    toSigned w (x ^^^ 2 ^ (w - 1)) = (x : Int) - ((2 ^ (w - 1) : Nat) : Int) := by
  have h2 := two_pow_pred hw
  have hw1 : w - 1 + 1 = w := by omega
  by_cases hlt : x < 2 ^ (w - 1)
  · have e := xor_two_pow_of_lt hlt
    unfold toSigned
    have h2i : ((2 ^ w : Nat) : Int) = 2 * ((2 ^ (w - 1) : Nat) : Int) := by
      exact_mod_cast h2
    rw [e, if_neg (by omega), Nat.cast_add, h2i]
    ring
  · have hx1 : x < 2 ^ (w - 1 + 1) := by rw [hw1]; exact hx
    have e := xor_two_pow_of_ge (Nat.le_of_not_lt hlt) hx1
    unfold toSigned
    rw [e, if_pos (by omega), Nat.cast_sub (Nat.le_of_not_lt hlt)]

/-- Sign-bias transform: the signed order of the biased patterns is the unsigned order
of the originals. -/
theorem biased_lt_iff {w x y : Nat} (hw : 0 < w) (hx : x < 2 ^ w) (hy : y < 2 ^ w) :
    toSigned w (x ^^^ 2 ^ (w - 1)) < toSigned w (y ^^^ 2 ^ (w - 1)) ↔ x < y := by
  rw [toSigned_xor_bias hw hx, toSigned_xor_bias hw hy]
  omega

theorem ite_all_bits_eq_iff {w : Nat} (hw : 0 < w) (p : Prop) [Decidable p] :
    (if p then all_bits w else 0) = all_bits w ↔ p := by
  have h := all_bits_pos hw
  by_cases hp : p
  · simp [hp]
  · simp [hp]
    omega

/-! ## The native compares against the scalar fallback -/

theorem null_cmp_lt_lane (s : Signedness) {w n : Nat} (a b : Reg w n) (i : Fin n) :
    (null.cmp_lt s a b).lane i
      = if readLane s w (a.lane i) < readLane s w (b.lane i) then all_bits w else 0 := rfl

theorem mm_cmplt_epi_eq_null (w : Nat) {n : Nat} (a b : Reg w n) :
    mm_cmplt_epi w a b = null.cmp_lt Signedness.signed a b := rfl

theorem mm_comlt_epu_eq_null (w : Nat) {n : Nat} (a b : Reg w n) :
    mm_comlt_epu w a b = null.cmp_lt Signedness.unsigned a b := by
  apply Reg.ext_lane
  intro i
  simp [mm_comlt_epu, null.cmp_lt, Reg.zipLanes, lane_cmplt_u, lane_null_cmp_lt, readLane]

theorem vcltq_eq_null (s : Signedness) (w : Nat) {n : Nat} (a b : Reg w n) :
    vcltq s w a b = null.cmp_lt s a b := by
  apply Reg.ext_lane
  intro i
  cases s <;>
    simp [vcltq, null.cmp_lt, Reg.zipLanes, lane_cmplt_u, lane_cmplt_s, lane_null_cmp_lt,
      readLane]

theorem vec_cmplt_eq_null (s : Signedness) (w : Nat) {n : Nat} (a b : Reg w n) :
    vec_cmplt s w a b = null.cmp_lt s a b := by
  apply Reg.ext_lane
  intro i
  cases s <;>
    simp [vec_cmplt, null.cmp_lt, Reg.zipLanes, lane_cmplt_u, lane_cmplt_s, lane_null_cmp_lt,
      readLane]

/-- The sign-bias arm: signed compare of the two operands XOR-ed with the sign-bit
constant is the unsigned scalar compare. -/
theorem bias_cmplt_eq_null {w n : Nat} (hw : 0 < w) (v : Nat) (hv : v % 2 ^ w = 2 ^ (w - 1))
    (a b : Reg w n) :
    mm_cmplt_epi w (bit_xor a (make_const w n v)) (bit_xor b (make_const w n v))
      = null.cmp_lt Signedness.unsigned a b := by
  apply Reg.ext_lane
  intro i
  have h := biased_lt_iff hw (a.bound i) (b.bound i)
  simp only [mm_cmplt_epi, mm_cmpgt_epi, bit_xor, make_const, null.cmp_lt, Reg.zipLanes,
    lane_cmpgt_s, lane_null_cmp_lt, readLane, hv]
  by_cases hlt : a.lane i < b.lane i
  · rw [if_pos (h.mpr hlt), if_pos (by exact_mod_cast hlt)]
  · rw [if_neg (fun hh => hlt (h.mp hh)), if_neg (by exact_mod_cast hlt)]

/-- Lane contract of the scalar compare: all ones exactly when the first operand is
smaller at the element type, zero otherwise. -/
theorem null_cmp_lt_spec (s : Signedness) {w n : Nat} (hw : 0 < w) (a b : Reg w n)
    (i : Fin n) :
    ((null.cmp_lt s a b).lane i = all_bits w
        ↔ readLane s w (a.lane i) < readLane s w (b.lane i))
      ∧ (¬ readLane s w (a.lane i) < readLane s w (b.lane i)
        → (null.cmp_lt s a b).lane i = 0) := by
  rw [null_cmp_lt_lane]
  refine ⟨ite_all_bits_eq_iff hw _, fun h => ?_⟩
  rw [if_neg h]

theorem readLane_unsigned_lt (w x y : Nat) :
    readLane Signedness.unsigned w x < readLane Signedness.unsigned w y ↔ x < y := by
  simp [readLane]

theorem cmp_lt_int8x16_eq_null (c : Caps) (h : c.hasPrimary = true) (a b : int8x16) :
    cmp_lt_int8x16 c a b = some (null.cmp_lt Signedness.signed a b) := by
  rcases c with ⟨n, s2, s41, avx, avx2, xop, neon, av⟩
  simp only [Caps.hasPrimary] at h
  cases n <;> cases s2 <;> cases neon <;> cases av <;>
    simp_all [cmp_lt_int8x16, mm_cmplt_epi_eq_null, vcltq_eq_null, vec_cmplt_eq_null]

theorem cmp_lt_int16x8_eq_null (c : Caps) (h : c.hasPrimary = true) (a b : int16x8) :
    cmp_lt_int16x8 c a b = some (null.cmp_lt Signedness.signed a b) := by
  rcases c with ⟨n, s2, s41, avx, avx2, xop, neon, av⟩
  simp only [Caps.hasPrimary] at h
  cases n <;> cases s2 <;> cases neon <;> cases av <;>
    simp_all [cmp_lt_int16x8, mm_cmplt_epi_eq_null, vcltq_eq_null, vec_cmplt_eq_null]

theorem cmp_lt_int32x4_eq_null (c : Caps) (h : c.hasPrimary = true) (a b : int32x4) :
    cmp_lt_int32x4 c a b = some (null.cmp_lt Signedness.signed a b) := by
  rcases c with ⟨n, s2, s41, avx, avx2, xop, neon, av⟩
  simp only [Caps.hasPrimary] at h
  cases n <;> cases s2 <;> cases neon <;> cases av <;>
    simp_all [cmp_lt_int32x4, mm_cmplt_epi_eq_null, vcltq_eq_null, vec_cmplt_eq_null]

theorem cmp_lt_uint8x16_eq_null (c : Caps) (h : c.hasPrimary = true) (a b : uint8x16) :
    cmp_lt_uint8x16 c a b = some (null.cmp_lt Signedness.unsigned a b) := by
  have hb := @bias_cmplt_eq_null 8 16 (by decide) 0x80 (by decide) a b
  rcases c with ⟨n, s2, s41, avx, avx2, xop, neon, av⟩
  simp only [Caps.hasPrimary] at h
  cases n <;> cases xop <;> cases s2 <;> cases neon <;> cases av <;>
    simp_all [cmp_lt_uint8x16, mm_comlt_epu_eq_null, vcltq_eq_null, vec_cmplt_eq_null]

theorem cmp_lt_uint16x8_eq_null (c : Caps) (h : c.hasPrimary = true) (a b : uint16x8) :
    cmp_lt_uint16x8 c a b = some (null.cmp_lt Signedness.unsigned a b) := by
  have hb := @bias_cmplt_eq_null 16 8 (by decide) 0x8000 (by decide) a b
  rcases c with ⟨n, s2, s41, avx, avx2, xop, neon, av⟩
  simp only [Caps.hasPrimary] at h
  cases n <;> cases xop <;> cases s2 <;> cases neon <;> cases av <;>
    simp_all [cmp_lt_uint16x8, mm_comlt_epu_eq_null, vcltq_eq_null, vec_cmplt_eq_null]

theorem cmp_lt_uint32x4_eq_null (c : Caps) (h : c.hasPrimary = true) (a b : uint32x4) :
    cmp_lt_uint32x4 c a b = some (null.cmp_lt Signedness.unsigned a b) := by
  have hb := @bias_cmplt_eq_null 32 4 (by decide) 0x80000000 (by decide) a b
  rcases c with ⟨n, s2, s41, avx, avx2, xop, neon, av⟩
  simp only [Caps.hasPrimary] at h
  cases n <;> cases xop <;> cases s2 <;> cases neon <;> cases av <;>
    simp_all [cmp_lt_uint32x4, mm_comlt_epu_eq_null, vcltq_eq_null, vec_cmplt_eq_null]

/-! ## Comparison correctness -/

/-- C1: for signed 128-bit vectors with 8-, 16- or 32-bit lanes, on every build path of
`cmp_lt` (any configuration selecting the null, SSE2, NEON or ALTIVEC arm) the call
returns a mask whose lane `i` is `all_bits` (`0xff` / `0xffff` / `0xffffffff`) if and
only if `a.lane(i) < b.lane(i)` as two's-complement values, and `0` otherwise. -/
theorem cmp_lt_signed_lane_correct (c : Caps) (h : c.hasPrimary = true)
    (a8 b8 : int8x16) (a16 b16 : int16x8) (a32 b32 : int32x4) :
    (∃ r, cmp_lt_int8x16 c a8 b8 = some r ∧ ∀ i,
        (r.lane i = 0xff ↔ toSigned 8 (a8.lane i) < toSigned 8 (b8.lane i))
        ∧ (¬ toSigned 8 (a8.lane i) < toSigned 8 (b8.lane i) → r.lane i = 0))
    ∧ (∃ r, cmp_lt_int16x8 c a16 b16 = some r ∧ ∀ i,
        (r.lane i = 0xffff ↔ toSigned 16 (a16.lane i) < toSigned 16 (b16.lane i))
        ∧ (¬ toSigned 16 (a16.lane i) < toSigned 16 (b16.lane i) → r.lane i = 0))
    ∧ (∃ r, cmp_lt_int32x4 c a32 b32 = some r ∧ ∀ i,
        (r.lane i = 0xffffffff ↔ toSigned 32 (a32.lane i) < toSigned 32 (b32.lane i))
        ∧ (¬ toSigned 32 (a32.lane i) < toSigned 32 (b32.lane i) → r.lane i = 0)) := by
  refine ⟨⟨_, cmp_lt_int8x16_eq_null c h a8 b8, fun i => ?_⟩,
    ⟨_, cmp_lt_int16x8_eq_null c h a16 b16, fun i => ?_⟩,
    ⟨_, cmp_lt_int32x4_eq_null c h a32 b32, fun i => ?_⟩⟩
  · have h8 := null_cmp_lt_spec Signedness.signed (by decide : 0 < 8) a8 b8 i
    rw [all_bits_8] at h8
    exact h8
  · have h16 := null_cmp_lt_spec Signedness.signed (by decide : 0 < 16) a16 b16 i
    rw [all_bits_16] at h16
    exact h16
  · have h32 := null_cmp_lt_spec Signedness.signed (by decide : 0 < 32) a32 b32 i
    rw [all_bits_32] at h32
    exact h32

/-- C1, scenario 1 of the spec on the SSE2 path: `a = [0,1,...,15]`, `b = [15,14,...,0]`
satisfy the lane contract, and the mask is `all_bits` in lanes `0..7` and `0` in lanes
`8..15` on each of the null, SSE2, NEON and ALTIVEC paths. -/
theorem cmp_lt_signed_lane_correct_witness :
    capsSSE2.hasPrimary = true
    ∧ ((∃ r, cmp_lt_int8x16 capsSSE2 (iotaVec 8 16) (revVec 8 16) = some r ∧ ∀ i,
        (r.lane i = 0xff
          ↔ toSigned 8 ((iotaVec 8 16).lane i) < toSigned 8 ((revVec 8 16).lane i))
        ∧ (¬ toSigned 8 ((iotaVec 8 16).lane i) < toSigned 8 ((revVec 8 16).lane i)
          → r.lane i = 0))
      ∧ (∃ r, cmp_lt_int16x8 capsSSE2 (iotaVec 16 8) (revVec 16 8) = some r ∧ ∀ i,
        (r.lane i = 0xffff
          ↔ toSigned 16 ((iotaVec 16 8).lane i) < toSigned 16 ((revVec 16 8).lane i))
        ∧ (¬ toSigned 16 ((iotaVec 16 8).lane i) < toSigned 16 ((revVec 16 8).lane i)
          → r.lane i = 0))
      ∧ (∃ r, cmp_lt_int32x4 capsSSE2 (iotaVec 32 4) (revVec 32 4) = some r ∧ ∀ i,
        (r.lane i = 0xffffffff
          ↔ toSigned 32 ((iotaVec 32 4).lane i) < toSigned 32 ((revVec 32 4).lane i))
        ∧ (¬ toSigned 32 ((iotaVec 32 4).lane i) < toSigned 32 ((revVec 32 4).lane i)
          → r.lane i = 0)))
    ∧ (∀ c ∈ [capsNULL, capsSSE2, capsNEON, capsALTIVEC], ∀ i : Fin 16,
        (cmp_lt_int8x16 c (iotaVec 8 16) (revVec 8 16)).map (fun r => r.lane i)
          = some (if i.val < 8 then 0xff else 0)) :=
  ⟨by decide,
   cmp_lt_signed_lane_correct capsSSE2 (by decide) (iotaVec 8 16) (revVec 8 16)
     (iotaVec 16 8) (revVec 16 8) (iotaVec 32 4) (revVec 32 4),
   by decide⟩

theorem cmp_lt_uint8x16_sse2_arm (c : Caps) (h : c.sse2Bias = true) (a b : uint8x16) :
    cmp_lt_uint8x16 c a b
      = some (mm_cmplt_epi 8 (bit_xor a (make_const 8 16 0x80))
          (bit_xor b (make_const 8 16 0x80))) := by
  rcases c with ⟨n, s2, s41, avx, avx2, xop, neon, av⟩
  simp only [Caps.sse2Bias, Bool.and_eq_true, Bool.not_eq_true'] at h
  obtain ⟨⟨hn, hx⟩, hs⟩ := h
  subst hn hx hs
  simp [cmp_lt_uint8x16]

theorem cmp_lt_uint16x8_sse2_arm (c : Caps) (h : c.sse2Bias = true) (a b : uint16x8) :
    cmp_lt_uint16x8 c a b
      = some (mm_cmplt_epi 16 (bit_xor a (make_const 16 8 0x8000))
          (bit_xor b (make_const 16 8 0x8000))) := by
  rcases c with ⟨n, s2, s41, avx, avx2, xop, neon, av⟩
  simp only [Caps.sse2Bias, Bool.and_eq_true, Bool.not_eq_true'] at h
  obtain ⟨⟨hn, hx⟩, hs⟩ := h
  subst hn hx hs
  simp [cmp_lt_uint16x8]

theorem cmp_lt_uint32x4_sse2_arm (c : Caps) (h : c.sse2Bias = true) (a b : uint32x4) :
    cmp_lt_uint32x4 c a b
      = some (mm_cmplt_epi 32 (bit_xor a (make_const 32 4 0x80000000))
          (bit_xor b (make_const 32 4 0x80000000))) := by
  rcases c with ⟨n, s2, s41, avx, avx2, xop, neon, av⟩
  simp only [Caps.sse2Bias, Bool.and_eq_true, Bool.not_eq_true'] at h
  obtain ⟨⟨hn, hx⟩, hs⟩ := h
  subst hn hx hs
  simp [cmp_lt_uint32x4]

/-- Lane contract of the sign-bias arm at any width: the signed compare of the biased
operands is all ones exactly when `a.lane(i) < b.lane(i)` unsigned, zero otherwise. -/
theorem bias_cmplt_spec {w n : Nat} (hw : 0 < w) (v : Nat) (hv : v % 2 ^ w = 2 ^ (w - 1))
    (a b : Reg w n) (i : Fin n) :
    ((mm_cmplt_epi w (bit_xor a (make_const w n v)) (bit_xor b (make_const w n v))).lane i
        = all_bits w ↔ a.lane i < b.lane i)
      ∧ (¬ a.lane i < b.lane i
        → (mm_cmplt_epi w (bit_xor a (make_const w n v)) (bit_xor b (make_const w n v))).lane i
          = 0) := by
  rw [bias_cmplt_eq_null hw v hv a b]
  have h := null_cmp_lt_spec Signedness.unsigned hw a b i
  rw [readLane_unsigned_lt] at h
  exact h

/-- C2: for all unsigned 8-bit pairs the unsigned less-than equals the signed less-than
of the operands XOR-ed with `0x80`; the SSE2 arm of `cmp_lt(uint8x16, uint8x16)` is that
signed compare of the biased operands, and it returns in every lane `0xff` iff
`a.lane(i) < b.lane(i)` as unsigned values and `0` otherwise. -/
theorem cmp_lt_uint8x16_sse2_bias_correct (c : Caps) (h : c.sse2Bias = true)
    (a b : uint8x16) :
    (∀ x y : Nat, x < 256 → y < 256 →
        lane_null_cmp_lt Signedness.unsigned 8 x y
          = lane_null_cmp_lt Signedness.signed 8 (x ^^^ 0x80) (y ^^^ 0x80))
    ∧ cmp_lt_uint8x16 c a b
        = some (mm_cmplt_epi 8 (bit_xor a (make_const 8 16 0x80))
            (bit_xor b (make_const 8 16 0x80)))
    ∧ ∃ r, cmp_lt_uint8x16 c a b = some r ∧ ∀ i,
        (r.lane i = 0xff ↔ a.lane i < b.lane i)
        ∧ (¬ a.lane i < b.lane i → r.lane i = 0) := by
  refine ⟨fun x y hx hy => ?_, cmp_lt_uint8x16_sse2_arm c h a b,
    ⟨_, cmp_lt_uint8x16_sse2_arm c h a b, fun i => ?_⟩⟩
  · have hb : toSigned 8 (x ^^^ 0x80) < toSigned 8 (y ^^^ 0x80) ↔ x < y :=
      @biased_lt_iff 8 x y (by decide) hx hy
    simp only [lane_null_cmp_lt, readLane]
    by_cases hlt : x < y
    · rw [if_pos (by exact_mod_cast hlt), if_pos (hb.mpr hlt)]
    · rw [if_neg (by exact_mod_cast hlt), if_neg (fun hh => hlt (hb.mp hh))]
  · have hs := @bias_cmplt_spec 8 16 (by decide) 0x80 (by decide) a b i
    rw [all_bits_8] at hs
    exact hs

/-- C2, scenario 2 of the spec: `a = [200]*16`, `b = [50]*16` satisfy the contract on
the SSE2 path; the unsigned compare gives `0` in every lane and the signed compare of
the same bits gives `all_bits` in every lane. -/
theorem cmp_lt_uint8x16_sse2_bias_correct_witness :
    capsSSE2.sse2Bias = true
    ∧ ((∀ x y : Nat, x < 256 → y < 256 →
        lane_null_cmp_lt Signedness.unsigned 8 x y
          = lane_null_cmp_lt Signedness.signed 8 (x ^^^ 0x80) (y ^^^ 0x80))
      ∧ cmp_lt_uint8x16 capsSSE2 (make_const 8 16 200) (make_const 8 16 50)
        = some (mm_cmplt_epi 8 (bit_xor (make_const 8 16 200) (make_const 8 16 0x80))
            (bit_xor (make_const 8 16 50) (make_const 8 16 0x80)))
      ∧ ∃ r, cmp_lt_uint8x16 capsSSE2 (make_const 8 16 200) (make_const 8 16 50) = some r
        ∧ ∀ i, (r.lane i = 0xff ↔ (make_const 8 16 200).lane i < (make_const 8 16 50).lane i)
          ∧ (¬ (make_const 8 16 200).lane i < (make_const 8 16 50).lane i → r.lane i = 0))
    ∧ (∀ i : Fin 16,
        (cmp_lt_uint8x16 capsSSE2 (make_const 8 16 200) (make_const 8 16 50)).map
          (fun r => r.lane i) = some 0)
    ∧ (∀ i : Fin 16,
        (cmp_lt_int8x16 capsSSE2 (make_const 8 16 200) (make_const 8 16 50)).map
          (fun r => r.lane i) = some 0xff) :=
  ⟨by decide,
   cmp_lt_uint8x16_sse2_bias_correct capsSSE2 (by decide) (make_const 8 16 200)
     (make_const 8 16 50),
   by decide, by decide⟩

/-- C3: the SSE2 arms of `cmp_lt(uint16x8, uint16x8)` and `cmp_lt(uint32x4, uint32x4)`
XOR both operands with the sign-bit constant (`0x8000`, `0x80000000`), apply the signed
compare of the same width, and return for every input pair and lane `all_bits` iff
`a.lane(i) < b.lane(i)` as unsigned values, `0` otherwise. -/
theorem cmp_lt_uint16_uint32_sse2_bias_correct (c : Caps) (h : c.sse2Bias = true)
    (a16 b16 : uint16x8) (a32 b32 : uint32x4) :
    (cmp_lt_uint16x8 c a16 b16
        = some (mm_cmplt_epi 16 (bit_xor a16 (make_const 16 8 0x8000))
            (bit_xor b16 (make_const 16 8 0x8000)))
      ∧ ∃ r, cmp_lt_uint16x8 c a16 b16 = some r ∧ ∀ i,
          (r.lane i = 0xffff ↔ a16.lane i < b16.lane i)
          ∧ (¬ a16.lane i < b16.lane i → r.lane i = 0))
    ∧ (cmp_lt_uint32x4 c a32 b32
        = some (mm_cmplt_epi 32 (bit_xor a32 (make_const 32 4 0x80000000))
            (bit_xor b32 (make_const 32 4 0x80000000)))
      ∧ ∃ r, cmp_lt_uint32x4 c a32 b32 = some r ∧ ∀ i,
          (r.lane i = 0xffffffff ↔ a32.lane i < b32.lane i)
          ∧ (¬ a32.lane i < b32.lane i → r.lane i = 0)) := by
  refine ⟨⟨cmp_lt_uint16x8_sse2_arm c h a16 b16,
      ⟨_, cmp_lt_uint16x8_sse2_arm c h a16 b16, fun i => ?_⟩⟩,
    ⟨cmp_lt_uint32x4_sse2_arm c h a32 b32,
      ⟨_, cmp_lt_uint32x4_sse2_arm c h a32 b32, fun i => ?_⟩⟩⟩
  · have hs := @bias_cmplt_spec 16 8 (by decide) 0x8000 (by decide) a16 b16 i
    rw [all_bits_16] at hs
    exact hs
  · have hs := @bias_cmplt_spec 32 4 (by decide) 0x80000000 (by decide) a32 b32 i
    rw [all_bits_32] at hs
    exact hs

/-- C3 on the SSE2 build at operands that differ in the sign bit: `[0xffff]*8` against
`[1]*8` and `[0x80000000]*4` against `[0x7fffffff]*4` (every lane compares false
unsigned although it would compare true signed). -/
theorem cmp_lt_uint16_uint32_sse2_bias_correct_witness :
    capsSSE2.sse2Bias = true
    ∧ ((cmp_lt_uint16x8 capsSSE2 (make_const 16 8 0xffff) (make_const 16 8 1)
          = some (mm_cmplt_epi 16 (bit_xor (make_const 16 8 0xffff) (make_const 16 8 0x8000))
              (bit_xor (make_const 16 8 1) (make_const 16 8 0x8000)))
        ∧ ∃ r, cmp_lt_uint16x8 capsSSE2 (make_const 16 8 0xffff) (make_const 16 8 1) = some r
          ∧ ∀ i, (r.lane i = 0xffff
              ↔ (make_const 16 8 0xffff).lane i < (make_const 16 8 1).lane i)
            ∧ (¬ (make_const 16 8 0xffff).lane i < (make_const 16 8 1).lane i
              → r.lane i = 0))
      ∧ (cmp_lt_uint32x4 capsSSE2 (make_const 32 4 0x80000000) (make_const 32 4 0x7fffffff)
          = some (mm_cmplt_epi 32
              (bit_xor (make_const 32 4 0x80000000) (make_const 32 4 0x80000000))
              (bit_xor (make_const 32 4 0x7fffffff) (make_const 32 4 0x80000000)))
        ∧ ∃ r, cmp_lt_uint32x4 capsSSE2 (make_const 32 4 0x80000000)
              (make_const 32 4 0x7fffffff) = some r
          ∧ ∀ i, (r.lane i = 0xffffffff
              ↔ (make_const 32 4 0x80000000).lane i < (make_const 32 4 0x7fffffff).lane i)
            ∧ (¬ (make_const 32 4 0x80000000).lane i < (make_const 32 4 0x7fffffff).lane i
              → r.lane i = 0)))
    ∧ (∀ i : Fin 8,
        (cmp_lt_uint16x8 capsSSE2 (make_const 16 8 0xffff) (make_const 16 8 1)).map
          (fun r => r.lane i) = some 0)
    ∧ (∀ i : Fin 4,
        (cmp_lt_uint32x4 capsSSE2 (make_const 32 4 0x80000000)
          (make_const 32 4 0x7fffffff)).map (fun r => r.lane i) = some 0) :=
  ⟨by decide,
   cmp_lt_uint16_uint32_sse2_bias_correct capsSSE2 (by decide) (make_const 16 8 0xffff)
     (make_const 16 8 1) (make_const 32 4 0x80000000) (make_const 32 4 0x7fffffff),
   by decide, by decide⟩

/-! ## `blend` and the composite `min` -/

theorem lane_blend_ones {w x : Nat} (y : Nat) (hx : x < 2 ^ w) :
    lane_blend w x y (all_bits w) = x := by
  unfold lane_blend
  rw [Nat.xor_self, Nat.and_zero, Nat.or_zero]
  exact Nat.and_pow_two_sub_one_of_lt_two_pow hx

theorem lane_blend_zero {w y : Nat} (x : Nat) (hy : y < 2 ^ w) :
    lane_blend w x y 0 = y := by
  unfold lane_blend
  rw [Nat.and_zero, Nat.zero_or, Nat.zero_xor]
  exact Nat.and_pow_two_sub_one_of_lt_two_pow hy

/-- The blend with a comparison mask takes lane `i` of `a` where the compare holds and
lane `i` of `b` where it does not. -/
theorem blend_null_cmp_lt_lane (s : Signedness) {w n : Nat} (a b : Reg w n) (i : Fin n) :
    (blend a b (null.cmp_lt s a b)).lane i
      = if readLane s w (a.lane i) < readLane s w (b.lane i) then a.lane i else b.lane i := by
  show lane_blend w (a.lane i) (b.lane i) ((null.cmp_lt s a b).lane i) = _
  rw [null_cmp_lt_lane]
  by_cases h : readLane s w (a.lane i) < readLane s w (b.lane i)
  · rw [if_pos h, if_pos h, lane_blend_ones _ (a.bound i)]
  · rw [if_neg h, if_neg h, lane_blend_zero _ (b.bound i)]

theorem toSigned_inj {w x y : Nat} (hw : 0 < w) (hx : x < 2 ^ w) (hy : y < 2 ^ w)
    (h : toSigned w x = toSigned w y) : x = y := by
  have h2 := two_pow_pred hw
  unfold toSigned at h
  split at h <;> split at h <;> omega

theorem readLane_inj (s : Signedness) {w x y : Nat} (hw : 0 < w) (hx : x < 2 ^ w)
    (hy : y < 2 ^ w) (h : readLane s w x = readLane s w y) : x = y := by
  cases s
  · exact toSigned_inj hw hx hy h
  · simpa [readLane] using h

/-- Selecting on `<` and selecting on `<=` pick the same bit pattern: on a tie both
operands are the same pattern. -/
theorem select_lt_eq_select_le (s : Signedness) {w x y : Nat} (hw : 0 < w) (hx : x < 2 ^ w)
    (hy : y < 2 ^ w) :
    (if readLane s w x < readLane s w y then x else y)
      = if readLane s w x ≤ readLane s w y then x else y := by
  by_cases hlt : readLane s w x < readLane s w y
  · rw [if_pos hlt, if_pos (le_of_lt hlt)]
  · by_cases hle : readLane s w x ≤ readLane s w y
    · rw [if_neg hlt, if_pos hle]
      exact (readLane_inj s hw hx hy (le_antisymm hle (not_lt.mp hlt))).symm
    · rw [if_neg hlt, if_neg hle]

theorem blend_null_cmp_lt_eq_null_min (s : Signedness) {w n : Nat} (hw : 0 < w)
    (a b : Reg w n) : blend a b (null.cmp_lt s a b) = null.min s a b := by
  apply Reg.ext_lane
  intro i
  rw [blend_null_cmp_lt_lane]
  exact select_lt_eq_select_le s hw (a.bound i) (b.bound i)

theorem hasPrimary_of_sse2Composite (c : Caps) (h : c.sse2Composite = true) :
    c.hasPrimary = true := by
  rcases c with ⟨n, s2, s41, avx, avx2, xop, neon, av⟩
  simp only [Caps.sse2Composite, Bool.and_eq_true] at h
  simp [Caps.hasPrimary, h.2]

theorem min_int8x16_sse2_arm (c : Caps) (h : c.sse2Composite = true) (a b : int8x16) :
    min_int8x16 c a b = (cmp_lt_int8x16 c a b).map (fun mask => blend a b mask) := by
  rcases c with ⟨n, s2, s41, avx, avx2, xop, neon, av⟩
  simp only [Caps.sse2Composite, Bool.and_eq_true, Bool.not_eq_true'] at h
  obtain ⟨⟨hn, hx⟩, hs⟩ := h
  subst hn hx hs
  simp [min_int8x16]

theorem min_int32x4_sse2_arm (c : Caps) (h : c.sse2Composite = true) (a b : int32x4) :
    min_int32x4 c a b = (cmp_lt_int32x4 c a b).map (fun mask => blend a b mask) := by
  rcases c with ⟨n, s2, s41, avx, avx2, xop, neon, av⟩
  simp only [Caps.sse2Composite, Bool.and_eq_true, Bool.not_eq_true'] at h
  obtain ⟨⟨hn, hx⟩, hs⟩ := h
  subst hn hx hs
  simp [min_int32x4]

theorem min_uint16x8_sse2_arm (c : Caps) (h : c.sse2Composite = true) (a b : uint16x8) :
    min_uint16x8 c a b = (cmp_lt_uint16x8 c a b).map (fun mask => blend a b mask) := by
  rcases c with ⟨n, s2, s41, avx, avx2, xop, neon, av⟩
  simp only [Caps.sse2Composite, Bool.and_eq_true, Bool.not_eq_true'] at h
  obtain ⟨⟨hn, hx⟩, hs⟩ := h
  subst hn hx hs
  simp [min_uint16x8]

theorem min_uint32x4_sse2_arm (c : Caps) (h : c.sse2Composite = true) (a b : uint32x4) :
    min_uint32x4 c a b = (cmp_lt_uint32x4 c a b).map (fun mask => blend a b mask) := by
  rcases c with ⟨n, s2, s41, avx, avx2, xop, neon, av⟩
  simp only [Caps.sse2Composite, Bool.and_eq_true, Bool.not_eq_true'] at h
  obtain ⟨⟨hn, hx⟩, hs⟩ := h
  subst hn hx hs
  simp [min_uint32x4]

/-- Lane facts of `blend a b (cmp_lt a b)` at the element type: the scalar minimum
`a <= b ? a : b`, with mask zero and lane of `b` taken on a tie. -/
theorem composite_min_lane (s : Signedness) {w n : Nat} (hw : 0 < w) (a b : Reg w n)
    (i : Fin n) :
    (blend a b (null.cmp_lt s a b)).lane i
        = (if readLane s w (a.lane i) ≤ readLane s w (b.lane i) then a.lane i else b.lane i)
      ∧ (a.lane i = b.lane i
        → (null.cmp_lt s a b).lane i = 0
          ∧ (blend a b (null.cmp_lt s a b)).lane i = b.lane i) := by
  refine ⟨?_, fun he => ?_⟩
  · rw [blend_null_cmp_lt_lane]
    exact select_lt_eq_select_le s hw (a.bound i) (b.bound i)
  · have hn : ¬ readLane s w (a.lane i) < readLane s w (b.lane i) := by
      rw [he]
      exact lt_irrefl _
    refine ⟨?_, ?_⟩
    · rw [null_cmp_lt_lane, if_neg hn]
    · rw [blend_null_cmp_lt_lane, if_neg hn]

/-- C4: the composite SSE2 arm of `min` for `int8x16` and `int32x4` computes
`mask = cmp_lt(a, b)` and returns `blend(a, b, mask)`; for every lane the result is
`(a.lane(i) <= b.lane(i)) ? a.lane(i) : b.lane(i)` under signed interpretation, and on
a tie `a.lane(i) == b.lane(i)` the mask lane is zero and the lane of `b` is selected. -/
theorem min_signed_sse2_composite_correct (c : Caps) (h : c.sse2Composite = true)
    (a8 b8 : int8x16) (a32 b32 : int32x4) :
    (∃ m r, cmp_lt_int8x16 c a8 b8 = some m ∧ min_int8x16 c a8 b8 = some r
        ∧ r = blend a8 b8 m
        ∧ ∀ i, r.lane i
            = (if toSigned 8 (a8.lane i) ≤ toSigned 8 (b8.lane i) then a8.lane i
               else b8.lane i)
          ∧ (a8.lane i = b8.lane i → m.lane i = 0 ∧ r.lane i = b8.lane i))
    ∧ (∃ m r, cmp_lt_int32x4 c a32 b32 = some m ∧ min_int32x4 c a32 b32 = some r
        ∧ r = blend a32 b32 m
        ∧ ∀ i, r.lane i
            = (if toSigned 32 (a32.lane i) ≤ toSigned 32 (b32.lane i) then a32.lane i
               else b32.lane i)
          ∧ (a32.lane i = b32.lane i → m.lane i = 0 ∧ r.lane i = b32.lane i)) := by
  have hp := hasPrimary_of_sse2Composite c h
  have e8 := cmp_lt_int8x16_eq_null c hp a8 b8
  have e32 := cmp_lt_int32x4_eq_null c hp a32 b32
  refine ⟨⟨_, _, e8, ?_, rfl, fun i => ?_⟩, ⟨_, _, e32, ?_, rfl, fun i => ?_⟩⟩
  · rw [min_int8x16_sse2_arm c h, e8]
    rfl
  · exact composite_min_lane Signedness.signed (by decide) a8 b8 i
  · rw [min_int32x4_sse2_arm c h, e32]
    rfl
  · exact composite_min_lane Signedness.signed (by decide) a32 b32 i

/-- C4 on the plain SSE2 build: `a = [-8, ..., -1, 0, 1, ..., 7]` against `b = [0]*16`
(tie in lane 8) and `a = [0x80000000]*4` against `b = [0, 1, 2, 3]`; the 8-bit result is
`[0xf8, ..., 0xff, 0, ..., 0]` and the 32-bit result is `[0x80000000]*4`. -/
theorem min_signed_sse2_composite_correct_witness :
    capsSSE2.sse2Composite = true
    ∧ ((∃ m r, cmp_lt_int8x16 capsSSE2 (rampVec 8 16 0xf7) (make_const 8 16 0) = some m
          ∧ min_int8x16 capsSSE2 (rampVec 8 16 0xf7) (make_const 8 16 0) = some r
          ∧ r = blend (rampVec 8 16 0xf7) (make_const 8 16 0) m
          ∧ ∀ i, r.lane i
              = (if toSigned 8 ((rampVec 8 16 0xf7).lane i)
                    ≤ toSigned 8 ((make_const 8 16 0).lane i)
                 then (rampVec 8 16 0xf7).lane i else (make_const 8 16 0).lane i)
            ∧ ((rampVec 8 16 0xf7).lane i = (make_const 8 16 0).lane i
              → m.lane i = 0 ∧ r.lane i = (make_const 8 16 0).lane i))
      ∧ (∃ m r, cmp_lt_int32x4 capsSSE2 (make_const 32 4 0x80000000) (iotaVec 32 4) = some m
          ∧ min_int32x4 capsSSE2 (make_const 32 4 0x80000000) (iotaVec 32 4) = some r
          ∧ r = blend (make_const 32 4 0x80000000) (iotaVec 32 4) m
          ∧ ∀ i, r.lane i
              = (if toSigned 32 ((make_const 32 4 0x80000000).lane i)
                    ≤ toSigned 32 ((iotaVec 32 4).lane i)
                 then (make_const 32 4 0x80000000).lane i else (iotaVec 32 4).lane i)
            ∧ ((make_const 32 4 0x80000000).lane i = (iotaVec 32 4).lane i
              → m.lane i = 0 ∧ r.lane i = (iotaVec 32 4).lane i)))
    ∧ (∀ i : Fin 16,
        (min_int8x16 capsSSE2 (rampVec 8 16 0xf7) (make_const 8 16 0)).map
          (fun r => r.lane i) = some (if i.val < 8 then 0xf8 + i.val else 0))
    ∧ (∀ i : Fin 4,
        (min_int32x4 capsSSE2 (make_const 32 4 0x80000000) (iotaVec 32 4)).map
          (fun r => r.lane i) = some 0x80000000) :=
  ⟨by decide,
   min_signed_sse2_composite_correct capsSSE2 (by decide) (rampVec 8 16 0xf7)
     (make_const 8 16 0) (make_const 32 4 0x80000000) (iotaVec 32 4),
   by decide, by decide⟩

theorem ite_le_eq_min (x y : Nat) :
    (if ((x : Nat) : Int) ≤ ((y : Nat) : Int) then x else y) = min x y := by
  by_cases h : x ≤ y
  · rw [if_pos (by exact_mod_cast h), Nat.min_eq_left h]
  · rw [if_neg (by exact_mod_cast h), Nat.min_eq_right (by omega)]

/-- C5: with the sign-biased unsigned compare selected (plain SSE2: no SSE4.1, no XOP),
`min` for `uint16x8` and `uint32x4` returns `blend(a, b, cmp_lt(a, b))` on the original
operands, `cmp_lt` being the signed compare of the XOR-biased copies; every result lane
is the unsigned minimum of `a.lane(i)` and `b.lane(i)` and is the unaltered lane of `a`
or of `b`. -/
theorem min_unsigned_sse2_composite_correct (c : Caps) (h : c.sse2Composite = true)
    (hx : c.sse2Bias = true) (a16 b16 : uint16x8) (a32 b32 : uint32x4) :
    (∃ m r, cmp_lt_uint16x8 c a16 b16 = some m
        ∧ m = mm_cmplt_epi 16 (bit_xor a16 (make_const 16 8 0x8000))
              (bit_xor b16 (make_const 16 8 0x8000))
        ∧ min_uint16x8 c a16 b16 = some r ∧ r = blend a16 b16 m
        ∧ ∀ i, r.lane i = min (a16.lane i) (b16.lane i)
          ∧ (r.lane i = a16.lane i ∨ r.lane i = b16.lane i))
    ∧ (∃ m r, cmp_lt_uint32x4 c a32 b32 = some m
        ∧ m = mm_cmplt_epi 32 (bit_xor a32 (make_const 32 4 0x80000000))
              (bit_xor b32 (make_const 32 4 0x80000000))
        ∧ min_uint32x4 c a32 b32 = some r ∧ r = blend a32 b32 m
        ∧ ∀ i, r.lane i = min (a32.lane i) (b32.lane i)
          ∧ (r.lane i = a32.lane i ∨ r.lane i = b32.lane i)) := by
  have e16 := cmp_lt_uint16x8_sse2_arm c hx a16 b16
  have e32 := cmp_lt_uint32x4_sse2_arm c hx a32 b32
  have b16e := @bias_cmplt_eq_null 16 8 (by decide) 0x8000 (by decide) a16 b16
  have b32e := @bias_cmplt_eq_null 32 4 (by decide) 0x80000000 (by decide) a32 b32
  refine ⟨⟨_, _, e16, rfl, ?_, rfl, fun i => ?_⟩, ⟨_, _, e32, rfl, ?_, rfl, fun i => ?_⟩⟩
  · rw [min_uint16x8_sse2_arm c h, e16]
    rfl
  · rw [b16e]
    have hl := (composite_min_lane Signedness.unsigned (by decide : 0 < 16) a16 b16 i).1
    simp only [readLane] at hl
    rw [ite_le_eq_min] at hl
    refine ⟨hl, ?_⟩
    rw [hl]
    omega
  · rw [min_uint32x4_sse2_arm c h, e32]
    rfl
  · rw [b32e]
    have hl := (composite_min_lane Signedness.unsigned (by decide : 0 < 32) a32 b32 i).1
    simp only [readLane] at hl
    rw [ite_le_eq_min] at hl
    refine ⟨hl, ?_⟩
    rw [hl]
    omega

/-- C5 on the plain SSE2 build at operands that differ in the sign bit: `[0xffff]*8`
against `[1, ..., 8]` gives `[1, ..., 8]`, and `[0x80000000]*4` against
`[0x7fffffff]*4` gives `[0x7fffffff]*4`. -/
theorem min_unsigned_sse2_composite_correct_witness :
    capsSSE2.sse2Composite = true ∧ capsSSE2.sse2Bias = true
    ∧ ((∃ m r, cmp_lt_uint16x8 capsSSE2 (make_const 16 8 0xffff) (rampVec 16 8 0) = some m
          ∧ m = mm_cmplt_epi 16 (bit_xor (make_const 16 8 0xffff) (make_const 16 8 0x8000))
                (bit_xor (rampVec 16 8 0) (make_const 16 8 0x8000))
          ∧ min_uint16x8 capsSSE2 (make_const 16 8 0xffff) (rampVec 16 8 0) = some r
          ∧ r = blend (make_const 16 8 0xffff) (rampVec 16 8 0) m
          ∧ ∀ i, r.lane i = min ((make_const 16 8 0xffff).lane i) ((rampVec 16 8 0).lane i)
            ∧ (r.lane i = (make_const 16 8 0xffff).lane i
              ∨ r.lane i = (rampVec 16 8 0).lane i))
      ∧ (∃ m r, cmp_lt_uint32x4 capsSSE2 (make_const 32 4 0x80000000)
              (make_const 32 4 0x7fffffff) = some m
          ∧ m = mm_cmplt_epi 32
                (bit_xor (make_const 32 4 0x80000000) (make_const 32 4 0x80000000))
                (bit_xor (make_const 32 4 0x7fffffff) (make_const 32 4 0x80000000))
          ∧ min_uint32x4 capsSSE2 (make_const 32 4 0x80000000)
              (make_const 32 4 0x7fffffff) = some r
          ∧ r = blend (make_const 32 4 0x80000000) (make_const 32 4 0x7fffffff) m
          ∧ ∀ i, r.lane i = min ((make_const 32 4 0x80000000).lane i)
                ((make_const 32 4 0x7fffffff).lane i)
            ∧ (r.lane i = (make_const 32 4 0x80000000).lane i
              ∨ r.lane i = (make_const 32 4 0x7fffffff).lane i)))
    ∧ (∀ i : Fin 8,
        (min_uint16x8 capsSSE2 (make_const 16 8 0xffff) (rampVec 16 8 0)).map
          (fun r => r.lane i) = some (i.val + 1))
    ∧ (∀ i : Fin 4,
        (min_uint32x4 capsSSE2 (make_const 32 4 0x80000000)
          (make_const 32 4 0x7fffffff)).map (fun r => r.lane i) = some 0x7fffffff) :=
  ⟨by decide, by decide,
   min_unsigned_sse2_composite_correct capsSSE2 (by decide) (by decide)
     (make_const 16 8 0xffff) (rampVec 16 8 0) (make_const 32 4 0x80000000)
     (make_const 32 4 0x7fffffff),
   by decide, by decide⟩

/-! ## Cross-path equivalence -/

/-- C6: for every pair of `uint8x16` vectors, `cmp_lt` returns the same mask in any two
configurations that select an arm, and the five arms (scalar null, XOP native unsigned
compare, SSE2 sign-bias, NEON, ALTIVEC) are bit-for-bit equal. -/
theorem cmp_lt_uint8x16_cross_path (c₁ c₂ : Caps) (h₁ : c₁.hasPrimary = true)
    (h₂ : c₂.hasPrimary = true) (a b : uint8x16) :
    (∃ r, cmp_lt_uint8x16 c₁ a b = some r ∧ cmp_lt_uint8x16 c₂ a b = some r)
    ∧ mm_comlt_epu 8 a b = null.cmp_lt Signedness.unsigned a b
    ∧ mm_cmplt_epi 8 (bit_xor a (make_const 8 16 0x80)) (bit_xor b (make_const 8 16 0x80))
        = null.cmp_lt Signedness.unsigned a b
    ∧ vcltq Signedness.unsigned 8 a b = null.cmp_lt Signedness.unsigned a b
    ∧ vec_cmplt Signedness.unsigned 8 a b = null.cmp_lt Signedness.unsigned a b :=
  ⟨⟨_, cmp_lt_uint8x16_eq_null c₁ h₁ a b, cmp_lt_uint8x16_eq_null c₂ h₂ a b⟩,
   mm_comlt_epu_eq_null 8 a b,
   @bias_cmplt_eq_null 8 16 (by decide) 0x80 (by decide) a b,
   vcltq_eq_null Signedness.unsigned 8 a b,
   vec_cmplt_eq_null Signedness.unsigned 8 a b⟩

/-- C6 at the null and the plain SSE2 build on `a = [0, ..., 15]`, `b = [0x80]*16`; on
each of the null, XOP, SSE2, NEON and ALTIVEC builds every lane is `0xff`
(`i < 128` unsigned). -/
theorem cmp_lt_uint8x16_cross_path_witness :
    capsNULL.hasPrimary = true ∧ capsSSE2.hasPrimary = true
    ∧ ((∃ r, cmp_lt_uint8x16 capsNULL (iotaVec 8 16) (make_const 8 16 0x80) = some r
          ∧ cmp_lt_uint8x16 capsSSE2 (iotaVec 8 16) (make_const 8 16 0x80) = some r)
      ∧ mm_comlt_epu 8 (iotaVec 8 16) (make_const 8 16 0x80)
          = null.cmp_lt Signedness.unsigned (iotaVec 8 16) (make_const 8 16 0x80)
      ∧ mm_cmplt_epi 8 (bit_xor (iotaVec 8 16) (make_const 8 16 0x80))
            (bit_xor (make_const 8 16 0x80) (make_const 8 16 0x80))
          = null.cmp_lt Signedness.unsigned (iotaVec 8 16) (make_const 8 16 0x80)
      ∧ vcltq Signedness.unsigned 8 (iotaVec 8 16) (make_const 8 16 0x80)
          = null.cmp_lt Signedness.unsigned (iotaVec 8 16) (make_const 8 16 0x80)
      ∧ vec_cmplt Signedness.unsigned 8 (iotaVec 8 16) (make_const 8 16 0x80)
          = null.cmp_lt Signedness.unsigned (iotaVec 8 16) (make_const 8 16 0x80))
    ∧ (∀ c ∈ [capsNULL, capsXOP, capsSSE2, capsNEON, capsALTIVEC], ∀ i : Fin 16,
        (cmp_lt_uint8x16 c (iotaVec 8 16) (make_const 8 16 0x80)).map (fun r => r.lane i)
          = some 0xff) :=
  ⟨by decide, by decide,
   cmp_lt_uint8x16_cross_path capsNULL capsSSE2 (by decide) (by decide) (iotaVec 8 16)
     (make_const 8 16 0x80),
   by decide⟩

theorem ofSigned_readLane (s : Signedness) {w x : Nat} (hx : x < 2 ^ w) :
    ofSigned w (readLane s w x) = x := by
  have hpos : (0 : Int) < ((2 ^ w : Nat) : Int) := by exact_mod_cast Nat.two_pow_pos w
  have hxi : ((x : Nat) : Int) < ((2 ^ w : Nat) : Int) := by exact_mod_cast hx
  have hmod : ((x : Nat) : Int) % ((2 ^ w : Nat) : Int) = (x : Int) :=
    Int.emod_eq_of_lt (Int.ofNat_nonneg x) hxi
  cases s
  · show ofSigned w (toSigned w x) = x
    unfold ofSigned toSigned
    by_cases hlt : x < 2 ^ (w - 1)
    · rw [if_pos hlt, hmod]
      exact Int.toNat_ofNat x
    · rw [if_neg hlt, Int.sub_emod, Int.emod_self, sub_zero,
        Int.emod_emod_of_dvd _ (dvd_refl _), hmod]
      exact Int.toNat_ofNat x
  · show ofSigned w ((x : Nat) : Int) = x
    unfold ofSigned
    rw [hmod]
    exact Int.toNat_ofNat x

theorem mm_min_eq_null (s : Signedness) {w n : Nat} (hw : 0 < w) (a b : Reg w n) :
    mm_min s w a b = null.min s a b := by
  apply Reg.ext_lane
  intro i
  exact select_lt_eq_select_le s hw (a.bound i) (b.bound i)

theorem vminq_eq_null (s : Signedness) {w n : Nat} (a b : Reg w n) :
    vminq s w a b = null.min s a b := by
  apply Reg.ext_lane
  intro i
  show ofSigned w (min (readLane s w (a.lane i)) (readLane s w (b.lane i)))
    = if readLane s w (a.lane i) ≤ readLane s w (b.lane i) then a.lane i else b.lane i
  by_cases h : readLane s w (a.lane i) ≤ readLane s w (b.lane i)
  · rw [if_pos h, min_eq_left h, ofSigned_readLane s (a.bound i)]
  · rw [if_neg h, min_eq_right (le_of_lt (not_le.mp h)), ofSigned_readLane s (b.bound i)]

theorem vec_min_eq_null (s : Signedness) {w n : Nat} (a b : Reg w n) :
    vec_min s w a b = null.min s a b := by
  apply Reg.ext_lane
  intro i
  show (if readLane s w (b.lane i) < readLane s w (a.lane i) then b.lane i else a.lane i)
    = if readLane s w (a.lane i) ≤ readLane s w (b.lane i) then a.lane i else b.lane i
  by_cases h : readLane s w (a.lane i) ≤ readLane s w (b.lane i)
  · rw [if_pos h, if_neg (not_lt.mpr h)]
  · rw [if_neg h, if_pos (not_le.mp h)]

theorem min_int8x16_eq_null (c : Caps) (h : c.hasPrimary = true) (a b : int8x16) :
    min_int8x16 c a b = some (null.min Signedness.signed a b) := by
  have hm := mm_min_eq_null Signedness.signed (by decide : 0 < 8) a b
  have hb := blend_null_cmp_lt_eq_null_min Signedness.signed (by decide : 0 < 8) a b
  rcases c with ⟨n, s2, s41, avx, avx2, xop, neon, av⟩
  simp only [Caps.hasPrimary] at h
  cases n <;> cases s41 <;> cases s2 <;> cases neon <;> cases av <;>
    simp_all [min_int8x16, vminq_eq_null, vec_min_eq_null, cmp_lt_int8x16, mm_cmplt_epi_eq_null]

theorem min_uint8x16_eq_null (c : Caps) (h : c.hasPrimary = true) (a b : uint8x16) :
    min_uint8x16 c a b = some (null.min Signedness.unsigned a b) := by
  have hm := mm_min_eq_null Signedness.unsigned (by decide : 0 < 8) a b
  rcases c with ⟨n, s2, s41, avx, avx2, xop, neon, av⟩
  simp only [Caps.hasPrimary] at h
  cases n <;> cases s2 <;> cases neon <;> cases av <;>
    simp_all [min_uint8x16, vminq_eq_null, vec_min_eq_null]

theorem min_int16x8_eq_null (c : Caps) (h : c.hasPrimary = true) (a b : int16x8) :
    min_int16x8 c a b = some (null.min Signedness.signed a b) := by
  have hm := mm_min_eq_null Signedness.signed (by decide : 0 < 16) a b
  rcases c with ⟨n, s2, s41, avx, avx2, xop, neon, av⟩
  simp only [Caps.hasPrimary] at h
  cases n <;> cases s2 <;> cases neon <;> cases av <;>
    simp_all [min_int16x8, vminq_eq_null, vec_min_eq_null]

theorem min_uint16x8_eq_null (c : Caps) (h : c.hasPrimary = true) (a b : uint16x8) :
    min_uint16x8 c a b = some (null.min Signedness.unsigned a b) := by
  have hm := mm_min_eq_null Signedness.unsigned (by decide : 0 < 16) a b
  have hb := blend_null_cmp_lt_eq_null_min Signedness.unsigned (by decide : 0 < 16) a b
  have hx := @bias_cmplt_eq_null 16 8 (by decide) 0x8000 (by decide) a b
  have hc := mm_comlt_epu_eq_null 16 a b
  rcases c with ⟨n, s2, s41, avx, avx2, xop, neon, av⟩
  simp only [Caps.hasPrimary] at h
  cases n <;> cases s41 <;> cases xop <;> cases s2 <;> cases neon <;> cases av <;>
    simp_all [min_uint16x8, vminq_eq_null, vec_min_eq_null, cmp_lt_uint16x8, mm_cmplt_epi_eq_null]

theorem min_int32x4_eq_null (c : Caps) (h : c.hasPrimary = true) (a b : int32x4) :
    min_int32x4 c a b = some (null.min Signedness.signed a b) := by
  have hm := mm_min_eq_null Signedness.signed (by decide : 0 < 32) a b
  have hb := blend_null_cmp_lt_eq_null_min Signedness.signed (by decide : 0 < 32) a b
  rcases c with ⟨n, s2, s41, avx, avx2, xop, neon, av⟩
  simp only [Caps.hasPrimary] at h
  cases n <;> cases s41 <;> cases s2 <;> cases neon <;> cases av <;>
    simp_all [min_int32x4, vminq_eq_null, vec_min_eq_null, cmp_lt_int32x4, mm_cmplt_epi_eq_null]

theorem min_uint32x4_eq_null (c : Caps) (h : c.hasPrimary = true) (a b : uint32x4) :
    min_uint32x4 c a b = some (null.min Signedness.unsigned a b) := by
  have hm := mm_min_eq_null Signedness.unsigned (by decide : 0 < 32) a b
  have hb := blend_null_cmp_lt_eq_null_min Signedness.unsigned (by decide : 0 < 32) a b
  have hx := @bias_cmplt_eq_null 32 4 (by decide) 0x80000000 (by decide) a b
  have hc := mm_comlt_epu_eq_null 32 a b
  rcases c with ⟨n, s2, s41, avx, avx2, xop, neon, av⟩
  simp only [Caps.hasPrimary] at h
  cases n <;> cases s41 <;> cases xop <;> cases s2 <;> cases neon <;> cases av <;>
    simp_all [min_uint32x4, vminq_eq_null, vec_min_eq_null, cmp_lt_uint32x4, mm_cmplt_epi_eq_null]

/-- C7: for each of the six 128-bit integer `min` overloads and every input pair, any
two configurations that select an arm (scalar null, direct native min, or the SSE2
`cmp_lt` + `blend` arm where the overload has one) return bit-for-bit the same vector,
namely the scalar fallback's. -/
theorem min_cross_path (c₁ c₂ : Caps) (h₁ : c₁.hasPrimary = true) (h₂ : c₂.hasPrimary = true)
    (a8 b8 : Reg 8 16) (a16 b16 : Reg 16 8) (a32 b32 : Reg 32 4) :
    (min_int8x16 c₁ a8 b8 = some (null.min Signedness.signed a8 b8)
      ∧ min_int8x16 c₂ a8 b8 = min_int8x16 c₁ a8 b8)
    ∧ (min_uint8x16 c₁ a8 b8 = some (null.min Signedness.unsigned a8 b8)
      ∧ min_uint8x16 c₂ a8 b8 = min_uint8x16 c₁ a8 b8)
    ∧ (min_int16x8 c₁ a16 b16 = some (null.min Signedness.signed a16 b16)
      ∧ min_int16x8 c₂ a16 b16 = min_int16x8 c₁ a16 b16)
    ∧ (min_uint16x8 c₁ a16 b16 = some (null.min Signedness.unsigned a16 b16)
      ∧ min_uint16x8 c₂ a16 b16 = min_uint16x8 c₁ a16 b16)
    ∧ (min_int32x4 c₁ a32 b32 = some (null.min Signedness.signed a32 b32)
      ∧ min_int32x4 c₂ a32 b32 = min_int32x4 c₁ a32 b32)
    ∧ (min_uint32x4 c₁ a32 b32 = some (null.min Signedness.unsigned a32 b32)
      ∧ min_uint32x4 c₂ a32 b32 = min_uint32x4 c₁ a32 b32) := by
  refine ⟨⟨min_int8x16_eq_null c₁ h₁ a8 b8, ?_⟩, ⟨min_uint8x16_eq_null c₁ h₁ a8 b8, ?_⟩,
    ⟨min_int16x8_eq_null c₁ h₁ a16 b16, ?_⟩, ⟨min_uint16x8_eq_null c₁ h₁ a16 b16, ?_⟩,
    ⟨min_int32x4_eq_null c₁ h₁ a32 b32, ?_⟩, ⟨min_uint32x4_eq_null c₁ h₁ a32 b32, ?_⟩⟩
  · rw [min_int8x16_eq_null c₁ h₁, min_int8x16_eq_null c₂ h₂]
  · rw [min_uint8x16_eq_null c₁ h₁, min_uint8x16_eq_null c₂ h₂]
  · rw [min_int16x8_eq_null c₁ h₁, min_int16x8_eq_null c₂ h₂]
  · rw [min_uint16x8_eq_null c₁ h₁, min_uint16x8_eq_null c₂ h₂]
  · rw [min_int32x4_eq_null c₁ h₁, min_int32x4_eq_null c₂ h₂]
  · rw [min_uint32x4_eq_null c₁ h₁, min_uint32x4_eq_null c₂ h₂]

set_option maxRecDepth 8192 in
/-- C7 at the plain SSE2 build against the SSE4.1 build (composite arm against native
min), with scenario 3 of the spec: unsigned `a = [0xFF]*16`, `b = [0x01]*16` gives
`[0x01]*16` on the null, SSE2, SSE4.1, NEON and ALTIVEC paths, and the composite
16-bit unsigned arm gives `[0x0001]*8` for `[0xFFFF]*8` against `[0x0001]*8`. -/
theorem min_cross_path_witness :
    capsSSE2.hasPrimary = true ∧ capsSSE4_1.hasPrimary = true
    ∧ ((min_int8x16 capsSSE2 (make_const 8 16 0xFF) (make_const 8 16 0x01)
          = some (null.min Signedness.signed (make_const 8 16 0xFF) (make_const 8 16 0x01))
        ∧ min_int8x16 capsSSE4_1 (make_const 8 16 0xFF) (make_const 8 16 0x01)
          = min_int8x16 capsSSE2 (make_const 8 16 0xFF) (make_const 8 16 0x01))
      ∧ (min_uint8x16 capsSSE2 (make_const 8 16 0xFF) (make_const 8 16 0x01)
          = some (null.min Signedness.unsigned (make_const 8 16 0xFF) (make_const 8 16 0x01))
        ∧ min_uint8x16 capsSSE4_1 (make_const 8 16 0xFF) (make_const 8 16 0x01)
          = min_uint8x16 capsSSE2 (make_const 8 16 0xFF) (make_const 8 16 0x01))
      ∧ (min_int16x8 capsSSE2 (make_const 16 8 0xFFFF) (make_const 16 8 0x01)
          = some (null.min Signedness.signed (make_const 16 8 0xFFFF) (make_const 16 8 0x01))
        ∧ min_int16x8 capsSSE4_1 (make_const 16 8 0xFFFF) (make_const 16 8 0x01)
          = min_int16x8 capsSSE2 (make_const 16 8 0xFFFF) (make_const 16 8 0x01))
      ∧ (min_uint16x8 capsSSE2 (make_const 16 8 0xFFFF) (make_const 16 8 0x01)
          = some (null.min Signedness.unsigned (make_const 16 8 0xFFFF)
              (make_const 16 8 0x01))
        ∧ min_uint16x8 capsSSE4_1 (make_const 16 8 0xFFFF) (make_const 16 8 0x01)
          = min_uint16x8 capsSSE2 (make_const 16 8 0xFFFF) (make_const 16 8 0x01))
      ∧ (min_int32x4 capsSSE2 (make_const 32 4 0xFFFFFFFF) (make_const 32 4 0x01)
          = some (null.min Signedness.signed (make_const 32 4 0xFFFFFFFF)
              (make_const 32 4 0x01))
        ∧ min_int32x4 capsSSE4_1 (make_const 32 4 0xFFFFFFFF) (make_const 32 4 0x01)
          = min_int32x4 capsSSE2 (make_const 32 4 0xFFFFFFFF) (make_const 32 4 0x01))
      ∧ (min_uint32x4 capsSSE2 (make_const 32 4 0xFFFFFFFF) (make_const 32 4 0x01)
          = some (null.min Signedness.unsigned (make_const 32 4 0xFFFFFFFF)
              (make_const 32 4 0x01))
        ∧ min_uint32x4 capsSSE4_1 (make_const 32 4 0xFFFFFFFF) (make_const 32 4 0x01)
          = min_uint32x4 capsSSE2 (make_const 32 4 0xFFFFFFFF) (make_const 32 4 0x01)))
    ∧ (∀ c ∈ [capsNULL, capsSSE2, capsSSE4_1, capsNEON, capsALTIVEC], ∀ i : Fin 16,
        (min_uint8x16 c (make_const 8 16 0xFF) (make_const 8 16 0x01)).map
          (fun r => r.lane i) = some 0x01)
    ∧ (∀ c ∈ [capsNULL, capsSSE2, capsSSE4_1, capsNEON, capsALTIVEC], ∀ i : Fin 8,
        (min_uint16x8 c (make_const 16 8 0xFFFF) (make_const 16 8 0x01)).map
          (fun r => r.lane i) = some 0x01) :=
  ⟨by decide, by decide,
   min_cross_path capsSSE2 capsSSE4_1 (by decide) (by decide) (make_const 8 16 0xFF)
     (make_const 8 16 0x01) (make_const 16 8 0xFFFF) (make_const 16 8 0x01)
     (make_const 32 4 0xFFFFFFFF) (make_const 32 4 0x01),
   by decide, by decide⟩

/-! ## Width decomposition and the 256-bit mask -/

theorem combine_lane_lo {w : Nat} (n : Nat) (h0 h1 : Reg w n) (i : Fin n) :
    (combine n h0 h1).lane ⟨i.val, by omega⟩ = h0.lane i := by
  simp [combine]

theorem combine_lane_hi {w : Nat} (n : Nat) (h0 h1 : Reg w n) (i : Fin n) :
    (combine n h0 h1).lane ⟨i.val + n, by omega⟩ = h1.lane i := by
  simp [combine]

theorem half0_combine {w : Nat} (n : Nat) (h0 h1 : Reg w n) :
    half0 n (combine n h0 h1) = h0 := by
  apply Reg.ext_lane
  intro i
  exact combine_lane_lo n h0 h1 i

theorem half1_combine {w : Nat} (n : Nat) (h0 h1 : Reg w n) :
    half1 n (combine n h0 h1) = h1 := by
  apply Reg.ext_lane
  intro i
  exact combine_lane_hi n h0 h1 i

/-- Every lane of a recombined vector is a lane of one of the halves. -/
theorem combine_lane_cases {w : Nat} (n : Nat) (h0 h1 : Reg w n) (i : Fin (n + n)) :
    (∃ j, (combine n h0 h1).lane i = h0.lane j) ∨ (∃ j, (combine n h0 h1).lane i = h1.lane j) := by
  by_cases h : i.val < n
  · left
    exact ⟨⟨i.val, h⟩, by simp [combine, h]⟩
  · right
    exact ⟨⟨i.val - n, by omega⟩, by simp [combine, h]⟩

theorem impl2_of_total {w : Nat} (n : Nat) (op : Reg w n → Reg w n → Option (Reg w n))
    (f : Reg w n → Reg w n → Reg w n) (hf : ∀ x y, op x y = some (f x y))
    (a b : Reg w (n + n)) :
    SIMDPP_VEC_ARRAY_IMPL2 n op a b
      = some (combine n (f (half0 n a) (half0 n b)) (f (half1 n a) (half1 n b))) := by
  simp [SIMDPP_VEC_ARRAY_IMPL2, hf]

theorem isConcatOf_impl2 {w : Nat} (n : Nat) (op : Reg w n → Reg w n → Option (Reg w n))
    (f : Reg w n → Reg w n → Reg w n) (hf : ∀ x y, op x y = some (f x y))
    (a b : Reg w (n + n)) :
    IsConcatOf n (SIMDPP_VEC_ARRAY_IMPL2 n op a b) (op (half0 n a) (half0 n b))
      (op (half1 n a) (half1 n b)) :=
  ⟨_, _, _, hf _ _, hf _ _, impl2_of_total n op f hf a b, rfl,
    fun i => ⟨combine_lane_lo n _ _ i, combine_lane_hi n _ _ i⟩⟩

theorem null_cmp_lt_lane_mask (s : Signedness) {w n : Nat} (a b : Reg w n) (i : Fin n) :
    (null.cmp_lt s a b).lane i = 0 ∨ (null.cmp_lt s a b).lane i = all_bits w := by
  rw [null_cmp_lt_lane]
  split
  · exact Or.inr rfl
  · exact Or.inl rfl

theorem mm_cmpgt_epi_swap (w : Nat) {n : Nat} (a b : Reg w n) :
    mm_cmpgt_epi w b a = null.cmp_lt Signedness.signed a b := rfl

theorem combine_null_cmp_lt_lane_mask (s : Signedness) {w : Nat} (n : Nat)
    (a0 b0 a1 b1 : Reg w n) (i : Fin (n + n)) :
    (combine n (null.cmp_lt s a0 b0) (null.cmp_lt s a1 b1)).lane i = 0
      ∨ (combine n (null.cmp_lt s a0 b0) (null.cmp_lt s a1 b1)).lane i = all_bits w := by
  rcases combine_lane_cases n (null.cmp_lt s a0 b0) (null.cmp_lt s a1 b1) i with ⟨j, hj⟩ | ⟨j, hj⟩
  · rw [hj]
    exact null_cmp_lt_lane_mask s a0 b0 j
  · rw [hj]
    exact null_cmp_lt_lane_mask s a1 b1 j

theorem cmp_lt_int8x32_avx2_none (c : Caps) (h : c.USE_AVX2 = true) (a b : int8x32) :
    cmp_lt_int8x32 c a b = none := by
  simp [cmp_lt_int8x32, h, gint8x32.to_m256i]

theorem cmp_lt_uint8x32_avx2_none (c : Caps) (h : c.USE_AVX2 = true) (a b : uint8x32) :
    cmp_lt_uint8x32 c a b = none := by
  simp [cmp_lt_uint8x32, h, gint8x32.to_m256i]

theorem min_int8x32_avx2_none (c : Caps) (h : c.USE_AVX2 = true) (a b : int8x32) :
    min_int8x32 c a b = none := by
  simp [min_int8x32, h, gint8x32.to_m256i]

theorem min_uint8x32_avx2_none (c : Caps) (h : c.USE_AVX2 = true) (a b : uint8x32) :
    min_uint8x32 c a b = none := by
  simp [min_uint8x32, h, gint8x32.to_m256i]

theorem cmp_lt_int8x32_split (c : Caps) (h : c.USE_AVX2 = false) (hp : c.hasPrimary = true)
    (a b : int8x32) :
    cmp_lt_int8x32 c a b
      = some (mask_int8x32.of_gint8x32
          (combine 16 (null.cmp_lt Signedness.signed (half0 16 a) (half0 16 b))
            (null.cmp_lt Signedness.signed (half1 16 a) (half1 16 b)))) := by
  simp [cmp_lt_int8x32, h,
    impl2_of_total 16 (cmp_lt_int8x16 c) _ (cmp_lt_int8x16_eq_null c hp) a b]

theorem cmp_lt_uint8x32_split (c : Caps) (h : c.USE_AVX2 = false) (hp : c.hasPrimary = true)
    (a b : uint8x32) :
    cmp_lt_uint8x32 c a b
      = some (mask_int8x32.of_gint8x32
          (combine 16 (null.cmp_lt Signedness.unsigned (half0 16 a) (half0 16 b))
            (null.cmp_lt Signedness.unsigned (half1 16 a) (half1 16 b)))) := by
  simp [cmp_lt_uint8x32, h,
    impl2_of_total 16 (cmp_lt_uint8x16 c) _ (cmp_lt_uint8x16_eq_null c hp) a b]

/-- Recombining the lane-wise results of the two halves is the lane-wise result of the
whole vector. -/
theorem combine_zipLanes_halves {w : Nat} (n : Nat) (f : Nat → Nat → Nat)
    (hf : ∀ x y, x < 2 ^ w → y < 2 ^ w → f x y < 2 ^ w) (a b : Reg w (n + n)) :
    combine n (Reg.zipLanes f hf (half0 n a) (half0 n b))
        (Reg.zipLanes f hf (half1 n a) (half1 n b))
      = Reg.zipLanes f hf a b := by
  apply Reg.ext_lane
  intro i
  by_cases h : i.val < n
  · simp [combine, Reg.zipLanes, half0, h]
  · have e : i.val - n + n = i.val := by omega
    simp [combine, Reg.zipLanes, half1, h, e]

theorem combine_null_cmp_lt_halves (s : Signedness) {w : Nat} (n : Nat) (a b : Reg w (n + n)) :
    combine n (null.cmp_lt s (half0 n a) (half0 n b)) (null.cmp_lt s (half1 n a) (half1 n b))
      = null.cmp_lt s a b :=
  combine_zipLanes_halves n _ _ a b

theorem cmp_lt_int8x16_some (c : Caps) (a b : int8x16) (r : mask_int8x16)
    (h : cmp_lt_int8x16 c a b = some r) : r = null.cmp_lt Signedness.signed a b := by
  rcases c with ⟨n, s2, s41, avx, avx2, xop, neon, av⟩
  cases n <;> cases s2 <;> cases neon <;> cases av <;>
    simp_all [cmp_lt_int8x16, mm_cmplt_epi_eq_null, vcltq_eq_null, vec_cmplt_eq_null]

theorem cmp_lt_uint8x16_some (c : Caps) (a b : uint8x16) (r : mask_int8x16)
    (h : cmp_lt_uint8x16 c a b = some r) : r = null.cmp_lt Signedness.unsigned a b := by
  have hb := @bias_cmplt_eq_null 8 16 (by decide) 0x80 (by decide) a b
  rcases c with ⟨n, s2, s41, avx, avx2, xop, neon, av⟩
  cases n <;> cases xop <;> cases s2 <;> cases neon <;> cases av <;>
    simp_all [cmp_lt_uint8x16, mm_comlt_epu_eq_null, vcltq_eq_null, vec_cmplt_eq_null]

theorem impl2_some {w : Nat} (n : Nat) (op : Reg w n → Reg w n → Option (Reg w n))
    (a b : Reg w (n + n)) (r : Reg w (n + n)) (h : SIMDPP_VEC_ARRAY_IMPL2 n op a b = some r) :
    ∃ r0 r1, op (half0 n a) (half0 n b) = some r0 ∧ op (half1 n a) (half1 n b) = some r1
      ∧ r = combine n r0 r1 := by
  unfold SIMDPP_VEC_ARRAY_IMPL2 at h
  cases h0 : op (half0 n a) (half0 n b) with
  | none => simp [h0] at h
  | some r0 =>
    cases h1 : op (half1 n a) (half1 n b) with
    | none => simp [h0, h1] at h
    | some r1 =>
      simp [h0, h1] at h
      exact ⟨r0, r1, rfl, rfl, h.symm⟩

theorem cmp_lt_int8x32_some (c : Caps) (a b : int8x32) (m : mask_int8x32)
    (h : cmp_lt_int8x32 c a b = some m) :
    m = mask_int8x32.of_gint8x32 (null.cmp_lt Signedness.signed a b) := by
  cases hav : c.USE_AVX2 with
  | true =>
    rw [cmp_lt_int8x32_avx2_none c hav] at h
    exact Option.noConfusion h
  | false =>
    simp only [cmp_lt_int8x32, hav, Bool.false_eq_true, if_false, Option.map_eq_some'] at h
    obtain ⟨r, hr, hm⟩ := h
    obtain ⟨r0, r1, h0, h1, e⟩ := impl2_some 16 (cmp_lt_int8x16 c) a b r hr
    rw [← hm, e, cmp_lt_int8x16_some c _ _ r0 h0, cmp_lt_int8x16_some c _ _ r1 h1,
      combine_null_cmp_lt_halves]

theorem cmp_lt_uint8x32_some (c : Caps) (a b : uint8x32) (m : mask_int8x32)
    (h : cmp_lt_uint8x32 c a b = some m) :
    m = mask_int8x32.of_gint8x32 (null.cmp_lt Signedness.unsigned a b) := by
  cases hav : c.USE_AVX2 with
  | true =>
    rw [cmp_lt_uint8x32_avx2_none c hav] at h
    exact Option.noConfusion h
  | false =>
    simp only [cmp_lt_uint8x32, hav, Bool.false_eq_true, if_false, Option.map_eq_some'] at h
    obtain ⟨r, hr, hm⟩ := h
    obtain ⟨r0, r1, h0, h1, e⟩ := impl2_some 16 (cmp_lt_uint8x16 c) a b r hr
    rw [← hm, e, cmp_lt_uint8x16_some c _ _ r0 h0, cmp_lt_uint8x16_some c _ _ r1 h1,
      combine_null_cmp_lt_halves]

/-- C8 fails for the constructors: a `mask_int8<32>` constructed from a `gint8x32` (or
from a raw native register) whose lanes are `0x01` has lanes `0x01`, neither `0x00` nor
`0xff`; so it is not the case that every constructible mask has only `0x00` / `0xff`
lanes. -/
theorem mask_int8x32_ctor_keeps_partial_pattern :
    (mask_int8x32.of_gint8x32 (make_const 8 32 0x01)).lane 0 = 0x01
    ∧ (mask_int8x32.of_m256i (make_const 8 32 0x01)).lane 0 = 0x01
    ∧ ¬ (∀ (d : gint8x32) (i : Fin 32),
          (mask_int8x32.of_gint8x32 d).lane i = 0x00
            ∨ (mask_int8x32.of_gint8x32 d).lane i = 0xff)
    ∧ ¬ (∀ (d : Reg 8 32) (i : Fin 32),
          (mask_int8x32.of_m256i d).lane i = 0x00
            ∨ (mask_int8x32.of_m256i d).lane i = 0xff) := by
  refine ⟨by decide, by decide, fun h => ?_, fun h => ?_⟩
  · exact absurd (h (make_const 8 32 0x01) 0) (by decide)
  · exact absurd (h (make_const 8 32 0x01) 0) (by decide)

/-- C8 (amended): on every build configuration, every mask that `cmp_lt` on `int8x32`
or `uint8x32` operands returns has each of its 32 lanes equal to exactly `0x00` or
`0xff`, and a build without AVX2 that reaches an arm of the 128-bit chain does return
one; the `mask_int8<32>` constructed from the register a native compare instruction
produces has the same property; a mask constructed from a `gint8x32` or from a raw
native register holds the lanes of its argument unchanged. -/
theorem mask_int8x32_lanes (c : Caps) (hav : c.USE_AVX2 = false) (hp : c.hasPrimary = true)
    (a b : Reg 8 32) (d : gint8x32) (x y : Reg 8 32) :
    (∃ m, cmp_lt_int8x32 c a b = some m ∧ ∀ i, m.lane i = 0x00 ∨ m.lane i = 0xff)
    ∧ (∃ m, cmp_lt_uint8x32 c a b = some m ∧ ∀ i, m.lane i = 0x00 ∨ m.lane i = 0xff)
    ∧ (∀ (c' : Caps) (m : mask_int8x32), cmp_lt_int8x32 c' a b = some m →
        ∀ i, m.lane i = 0x00 ∨ m.lane i = 0xff)
    ∧ (∀ (c' : Caps) (m : mask_int8x32), cmp_lt_uint8x32 c' a b = some m →
        ∀ i, m.lane i = 0x00 ∨ m.lane i = 0xff)
    ∧ (∀ i, (mask_int8x32.of_m256i (mm_cmpgt_epi 8 x y)).lane i = 0x00
        ∨ (mask_int8x32.of_m256i (mm_cmpgt_epi 8 x y)).lane i = 0xff)
    ∧ (∀ i, (mask_int8x32.of_gint8x32 d).lane i = d.lane i)
    ∧ (∀ i, (mask_int8x32.of_m256i d).lane i = d.lane i) := by
  refine ⟨?_, ?_, fun c' m hm i => ?_, fun c' m hm i => ?_, fun i => ?_, fun _ => rfl,
    fun _ => rfl⟩
  · refine ⟨_, cmp_lt_int8x32_split c hav hp a b, fun i => ?_⟩
    have hm := combine_null_cmp_lt_lane_mask Signedness.signed 16 (half0 16 a) (half0 16 b)
      (half1 16 a) (half1 16 b) i
    rw [all_bits_8] at hm
    exact hm
  · refine ⟨_, cmp_lt_uint8x32_split c hav hp a b, fun i => ?_⟩
    have hm := combine_null_cmp_lt_lane_mask Signedness.unsigned 16 (half0 16 a)
      (half0 16 b) (half1 16 a) (half1 16 b) i
    rw [all_bits_8] at hm
    exact hm
  · rw [cmp_lt_int8x32_some c' a b m hm]
    have hl := null_cmp_lt_lane_mask Signedness.signed a b i
    rw [all_bits_8] at hl
    exact hl
  · rw [cmp_lt_uint8x32_some c' a b m hm]
    have hl := null_cmp_lt_lane_mask Signedness.unsigned a b i
    rw [all_bits_8] at hl
    exact hl
  · have hl := null_cmp_lt_lane_mask Signedness.signed y x i
    rw [all_bits_8] at hl
    exact hl

/-- C8 (amended) in the plain SSE2 build on `a = [0, ..., 31]`, `b = [31, ..., 0]`, with
the constructors applied to `[0x01]*32` and to the compare register of `b` against `a`;
the signed and the unsigned mask are `0xff` in lanes `0..15` and `0x00` in lanes
`16..31`. -/
theorem mask_int8x32_lanes_witness :
    capsSSE2.USE_AVX2 = false ∧ capsSSE2.hasPrimary = true
    ∧ ((∃ m, cmp_lt_int8x32 capsSSE2 (iotaVec 8 32) (revVec 8 32) = some m
          ∧ ∀ i, m.lane i = 0x00 ∨ m.lane i = 0xff)
      ∧ (∃ m, cmp_lt_uint8x32 capsSSE2 (iotaVec 8 32) (revVec 8 32) = some m
          ∧ ∀ i, m.lane i = 0x00 ∨ m.lane i = 0xff)
      ∧ (∀ (c' : Caps) (m : mask_int8x32),
          cmp_lt_int8x32 c' (iotaVec 8 32) (revVec 8 32) = some m →
          ∀ i, m.lane i = 0x00 ∨ m.lane i = 0xff)
      ∧ (∀ (c' : Caps) (m : mask_int8x32),
          cmp_lt_uint8x32 c' (iotaVec 8 32) (revVec 8 32) = some m →
          ∀ i, m.lane i = 0x00 ∨ m.lane i = 0xff)
      ∧ (∀ i, (mask_int8x32.of_m256i (mm_cmpgt_epi 8 (revVec 8 32) (iotaVec 8 32))).lane i
            = 0x00
          ∨ (mask_int8x32.of_m256i (mm_cmpgt_epi 8 (revVec 8 32) (iotaVec 8 32))).lane i
            = 0xff)
      ∧ (∀ i, (mask_int8x32.of_gint8x32 (make_const 8 32 0x01)).lane i
          = (make_const 8 32 0x01).lane i)
      ∧ (∀ i, (mask_int8x32.of_m256i (make_const 8 32 0x01)).lane i
          = (make_const 8 32 0x01).lane i))
    ∧ (∀ i : Fin 32,
        (cmp_lt_int8x32 capsSSE2 (iotaVec 8 32) (revVec 8 32)).map (fun m => m.lane i)
          = some (if i.val < 16 then 0xff else 0x00))
    ∧ (∀ i : Fin 32,
        (cmp_lt_uint8x32 capsSSE2 (iotaVec 8 32) (revVec 8 32)).map (fun m => m.lane i)
          = some (if i.val < 16 then 0xff else 0x00))
    ∧ (∀ i : Fin 32,
        (mask_int8x32.of_m256i (mm_cmpgt_epi 8 (revVec 8 32) (iotaVec 8 32))).lane i
          = if i.val < 16 then 0xff else 0x00) :=
  ⟨by decide, by decide,
   mask_int8x32_lanes capsSSE2 (by decide) (by decide) (iotaVec 8 32) (revVec 8 32)
     (make_const 8 32 0x01) (revVec 8 32) (iotaVec 8 32),
   by decide, by decide, by decide⟩

/-- C9: in a build without AVX2, for every pair of 256-bit integer vectors (`int8x32`,
`uint8x32`, `int16x16`, `uint16x16`, `int32x8`, `uint32x8`), `cmp_lt(a, b)` and
`min(a, b)` return, and the result is the in-order concatenation of the same operation
applied to the low halves and to the high halves: lane `i` of the wide result is lane `i`
of the low-half result for `i < N/2` and lane `i - N/2` of the high-half result
otherwise. -/
theorem decomposition_concat (c : Caps) (hav : c.USE_AVX2 = false)
    (hp : c.hasPrimary = true) (a8 b8 : Reg 8 32) (a16 b16 : Reg 16 16)
    (a32 b32 : Reg 32 8) :
    IsConcatOf 16 ((cmp_lt_int8x32 c a8 b8).map (fun m => m.d_))
        (cmp_lt_int8x16 c (half0 16 a8) (half0 16 b8))
        (cmp_lt_int8x16 c (half1 16 a8) (half1 16 b8))
    ∧ IsConcatOf 16 ((cmp_lt_uint8x32 c a8 b8).map (fun m => m.d_))
        (cmp_lt_uint8x16 c (half0 16 a8) (half0 16 b8))
        (cmp_lt_uint8x16 c (half1 16 a8) (half1 16 b8))
    ∧ IsConcatOf 8 (cmp_lt_int16x16 c a16 b16)
        (cmp_lt_int16x8 c (half0 8 a16) (half0 8 b16))
        (cmp_lt_int16x8 c (half1 8 a16) (half1 8 b16))
    ∧ IsConcatOf 8 (cmp_lt_uint16x16 c a16 b16)
        (cmp_lt_uint16x8 c (half0 8 a16) (half0 8 b16))
        (cmp_lt_uint16x8 c (half1 8 a16) (half1 8 b16))
    ∧ IsConcatOf 4 (cmp_lt_int32x8 c a32 b32)
        (cmp_lt_int32x4 c (half0 4 a32) (half0 4 b32))
        (cmp_lt_int32x4 c (half1 4 a32) (half1 4 b32))
    ∧ IsConcatOf 4 (cmp_lt_uint32x8 c a32 b32)
        (cmp_lt_uint32x4 c (half0 4 a32) (half0 4 b32))
        (cmp_lt_uint32x4 c (half1 4 a32) (half1 4 b32))
    ∧ IsConcatOf 16 (min_int8x32 c a8 b8)
        (min_int8x16 c (half0 16 a8) (half0 16 b8))
        (min_int8x16 c (half1 16 a8) (half1 16 b8))
    ∧ IsConcatOf 16 (min_uint8x32 c a8 b8)
        (min_uint8x16 c (half0 16 a8) (half0 16 b8))
        (min_uint8x16 c (half1 16 a8) (half1 16 b8))
    ∧ IsConcatOf 8 (min_int16x16 c a16 b16)
        (min_int16x8 c (half0 8 a16) (half0 8 b16))
        (min_int16x8 c (half1 8 a16) (half1 8 b16))
    ∧ IsConcatOf 8 (min_uint16x16 c a16 b16)
        (min_uint16x8 c (half0 8 a16) (half0 8 b16))
        (min_uint16x8 c (half1 8 a16) (half1 8 b16))
    ∧ IsConcatOf 4 (min_int32x8 c a32 b32)
        (min_int32x4 c (half0 4 a32) (half0 4 b32))
        (min_int32x4 c (half1 4 a32) (half1 4 b32))
    ∧ IsConcatOf 4 (min_uint32x8 c a32 b32)
        (min_uint32x4 c (half0 4 a32) (half0 4 b32))
        (min_uint32x4 c (half1 4 a32) (half1 4 b32)) := by
  refine ⟨?_, ?_, ?_, ?_, ?_, ?_, ?_, ?_, ?_, ?_, ?_, ?_⟩
  · have e := isConcatOf_impl2 16 (cmp_lt_int8x16 c) _ (cmp_lt_int8x16_eq_null c hp) a8 b8
    simpa [cmp_lt_int8x32, hav, Option.map_map, Function.comp_def, mask_int8x32.of_gint8x32] using e
  · have e := isConcatOf_impl2 16 (cmp_lt_uint8x16 c) _ (cmp_lt_uint8x16_eq_null c hp) a8 b8
    simpa [cmp_lt_uint8x32, hav, Option.map_map, Function.comp_def, mask_int8x32.of_gint8x32] using e
  · have e := isConcatOf_impl2 8 (cmp_lt_int16x8 c) _ (cmp_lt_int16x8_eq_null c hp) a16 b16
    simpa [cmp_lt_int16x16, hav, Option.map_map, Function.comp_def, mask_int8x32.of_gint8x32] using e
  · have e := isConcatOf_impl2 8 (cmp_lt_uint16x8 c) _ (cmp_lt_uint16x8_eq_null c hp) a16 b16
    simpa [cmp_lt_uint16x16, hav, Option.map_map, Function.comp_def, mask_int8x32.of_gint8x32] using e
  · have e := isConcatOf_impl2 4 (cmp_lt_int32x4 c) _ (cmp_lt_int32x4_eq_null c hp) a32 b32
    simpa [cmp_lt_int32x8, hav, Option.map_map, Function.comp_def, mask_int8x32.of_gint8x32] using e
  · have e := isConcatOf_impl2 4 (cmp_lt_uint32x4 c) _ (cmp_lt_uint32x4_eq_null c hp) a32 b32
    simpa [cmp_lt_uint32x8, hav, Option.map_map, Function.comp_def, mask_int8x32.of_gint8x32] using e
  · have e := isConcatOf_impl2 16 (min_int8x16 c) _ (min_int8x16_eq_null c hp) a8 b8
    simpa [min_int8x32, hav, Option.map_map, Function.comp_def, mask_int8x32.of_gint8x32] using e
  · have e := isConcatOf_impl2 16 (min_uint8x16 c) _ (min_uint8x16_eq_null c hp) a8 b8
    simpa [min_uint8x32, hav, Option.map_map, Function.comp_def, mask_int8x32.of_gint8x32] using e
  · have e := isConcatOf_impl2 8 (min_int16x8 c) _ (min_int16x8_eq_null c hp) a16 b16
    simpa [min_int16x16, hav, Option.map_map, Function.comp_def, mask_int8x32.of_gint8x32] using e
  · have e := isConcatOf_impl2 8 (min_uint16x8 c) _ (min_uint16x8_eq_null c hp) a16 b16
    simpa [min_uint16x16, hav, Option.map_map, Function.comp_def, mask_int8x32.of_gint8x32] using e
  · have e := isConcatOf_impl2 4 (min_int32x4 c) _ (min_int32x4_eq_null c hp) a32 b32
    simpa [min_int32x8, hav, Option.map_map, Function.comp_def, mask_int8x32.of_gint8x32] using e
  · have e := isConcatOf_impl2 4 (min_uint32x4 c) _ (min_uint32x4_eq_null c hp) a32 b32
    simpa [min_uint32x8, hav, Option.map_map, Function.comp_def, mask_int8x32.of_gint8x32] using e

set_option maxRecDepth 8192 in
/-- C9 on the plain SSE2 build with `a = [0, 1, ..., N-1]`, `b = [N-1, ..., 1, 0]` at
each width; the 32-lane signed compare is `0xff` in lanes `0..15` and `0` above, and the
32-lane signed minimum is `[0, ..., 15, 15, ..., 0]`. -/
theorem decomposition_concat_witness :
    capsSSE2.USE_AVX2 = false ∧ capsSSE2.hasPrimary = true
    ∧ (IsConcatOf 16 ((cmp_lt_int8x32 capsSSE2 (iotaVec 8 32) (revVec 8 32)).map (fun m => m.d_))
          (cmp_lt_int8x16 capsSSE2 (half0 16 (iotaVec 8 32)) (half0 16 (revVec 8 32)))
          (cmp_lt_int8x16 capsSSE2 (half1 16 (iotaVec 8 32)) (half1 16 (revVec 8 32)))
      ∧ IsConcatOf 16 ((cmp_lt_uint8x32 capsSSE2 (iotaVec 8 32) (revVec 8 32)).map (fun m => m.d_))
          (cmp_lt_uint8x16 capsSSE2 (half0 16 (iotaVec 8 32)) (half0 16 (revVec 8 32)))
          (cmp_lt_uint8x16 capsSSE2 (half1 16 (iotaVec 8 32)) (half1 16 (revVec 8 32)))
      ∧ IsConcatOf 8 (cmp_lt_int16x16 capsSSE2 (iotaVec 16 16) (revVec 16 16))
          (cmp_lt_int16x8 capsSSE2 (half0 8 (iotaVec 16 16)) (half0 8 (revVec 16 16)))
          (cmp_lt_int16x8 capsSSE2 (half1 8 (iotaVec 16 16)) (half1 8 (revVec 16 16)))
      ∧ IsConcatOf 8 (cmp_lt_uint16x16 capsSSE2 (iotaVec 16 16) (revVec 16 16))
          (cmp_lt_uint16x8 capsSSE2 (half0 8 (iotaVec 16 16)) (half0 8 (revVec 16 16)))
          (cmp_lt_uint16x8 capsSSE2 (half1 8 (iotaVec 16 16)) (half1 8 (revVec 16 16)))
      ∧ IsConcatOf 4 (cmp_lt_int32x8 capsSSE2 (iotaVec 32 8) (revVec 32 8))
          (cmp_lt_int32x4 capsSSE2 (half0 4 (iotaVec 32 8)) (half0 4 (revVec 32 8)))
          (cmp_lt_int32x4 capsSSE2 (half1 4 (iotaVec 32 8)) (half1 4 (revVec 32 8)))
      ∧ IsConcatOf 4 (cmp_lt_uint32x8 capsSSE2 (iotaVec 32 8) (revVec 32 8))
          (cmp_lt_uint32x4 capsSSE2 (half0 4 (iotaVec 32 8)) (half0 4 (revVec 32 8)))
          (cmp_lt_uint32x4 capsSSE2 (half1 4 (iotaVec 32 8)) (half1 4 (revVec 32 8)))
      ∧ IsConcatOf 16 (min_int8x32 capsSSE2 (iotaVec 8 32) (revVec 8 32))
          (min_int8x16 capsSSE2 (half0 16 (iotaVec 8 32)) (half0 16 (revVec 8 32)))
          (min_int8x16 capsSSE2 (half1 16 (iotaVec 8 32)) (half1 16 (revVec 8 32)))
      ∧ IsConcatOf 16 (min_uint8x32 capsSSE2 (iotaVec 8 32) (revVec 8 32))
          (min_uint8x16 capsSSE2 (half0 16 (iotaVec 8 32)) (half0 16 (revVec 8 32)))
          (min_uint8x16 capsSSE2 (half1 16 (iotaVec 8 32)) (half1 16 (revVec 8 32)))
      ∧ IsConcatOf 8 (min_int16x16 capsSSE2 (iotaVec 16 16) (revVec 16 16))
          (min_int16x8 capsSSE2 (half0 8 (iotaVec 16 16)) (half0 8 (revVec 16 16)))
          (min_int16x8 capsSSE2 (half1 8 (iotaVec 16 16)) (half1 8 (revVec 16 16)))
      ∧ IsConcatOf 8 (min_uint16x16 capsSSE2 (iotaVec 16 16) (revVec 16 16))
          (min_uint16x8 capsSSE2 (half0 8 (iotaVec 16 16)) (half0 8 (revVec 16 16)))
          (min_uint16x8 capsSSE2 (half1 8 (iotaVec 16 16)) (half1 8 (revVec 16 16)))
      ∧ IsConcatOf 4 (min_int32x8 capsSSE2 (iotaVec 32 8) (revVec 32 8))
          (min_int32x4 capsSSE2 (half0 4 (iotaVec 32 8)) (half0 4 (revVec 32 8)))
          (min_int32x4 capsSSE2 (half1 4 (iotaVec 32 8)) (half1 4 (revVec 32 8)))
      ∧ IsConcatOf 4 (min_uint32x8 capsSSE2 (iotaVec 32 8) (revVec 32 8))
          (min_uint32x4 capsSSE2 (half0 4 (iotaVec 32 8)) (half0 4 (revVec 32 8)))
          (min_uint32x4 capsSSE2 (half1 4 (iotaVec 32 8)) (half1 4 (revVec 32 8))))
    ∧ (∀ i : Fin 32,
        (cmp_lt_int8x32 capsSSE2 (iotaVec 8 32) (revVec 8 32)).map (fun m => m.lane i)
          = some (if i.val < 16 then 0xff else 0))
    ∧ (∀ i : Fin 32,
        (min_int8x32 capsSSE2 (iotaVec 8 32) (revVec 8 32)).map (fun r => r.lane i)
          = some (if i.val < 16 then i.val else 31 - i.val)) :=
  ⟨by decide, by decide,
   decomposition_concat capsSSE2 (by decide) (by decide) (iotaVec 8 32) (revVec 8 32)
     (iotaVec 16 16) (revVec 16 16) (iotaVec 32 8) (revVec 32 8),
   by decide, by decide⟩

/-- C10: the 32-lane 8-bit vector built from halves `H0` and `H1` has lane `i` equal to
`H0.lane(i)` for `0 <= i < 16` and to `H1.lane(i - 16)` for `16 <= i < 32`; splitting it
again returns `(H0, H1)`; and `H0 = [1..16]`, `H1 = [17..32]` yield exactly the
32-lane vector `[1..32]`. -/
theorem combine_order_preserving (H0 H1 : Reg 8 16) :
    (∀ i : Fin 32, (combine 16 H0 H1).lane i
        = if h : i.val < 16 then H0.lane ⟨i.val, h⟩ else H1.lane ⟨i.val - 16, by omega⟩)
    ∧ (∀ i : Fin 16, (combine 16 H0 H1).lane ⟨i.val, by omega⟩ = H0.lane i
        ∧ (combine 16 H0 H1).lane ⟨i.val + 16, by omega⟩ = H1.lane i)
    ∧ half0 16 (combine 16 H0 H1) = H0
    ∧ half1 16 (combine 16 H0 H1) = H1
    ∧ combine 16 (rampVec 8 16 0) (rampVec 8 16 16) = rampVec 8 32 0
    ∧ (∀ i : Fin 32, (combine 16 (rampVec 8 16 0) (rampVec 8 16 16)).lane i = i.val + 1) := by
  refine ⟨fun _ => rfl, fun i => ⟨combine_lane_lo 16 H0 H1 i, combine_lane_hi 16 H0 H1 i⟩,
    half0_combine 16 H0 H1, half1_combine 16 H0 H1, ?_, by decide⟩
  apply Reg.ext_lane
  decide

/-! ## Nested width decomposition -/

theorem wideLanes_eq (n d : Nat) : wideLanes n d = 2 ^ d * n := by
  induction d with
  | zero => simp [wideLanes]
  | succ d ih =>
    simp only [wideLanes, ih, Nat.pow_succ]
    ring

theorem decompose_eq_zipLanes {w : Nat} (n : Nat) (op : Reg w n → Reg w n → Option (Reg w n))
    (f : Nat → Nat → Nat) (hf : ∀ x y, x < 2 ^ w → y < 2 ^ w → f x y < 2 ^ w)
    (hop : ∀ x y, op x y = some (Reg.zipLanes f hf x y)) (d : Nat) :
    ∀ a b : Reg w (wideLanes n d), decompose n op d a b = some (Reg.zipLanes f hf a b) := by
  induction d with
  | zero => exact hop
  | succ d ih =>
    intro a b
    show SIMDPP_VEC_ARRAY_IMPL2 (wideLanes n d) (decompose n op d) a b = _
    rw [impl2_of_total (wideLanes n d) (decompose n op d) (Reg.zipLanes f hf) ih a b,
      combine_zipLanes_halves]

/-- C11: for every depth `d` and every binary lane-wise operation `op` on `n`-lane
vectors (lane function `f`), the operation obtained by `d` nested levels of split /
apply / recombine acts on vectors of `2^d * n` lanes, always returns (the recursion is
on `d`), and its result is `f` applied independently to each lane of the whole vector,
in lane order. -/
theorem decompose_lanewise {w : Nat} (n : Nat) (op : Reg w n → Reg w n → Option (Reg w n))
    (f : Nat → Nat → Nat) (hf : ∀ x y, x < 2 ^ w → y < 2 ^ w → f x y < 2 ^ w)
    (hop : ∀ x y, op x y = some (Reg.zipLanes f hf x y)) (d : Nat)
    (a b : Reg w (wideLanes n d)) :
    wideLanes n d = 2 ^ d * n
    ∧ ∃ r, decompose n op d a b = some r ∧ ∀ i, r.lane i = f (a.lane i) (b.lane i) :=
  ⟨wideLanes_eq n d, _, decompose_eq_zipLanes n op f hf hop d a b, fun _ => rfl⟩

set_option maxRecDepth 8192 in
/-- C11 at depth 2 over the plain SSE2 unsigned 8-bit compare (16 lanes, so 64-lane
operands `[0, ..., 63]` and `[63, ..., 0]`): the result is `0xff` in lanes `0..31` and
`0` in lanes `32..63`. -/
theorem decompose_lanewise_witness :
    (∀ x y : Reg 8 16, cmp_lt_uint8x16 capsSSE2 x y
        = some (Reg.zipLanes (lane_null_cmp_lt Signedness.unsigned 8)
            (fun _ _ _ _ => ite_all_bits_lt 8 _) x y))
    ∧ (wideLanes 16 2 = 2 ^ 2 * 16
      ∧ ∃ r, decompose 16 (cmp_lt_uint8x16 capsSSE2) 2 (iotaVec 8 64) (revVec 8 64) = some r
        ∧ ∀ i, r.lane i
            = lane_null_cmp_lt Signedness.unsigned 8 ((iotaVec 8 64).lane i)
                ((revVec 8 64).lane i))
    ∧ (∀ i : Fin 64,
        (decompose 16 (cmp_lt_uint8x16 capsSSE2) 2 (iotaVec 8 64) (revVec 8 64)).map
          (fun r => r.lane i) = some (if i.val < 32 then 0xff else 0)) :=
  ⟨cmp_lt_uint8x16_eq_null capsSSE2 (by decide),
   decompose_lanewise 16 (cmp_lt_uint8x16 capsSSE2) (lane_null_cmp_lt Signedness.unsigned 8)
     (fun _ _ _ _ => ite_all_bits_lt 8 _) (cmp_lt_uint8x16_eq_null capsSSE2 (by decide)) 2
     (iotaVec 8 64) (revVec 8 64),
   by decide⟩

/-! ## `make_const` with several literals -/

/-- Entry `i` of `k` copies of a pattern laid end to end is entry `i mod length` of the
pattern. -/
theorem flatten_replicate_getElem? {α : Type} (vs : List α) (k : Nat) :
    ∀ i, i < k * vs.length → (List.replicate k vs).flatten[i]? = vs[i % vs.length]? := by
  induction k with
  | zero =>
    intro i hi
    simp at hi
  | succ k ih =>
    intro i hi
    rw [List.replicate_succ, List.flatten_cons]
    by_cases hlt : i < vs.length
    · rw [List.getElem?_append_left hlt, Nat.mod_eq_of_lt hlt]
    · have hge : vs.length ≤ i := Nat.le_of_not_lt hlt
      have hi2 : i - vs.length < k * vs.length := by
        rw [Nat.succ_mul] at hi
        omega
      rw [List.getElem?_append_right hge, ih _ hi2, Nat.mod_eq_sub_mod hge]

theorem fill_pattern_getElem? {α : Type} (vs : List α)
    (hn : vs.length ∈ [1, 2, 4, 8, 16, 32]) (i : Nat) (hi : i < 32) :
    (fill_pattern 32 vs)[i]? = vs[i % vs.length]? := by
  unfold fill_pattern
  apply flatten_replicate_getElem?
  simp only [List.mem_cons, List.mem_singleton, List.mem_nil_iff, or_false] at hn
  rcases hn with h | h | h | h | h | h <;> rw [h] <;> omega

theorem toSigned_ofSigned_8 (v : Int) (h1 : -128 ≤ v) (h2 : v < 128) :
    toSigned 8 (ofSigned 8 v) = v := by
  have e : ((2 ^ 8 : Nat) : Int) = 256 := by norm_num
  have e7 : (2 : Nat) ^ (8 - 1) = 128 := by norm_num
  unfold toSigned ofSigned
  rw [e, e7]
  split <;> omega

/-- C12: for the `make_const` overloads of `uint8x32` and `int8x32` taking `n` literal
values `v0..v(n-1)`, `n` in `{1, 2, 4, 8, 16, 32}`, lane `i` of the resulting 32-lane
vector is `v(i mod n)` for every `i` in `0..31` (read as `uint8_t`, respectively as
`int8_t`); the result is a function of the literal arguments alone. -/
theorem make_const_pattern_lanes (vs : List Nat) (ws : List Int)
    (hn : vs.length ∈ [1, 2, 4, 8, 16, 32]) (hv : ∀ v ∈ vs, v < 256)
    (hm : ws.length ∈ [1, 2, 4, 8, 16, 32]) (hw : ∀ v ∈ ws, -128 ≤ v ∧ v < 128) :
    (∀ i : Fin 32, vs[i.val % vs.length]? = some ((uint8x32.make_const vs).lane i))
    ∧ (∀ i : Fin 32,
        ws[i.val % ws.length]? = some (toSigned 8 ((int8x32.make_const ws).lane i))) := by
  refine ⟨fun i => ?_, fun i => ?_⟩
  · have hp := fill_pattern_getElem? vs hn i.val i.isLt
    have hpos : 0 < vs.length := by
      simp only [List.mem_cons, List.mem_singleton, List.mem_nil_iff, or_false] at hn
      omega
    have hlt : i.val % vs.length < vs.length := Nat.mod_lt _ hpos
    have hv' : vs[i.val % vs.length] < 2 ^ 8 := hv _ (List.getElem_mem hlt)
    show _ = some (((fill_pattern 32 vs).getD i.val 0) % 2 ^ 8)
    rw [List.getD_eq_getElem?_getD, hp, List.getElem?_eq_getElem hlt, Option.getD_some,
      Nat.mod_eq_of_lt hv']
  · have hp := fill_pattern_getElem? ws hm i.val i.isLt
    have hpos : 0 < ws.length := by
      simp only [List.mem_cons, List.mem_singleton, List.mem_nil_iff, or_false] at hm
      omega
    have hlt : i.val % ws.length < ws.length := Nat.mod_lt _ hpos
    have hw' := hw _ (List.getElem_mem hlt)
    show _ = some (toSigned 8 (ofSigned 8 ((fill_pattern 32 ws).getD i.val 0)))
    rw [List.getD_eq_getElem?_getD, hp, List.getElem?_eq_getElem hlt, Option.getD_some,
      toSigned_ofSigned_8 _ hw'.1 hw'.2]

/-- C12 at the four-literal unsigned pattern `1, 2, 3, 4` and the two-literal signed
pattern `-1, 2`: the lanes are `[1, 2, 3, 4, 1, 2, ...]` and `[0xff, 0x02, 0xff, ...]`;
the one-literal and the 32-literal overloads give `[7]*32` and `[1, ..., 32]`. -/
theorem make_const_pattern_lanes_witness :
    ([1, 2, 3, 4] : List Nat).length ∈ [1, 2, 4, 8, 16, 32]
    ∧ (∀ v ∈ ([1, 2, 3, 4] : List Nat), v < 256)
    ∧ ([-1, 2] : List Int).length ∈ [1, 2, 4, 8, 16, 32]
    ∧ (∀ v ∈ ([-1, 2] : List Int), -128 ≤ v ∧ v < 128)
    ∧ ((∀ i : Fin 32, ([1, 2, 3, 4] : List Nat)[i.val % ([1, 2, 3, 4] : List Nat).length]?
          = some ((uint8x32.make_const [1, 2, 3, 4]).lane i))
      ∧ (∀ i : Fin 32, ([-1, 2] : List Int)[i.val % ([-1, 2] : List Int).length]?
          = some (toSigned 8 ((int8x32.make_const [-1, 2]).lane i))))
    ∧ (∀ i : Fin 32, (uint8x32.make_const [1, 2, 3, 4]).lane i = i.val % 4 + 1)
    ∧ (∀ i : Fin 32, (int8x32.make_const [-1, 2]).lane i = if i.val % 2 = 0 then 0xff else 2)
    ∧ (∀ i : Fin 32, (uint8x32.make_const [7]).lane i = 7)
    ∧ (∀ i : Fin 32, (uint8x32.make_const (List.range' 1 32)).lane i = i.val + 1) :=
  ⟨by decide, by decide, by decide, by decide,
   make_const_pattern_lanes [1, 2, 3, 4] [-1, 2] (by decide) (by decide) (by decide)
     (by decide),
   by decide, by decide, by decide, by decide⟩

/-! ## Reaching a returning arm -/

/-- C13 fails when the one primary flag is not among the flags the 128-bit chains test:
a configuration whose only true flag is `SIMDPP_USE_AVX2` (exactly one primary flag)
falls through every arm of `cmp_lt(int8x16, int8x16)` and of `min(uint16x8, uint16x8)`,
and one whose only true flag is `SIMDPP_USE_SSE4_1` falls through the `cmp_lt` chains. -/
theorem one_primary_flag_falls_through :
    capsOnlyAVX2.exactlyOnePrimary = true
    ∧ (∀ a b : int8x16, cmp_lt_int8x16 capsOnlyAVX2 a b = none)
    ∧ (∀ a b : uint16x8, min_uint16x8 capsOnlyAVX2 a b = none)
    ∧ capsOnlySSE4_1.exactlyOnePrimary = true
    ∧ (∀ a b : int8x16, cmp_lt_int8x16 capsOnlySSE4_1 a b = none)
    ∧ (∀ a b : uint8x16, cmp_lt_uint8x16 capsOnlySSE4_1 a b = none)
    ∧ ¬ (∀ c : Caps, c.exactlyOnePrimary = true →
          ∀ a b : int8x16, (cmp_lt_int8x16 c a b).isSome = true) := by
  refine ⟨by decide, fun _ _ => rfl, fun _ _ => rfl, by decide, fun _ _ => rfl,
    fun _ _ => rfl, fun h => ?_⟩
  have h1 := h capsOnlyAVX2 (by decide) (iotaVec 8 16) (revVec 8 16)
  exact absurd h1 (by decide)

/-- C13 (amended): for every capability configuration in which at least one of the
flags `NULL`, `SSE2`, `NEON`, `ALTIVEC` is true (as in the x86 builds where a later
generation also sets `SSE2`), whatever the other flags, every 128-bit integer overload
of `cmp_lt` and of `min` reaches a conditional-compilation arm that returns a value. -/
theorem cmp_lt_min_128_return (c : Caps) (h : c.hasPrimary = true)
    (a8 b8 : Reg 8 16) (a16 b16 : Reg 16 8) (a32 b32 : Reg 32 4) :
    (cmp_lt_int8x16 c a8 b8).isSome = true
    ∧ (cmp_lt_uint8x16 c a8 b8).isSome = true
    ∧ (cmp_lt_int16x8 c a16 b16).isSome = true
    ∧ (cmp_lt_uint16x8 c a16 b16).isSome = true
    ∧ (cmp_lt_int32x4 c a32 b32).isSome = true
    ∧ (cmp_lt_uint32x4 c a32 b32).isSome = true
    ∧ (min_int8x16 c a8 b8).isSome = true
    ∧ (min_uint8x16 c a8 b8).isSome = true
    ∧ (min_int16x8 c a16 b16).isSome = true
    ∧ (min_uint16x8 c a16 b16).isSome = true
    ∧ (min_int32x4 c a32 b32).isSome = true
    ∧ (min_uint32x4 c a32 b32).isSome = true := by
  refine ⟨?_, ?_, ?_, ?_, ?_, ?_, ?_, ?_, ?_, ?_, ?_, ?_⟩
  · rw [cmp_lt_int8x16_eq_null c h]
    rfl
  · rw [cmp_lt_uint8x16_eq_null c h]
    rfl
  · rw [cmp_lt_int16x8_eq_null c h]
    rfl
  · rw [cmp_lt_uint16x8_eq_null c h]
    rfl
  · rw [cmp_lt_int32x4_eq_null c h]
    rfl
  · rw [cmp_lt_uint32x4_eq_null c h]
    rfl
  · rw [min_int8x16_eq_null c h]
    rfl
  · rw [min_uint8x16_eq_null c h]
    rfl
  · rw [min_int16x8_eq_null c h]
    rfl
  · rw [min_uint16x8_eq_null c h]
    rfl
  · rw [min_int32x4_eq_null c h]
    rfl
  · rw [min_uint32x4_eq_null c h]
    rfl

/-- C13 (amended) on the AVX2 build, which sets the SSE flags below it as well. -/
theorem cmp_lt_min_128_return_witness :
    capsAVX2.hasPrimary = true
    ∧ ((cmp_lt_int8x16 capsAVX2 (iotaVec 8 16) (revVec 8 16)).isSome = true
      ∧ (cmp_lt_uint8x16 capsAVX2 (iotaVec 8 16) (revVec 8 16)).isSome = true
      ∧ (cmp_lt_int16x8 capsAVX2 (iotaVec 16 8) (revVec 16 8)).isSome = true
      ∧ (cmp_lt_uint16x8 capsAVX2 (iotaVec 16 8) (revVec 16 8)).isSome = true
      ∧ (cmp_lt_int32x4 capsAVX2 (iotaVec 32 4) (revVec 32 4)).isSome = true
      ∧ (cmp_lt_uint32x4 capsAVX2 (iotaVec 32 4) (revVec 32 4)).isSome = true
      ∧ (min_int8x16 capsAVX2 (iotaVec 8 16) (revVec 8 16)).isSome = true
      ∧ (min_uint8x16 capsAVX2 (iotaVec 8 16) (revVec 8 16)).isSome = true
      ∧ (min_int16x8 capsAVX2 (iotaVec 16 8) (revVec 16 8)).isSome = true
      ∧ (min_uint16x8 capsAVX2 (iotaVec 16 8) (revVec 16 8)).isSome = true
      ∧ (min_int32x4 capsAVX2 (iotaVec 32 4) (revVec 32 4)).isSome = true
      ∧ (min_uint32x4 capsAVX2 (iotaVec 32 4) (revVec 32 4)).isSome = true) :=
  ⟨by decide,
   cmp_lt_min_128_return capsAVX2 (by decide) (iotaVec 8 16) (revVec 8 16) (iotaVec 16 8)
     (revVec 16 8) (iotaVec 32 4) (revVec 32 4)⟩

/-! ## The AVX2 arms of the 256-bit compares -/

theorem cmp_lt_int16x16_avx2 (c : Caps) (h : c.USE_AVX2 = true) (a b : int16x16) :
    cmp_lt_int16x16 c a b = some (mm_cmpgt_epi 16 b a) := by
  simp [cmp_lt_int16x16, h]

theorem cmp_lt_int32x8_avx2 (c : Caps) (h : c.USE_AVX2 = true) (a b : int32x8) :
    cmp_lt_int32x8 c a b = some (mm_cmpgt_epi 32 b a) := by
  simp [cmp_lt_int32x8, h]

theorem cmp_lt_int16x16_split (c : Caps) (h : c.USE_AVX2 = false) (hp : c.hasPrimary = true)
    (a b : int16x16) :
    cmp_lt_int16x16 c a b = some (null.cmp_lt Signedness.signed a b) := by
  simp [cmp_lt_int16x16, h,
    impl2_of_total 8 (cmp_lt_int16x8 c) _ (cmp_lt_int16x8_eq_null c hp) a b,
    combine_null_cmp_lt_halves]

theorem cmp_lt_int32x8_split (c : Caps) (h : c.USE_AVX2 = false) (hp : c.hasPrimary = true)
    (a b : int32x8) :
    cmp_lt_int32x8 c a b = some (null.cmp_lt Signedness.signed a b) := by
  simp [cmp_lt_int32x8, h,
    impl2_of_total 4 (cmp_lt_int32x4 c) _ (cmp_lt_int32x4_eq_null c hp) a b,
    combine_null_cmp_lt_halves]

set_option maxRecDepth 8192 in
/-- C14: in the AVX2 build `cmp_lt(int8x32, int8x32)` hands its `int8x32` operands to
`_mm256_cmpgt_epi8`, and `int8<32>` has no conversion to `__m256i`: the call has no
value, at `a = [0, ..., 31]`, `b = [31, ..., 0]` and at every other input. The value the
claim describes, `cmpgt(b, a)` on the registers, is `all_bits` iff
`a.lane(i) < b.lane(i)` signed and `0` otherwise, and is what a build without AVX2
returns from its two 128-bit calls. For `int16x16` and `int32x8`, with the AVX2 arm
taken on the registers, `cmp_lt` returns `cmpgt(b, a)` with that lane contract, and the
build without AVX2 returns the same vector. -/
theorem cmp_lt_int8x32_avx2_ill_formed :
    cmp_lt_int8x32 capsAVX2 (iotaVec 8 32) (revVec 8 32) = none
    ∧ (∀ (c : Caps) (a b : int8x32), c.USE_AVX2 = true → cmp_lt_int8x32 c a b = none)
    ∧ (∀ (a b : Reg 8 32) (i : Fin 32),
        ((mm_cmpgt_epi 8 b a).lane i = 0xff ↔ toSigned 8 (a.lane i) < toSigned 8 (b.lane i))
        ∧ (¬ toSigned 8 (a.lane i) < toSigned 8 (b.lane i) → (mm_cmpgt_epi 8 b a).lane i = 0))
    ∧ (∀ (c : Caps) (a b : int8x32), c.USE_AVX2 = false → c.hasPrimary = true →
        (cmp_lt_int8x32 c a b).map (fun m => m.d_) = some (mm_cmpgt_epi 8 b a))
    ∧ (∀ i : Fin 32,
        (cmp_lt_int8x32 capsSSE2 (iotaVec 8 32) (revVec 8 32)).map (fun m => m.lane i)
          = some (if i.val < 16 then 0xff else 0))
    ∧ (∀ (c : Caps) (a b : int16x16), c.USE_AVX2 = true ∨ c.hasPrimary = true →
        cmp_lt_int16x16 c a b = some (mm_cmpgt_epi 16 b a))
    ∧ (∀ (a b : Reg 16 16) (i : Fin 16),
        ((mm_cmpgt_epi 16 b a).lane i = 0xffff
          ↔ toSigned 16 (a.lane i) < toSigned 16 (b.lane i))
        ∧ (¬ toSigned 16 (a.lane i) < toSigned 16 (b.lane i)
          → (mm_cmpgt_epi 16 b a).lane i = 0))
    ∧ (∀ (c : Caps) (a b : int32x8), c.USE_AVX2 = true ∨ c.hasPrimary = true →
        cmp_lt_int32x8 c a b = some (mm_cmpgt_epi 32 b a))
    ∧ (∀ (a b : Reg 32 8) (i : Fin 8),
        ((mm_cmpgt_epi 32 b a).lane i = 0xffffffff
          ↔ toSigned 32 (a.lane i) < toSigned 32 (b.lane i))
        ∧ (¬ toSigned 32 (a.lane i) < toSigned 32 (b.lane i)
          → (mm_cmpgt_epi 32 b a).lane i = 0))
    ∧ (∀ c ∈ [capsAVX2, capsSSE2], ∀ i : Fin 16,
        (cmp_lt_int16x16 c (iotaVec 16 16) (revVec 16 16)).map (fun m => m.lane i)
          = some (if i.val < 8 then 0xffff else 0)) := by
  refine ⟨cmp_lt_int8x32_avx2_none capsAVX2 (by decide) _ _,
    fun c a b h => cmp_lt_int8x32_avx2_none c h a b, fun a b i => ?_, fun c a b hav hp => ?_,
    by decide, fun c a b h => ?_, fun a b i => ?_, fun c a b h => ?_, fun a b i => ?_,
    by decide⟩
  · have hs := null_cmp_lt_spec Signedness.signed (by decide : 0 < 8) a b i
    rw [all_bits_8] at hs
    exact hs
  · rw [cmp_lt_int8x32_split c hav hp, combine_null_cmp_lt_halves]
    rfl
  · cases hav : c.USE_AVX2 with
    | true => exact cmp_lt_int16x16_avx2 c hav a b
    | false =>
      rw [cmp_lt_int16x16_split c hav (h.resolve_left (by simp [hav]))]
      rfl
  · have hs := null_cmp_lt_spec Signedness.signed (by decide : 0 < 16) a b i
    rw [all_bits_16] at hs
    exact hs
  · cases hav : c.USE_AVX2 with
    | true => exact cmp_lt_int32x8_avx2 c hav a b
    | false =>
      rw [cmp_lt_int32x8_split c hav (h.resolve_left (by simp [hav]))]
      rfl
  · have hs := null_cmp_lt_spec Signedness.signed (by decide : 0 < 32) a b i
    rw [all_bits_32] at hs
    exact hs

theorem cmp_lt_uint16x16_avx2_arm (c : Caps) (h : c.USE_AVX2 = true) (a b : uint16x16) :
    cmp_lt_uint16x16 c a b
      = some (mm_cmpgt_epi 16 (bit_xor b (make_const 16 16 0x8000))
          (bit_xor a (make_const 16 16 0x8000))) := by
  simp [cmp_lt_uint16x16, h]

theorem cmp_lt_uint32x8_avx2_arm (c : Caps) (h : c.USE_AVX2 = true) (a b : uint32x8) :
    cmp_lt_uint32x8 c a b
      = some (mm_cmpgt_epi 32 (bit_xor b (make_const 32 8 0x80000000))
          (bit_xor a (make_const 32 8 0x80000000))) := by
  simp [cmp_lt_uint32x8, h]

set_option maxRecDepth 8192 in
/-- C15: in the AVX2 build `cmp_lt(uint8x32, uint8x32)` XORs both operands with the
bias and hands the biased `uint8x32` objects to `_mm256_cmpgt_epi8`, and `uint8<32>` has
no conversion to `__m256i`: the call has no value, at `a = [200]*32`,
`b = [184, ..., 215]` and at every other input. The value the claim describes,
`cmpgt(b ^ bias, a ^ bias)` on the registers, is `all_bits` iff `a.lane(i) < b.lane(i)`
unsigned and `0` otherwise, and is what a build without AVX2 returns. For `uint16x16`
and `uint32x8`, with the AVX2 arm taken on the registers, `cmp_lt` returns
`cmpgt(b ^ bias, a ^ bias)` with that lane contract. -/
theorem cmp_lt_uint8x32_avx2_ill_formed :
    cmp_lt_uint8x32 capsAVX2 (make_const 8 32 200) (rampVec 8 32 183) = none
    ∧ (∀ (c : Caps) (a b : uint8x32), c.USE_AVX2 = true → cmp_lt_uint8x32 c a b = none)
    ∧ (∀ (a b : Reg 8 32) (i : Fin 32),
        ((mm_cmpgt_epi 8 (bit_xor b (make_const 8 32 0x80))
            (bit_xor a (make_const 8 32 0x80))).lane i = 0xff ↔ a.lane i < b.lane i)
        ∧ (¬ a.lane i < b.lane i
          → (mm_cmpgt_epi 8 (bit_xor b (make_const 8 32 0x80))
              (bit_xor a (make_const 8 32 0x80))).lane i = 0))
    ∧ (∀ (c : Caps) (a b : uint8x32), c.USE_AVX2 = false → c.hasPrimary = true →
        (cmp_lt_uint8x32 c a b).map (fun m => m.d_)
          = some (mm_cmpgt_epi 8 (bit_xor b (make_const 8 32 0x80))
              (bit_xor a (make_const 8 32 0x80))))
    ∧ (∀ i : Fin 32,
        (cmp_lt_uint8x32 capsSSE2 (make_const 8 32 200) (rampVec 8 32 183)).map
          (fun m => m.lane i) = some (if i.val < 17 then 0 else 0xff))
    ∧ (∀ (c : Caps) (a b : uint16x16), c.USE_AVX2 = true →
        cmp_lt_uint16x16 c a b
          = some (mm_cmpgt_epi 16 (bit_xor b (make_const 16 16 0x8000))
              (bit_xor a (make_const 16 16 0x8000))))
    ∧ (∀ (a b : Reg 16 16) (i : Fin 16),
        ((mm_cmpgt_epi 16 (bit_xor b (make_const 16 16 0x8000))
            (bit_xor a (make_const 16 16 0x8000))).lane i = 0xffff ↔ a.lane i < b.lane i)
        ∧ (¬ a.lane i < b.lane i
          → (mm_cmpgt_epi 16 (bit_xor b (make_const 16 16 0x8000))
              (bit_xor a (make_const 16 16 0x8000))).lane i = 0))
    ∧ (∀ (c : Caps) (a b : uint32x8), c.USE_AVX2 = true →
        cmp_lt_uint32x8 c a b
          = some (mm_cmpgt_epi 32 (bit_xor b (make_const 32 8 0x80000000))
              (bit_xor a (make_const 32 8 0x80000000))))
    ∧ (∀ (a b : Reg 32 8) (i : Fin 8),
        ((mm_cmpgt_epi 32 (bit_xor b (make_const 32 8 0x80000000))
            (bit_xor a (make_const 32 8 0x80000000))).lane i = 0xffffffff
          ↔ a.lane i < b.lane i)
        ∧ (¬ a.lane i < b.lane i
          → (mm_cmpgt_epi 32 (bit_xor b (make_const 32 8 0x80000000))
              (bit_xor a (make_const 32 8 0x80000000))).lane i = 0))
    ∧ (∀ i : Fin 16,
        (cmp_lt_uint16x16 capsAVX2 (make_const 16 16 0x8000) (rampVec 16 16 0x7ff7)).map
          (fun m => m.lane i) = some (if i.val < 9 then 0 else 0xffff))
    ∧ (∀ i : Fin 8,
        (cmp_lt_uint32x8 capsAVX2 (make_const 32 8 0x80000000) (rampVec 32 8 0x7ffffffb)).map
          (fun m => m.lane i) = some (if i.val < 5 then 0 else 0xffffffff)) := by
  refine ⟨cmp_lt_uint8x32_avx2_none capsAVX2 (by decide) _ _,
    fun c a b h => cmp_lt_uint8x32_avx2_none c h a b, fun a b i => ?_,
    fun c a b hav hp => ?_, by decide,
    fun c a b h => cmp_lt_uint16x16_avx2_arm c h a b, fun a b i => ?_,
    fun c a b h => cmp_lt_uint32x8_avx2_arm c h a b, fun a b i => ?_,
    by decide, by decide⟩
  · have hs := @bias_cmplt_spec 8 32 (by decide) 0x80 (by decide) a b i
    rw [all_bits_8] at hs
    exact hs
  · have hb := @bias_cmplt_eq_null 8 32 (by decide) 0x80 (by decide) a b
    unfold mm_cmplt_epi at hb
    rw [cmp_lt_uint8x32_split c hav hp, combine_null_cmp_lt_halves, hb]
    rfl
  · have hs := @bias_cmplt_spec 16 16 (by decide) 0x8000 (by decide) a b i
    rw [all_bits_16] at hs
    exact hs
  · have hs := @bias_cmplt_spec 32 8 (by decide) 0x80000000 (by decide) a b i
    rw [all_bits_32] at hs
    exact hs

/-! ## The sign-bias transform as arithmetic -/

theorem xor_bias_cases {w x : Nat} (hw : 0 < w) (hx : x < 2 ^ w) :
    (x < 2 ^ (w - 1) ∧ x ^^^ 2 ^ (w - 1) = x + 2 ^ (w - 1))
      ∨ (2 ^ (w - 1) ≤ x ∧ x ^^^ 2 ^ (w - 1) = x - 2 ^ (w - 1)) := by
  have hw1 : w - 1 + 1 = w := by omega
  by_cases hlt : x < 2 ^ (w - 1)
  · exact Or.inl ⟨hlt, xor_two_pow_of_lt hlt⟩
  · have hx1 : x < 2 ^ (w - 1 + 1) := by rw [hw1]; exact hx
    exact Or.inr ⟨Nat.le_of_not_lt hlt, xor_two_pow_of_ge (Nat.le_of_not_lt hlt) hx1⟩

theorem xor_0x80_eq_sub_mod {x : Nat} (hx : x < 2 ^ 8) :
    ((x ^^^ 0x80 : Nat) : Int) = ((x : Int) - 0x80) % 0x100 := by
  have h := @xor_bias_cases 8 x (by decide) hx
  norm_num at h hx
  rcases h with ⟨h1, h2⟩ | ⟨h1, h2⟩ <;> rw [h2] <;> omega

theorem xor_0x8000_eq_sub_mod {x : Nat} (hx : x < 2 ^ 16) :
    ((x ^^^ 0x8000 : Nat) : Int) = ((x : Int) - 0x8000) % 0x10000 := by
  have h := @xor_bias_cases 16 x (by decide) hx
  norm_num at h hx
  rcases h with ⟨h1, h2⟩ | ⟨h1, h2⟩ <;> rw [h2] <;> omega

theorem xor_0x80000000_eq_sub_mod {x : Nat} (hx : x < 2 ^ 32) :
    ((x ^^^ 0x80000000 : Nat) : Int) = ((x : Int) - 0x80000000) % 0x100000000 := by
  have h := @xor_bias_cases 32 x (by decide) hx
  norm_num at h hx
  rcases h with ⟨h1, h2⟩ | ⟨h1, h2⟩ <;> rw [h2] <;> omega

/-- C16: for lane widths 8, 16 and 32 and every lane pattern `a` of that width, the
operation marked `// sub` in the source, XOR with the sign-bit constant
(`0x80 = 2^7`, `0x8000 = 2^15`, `0x80000000 = 2^31`), equals subtracting that constant
modulo `2^n`: `a XOR 2^(n-1) == (a - 2^(n-1)) mod 2^n`. -/
theorem bit_xor_bias_eq_sub_mod (a8 : uint8x16) (a16 : uint16x8) (a32 : uint32x4) :
    (∀ i, (((bit_xor a8 (make_const 8 16 0x80)).lane i : Nat) : Int)
        = ((a8.lane i : Int) - 2 ^ (8 - 1)) % 2 ^ 8)
    ∧ (∀ i, (((bit_xor a16 (make_const 16 8 0x8000)).lane i : Nat) : Int)
        = ((a16.lane i : Int) - 2 ^ (16 - 1)) % 2 ^ 16)
    ∧ (∀ i, (((bit_xor a32 (make_const 32 4 0x80000000)).lane i : Nat) : Int)
        = ((a32.lane i : Int) - 2 ^ (32 - 1)) % 2 ^ 32)
    ∧ (∀ x : Nat, x < 2 ^ 8 → ((x ^^^ 0x80 : Nat) : Int) = ((x : Int) - 0x80) % 0x100)
    ∧ (∀ x : Nat, x < 2 ^ 16 → ((x ^^^ 0x8000 : Nat) : Int) = ((x : Int) - 0x8000) % 0x10000)
    ∧ (∀ x : Nat, x < 2 ^ 32 →
        ((x ^^^ 0x80000000 : Nat) : Int) = ((x : Int) - 0x80000000) % 0x100000000) := by
  refine ⟨fun i => ?_, fun i => ?_, fun i => ?_, fun _ h => xor_0x80_eq_sub_mod h,
    fun _ h => xor_0x8000_eq_sub_mod h, fun _ h => xor_0x80000000_eq_sub_mod h⟩
  · have h := xor_0x80_eq_sub_mod (a8.bound i)
    norm_num at h ⊢
    exact h
  · have h := xor_0x8000_eq_sub_mod (a16.bound i)
    norm_num at h ⊢
    exact h
  · have h := xor_0x80000000_eq_sub_mod (a32.bound i)
    norm_num at h ⊢
    exact h

/-- The biased signed reading maps `[0, 2^w)` bijectively onto `[-2^(w-1), 2^(w-1))`. -/
theorem bias_bijOn {w : Nat} (hw : 0 < w) :
    Set.BijOn (fun x : Nat => toSigned w (x ^^^ 2 ^ (w - 1))) (Set.Iio (2 ^ w))
      (Set.Ico (-((2 ^ (w - 1) : Nat) : Int)) ((2 ^ (w - 1) : Nat) : Int)) := by
  have h2 := two_pow_pred hw
  refine ⟨fun x hx => ?_, fun x hx y hy hxy => ?_, fun z hz => ?_⟩
  · have hx' : x < 2 ^ w := hx
    show toSigned w (x ^^^ 2 ^ (w - 1)) ∈ Set.Ico _ _
    rw [toSigned_xor_bias hw hx', Set.mem_Ico]
    omega
  · have hx' : x < 2 ^ w := hx
    have hy' : y < 2 ^ w := hy
    have e : toSigned w (x ^^^ 2 ^ (w - 1)) = toSigned w (y ^^^ 2 ^ (w - 1)) := hxy
    rw [toSigned_xor_bias hw hx', toSigned_xor_bias hw hy'] at e
    omega
  · rw [Set.mem_Ico] at hz
    have hlt : (z + ((2 ^ (w - 1) : Nat) : Int)).toNat < 2 ^ w := by omega
    refine ⟨(z + ((2 ^ (w - 1) : Nat) : Int)).toNat, hlt, ?_⟩
    show toSigned w ((z + ((2 ^ (w - 1) : Nat) : Int)).toNat ^^^ 2 ^ (w - 1)) = z
    rw [toSigned_xor_bias hw hlt]
    omega

/-- C17: for lane widths 8, 16 and 32 the map sending an unsigned `n`-bit value `a` to
the two's-complement reading of `a XOR 2^(n-1)` is a bijection from `[0, 2^n)` onto
`[-2^(n-1), 2^(n-1))` and is strictly order-preserving: `a < b` unsigned iff
`signed(a XOR 2^(n-1)) < signed(b XOR 2^(n-1))`; it is the value the signed compare
reads in the lanes of `bit_xor(a, bias)`. -/
theorem sign_bias_order_isomorphism :
    (Set.BijOn (fun x : Nat => toSigned 8 (x ^^^ 0x80)) (Set.Iio (2 ^ 8))
        (Set.Ico (-(2 ^ 7 : Int)) (2 ^ 7))
      ∧ ∀ x y : Nat, x < 2 ^ 8 → y < 2 ^ 8 →
          (x < y ↔ toSigned 8 (x ^^^ 0x80) < toSigned 8 (y ^^^ 0x80)))
    ∧ (Set.BijOn (fun x : Nat => toSigned 16 (x ^^^ 0x8000)) (Set.Iio (2 ^ 16))
        (Set.Ico (-(2 ^ 15 : Int)) (2 ^ 15))
      ∧ ∀ x y : Nat, x < 2 ^ 16 → y < 2 ^ 16 →
          (x < y ↔ toSigned 16 (x ^^^ 0x8000) < toSigned 16 (y ^^^ 0x8000)))
    ∧ (Set.BijOn (fun x : Nat => toSigned 32 (x ^^^ 0x80000000)) (Set.Iio (2 ^ 32))
        (Set.Ico (-(2 ^ 31 : Int)) (2 ^ 31))
      ∧ ∀ x y : Nat, x < 2 ^ 32 → y < 2 ^ 32 →
          (x < y ↔ toSigned 32 (x ^^^ 0x80000000) < toSigned 32 (y ^^^ 0x80000000)))
    ∧ (∀ (a : uint8x16) i, toSigned 8 ((bit_xor a (make_const 8 16 0x80)).lane i)
        = toSigned 8 (a.lane i ^^^ 0x80))
    ∧ (∀ (a : uint16x8) i, toSigned 16 ((bit_xor a (make_const 16 8 0x8000)).lane i)
        = toSigned 16 (a.lane i ^^^ 0x8000))
    ∧ (∀ (a : uint32x4) i, toSigned 32 ((bit_xor a (make_const 32 4 0x80000000)).lane i)
        = toSigned 32 (a.lane i ^^^ 0x80000000)) := by
  refine ⟨⟨?_, fun x y hx hy => ?_⟩, ⟨?_, fun x y hx hy => ?_⟩, ⟨?_, fun x y hx hy => ?_⟩,
    fun _ _ => rfl, fun _ _ => rfl, fun _ _ => rfl⟩
  · have h := @bias_bijOn 8 (by decide)
    norm_num at h ⊢
    exact h
  · exact (@biased_lt_iff 8 x y (by decide) hx hy).symm
  · have h := @bias_bijOn 16 (by decide)
    norm_num at h ⊢
    exact h
  · exact (@biased_lt_iff 16 x y (by decide) hx hy).symm
  · have h := @bias_bijOn 32 (by decide)
    norm_num at h ⊢
    exact h
  · exact (@biased_lt_iff 32 x y (by decide) hx hy).symm

/-! ## Single-register vector classes -/

/-- C18: on the single-register (AVX2) vector types `gint8<32>`, `int8<32>`,
`uint8<32>` and `mask_int8<32>`, `operator[](i)` returns the vector itself for every
unsigned index `i` (including `i >= 1`), `vec_length` is `1`, and the range
`[begin(), end())` contains exactly one element, the vector itself. -/
theorem single_register_range_access (g : gint8x32) (s : int8x32) (u : uint8x32)
    (m : mask_int8x32) (i : Nat) :
    (gint8x32.index g i = g ∧ int8x32.index s i = s ∧ uint8x32.index u i = u
      ∧ mask_int8x32.index m i = m)
    ∧ (gint8x32.vec_length = 1 ∧ mask_int8x32.vec_length = 1)
    ∧ (rangeElems g (vec_begin g) (vec_end g) = [some g]
      ∧ rangeElems s (vec_begin s) (vec_end s) = [some s]
      ∧ rangeElems u (vec_begin u) (vec_end u) = [some u]
      ∧ rangeElems m (vec_begin m) (vec_end m) = [some m])
    ∧ (vec_end g - vec_begin g = gint8x32.vec_length
      ∧ vec_end m - vec_begin m = mask_int8x32.vec_length)
    ∧ (gint8x32.index (iotaVec 8 32) 5 = iotaVec 8 32
      ∧ ∀ k : Fin 32, (gint8x32.index (iotaVec 8 32) 5).lane k = k.val) :=
  ⟨⟨rfl, rfl, rfl, rfl⟩, ⟨rfl, rfl⟩, ⟨rfl, rfl, rfl, rfl⟩, ⟨rfl, rfl⟩, rfl, by decide⟩

/-! ## Dispatch priority -/

theorem readLane_eq_iff (s : Signedness) {w x y : Nat} (hw : 0 < w) (hx : x < 2 ^ w)
    (hy : y < 2 ^ w) : readLane s w x = readLane s w y ↔ x = y :=
  ⟨readLane_inj s hw hx hy, fun h => by rw [h]⟩

/-- Per lane exactly one of `cmp_lt(a,b)` set, `cmp_lt(b,a)` set, lanes equal. -/
theorem null_cmp_lt_trichotomy (s : Signedness) {w n : Nat} (hw : 0 < w) (a b : Reg w n)
    (i : Fin n) :
    ((null.cmp_lt s a b).lane i = all_bits w ∧ ¬ (null.cmp_lt s b a).lane i = all_bits w
        ∧ ¬ a.lane i = b.lane i)
      ∨ (¬ (null.cmp_lt s a b).lane i = all_bits w ∧ (null.cmp_lt s b a).lane i = all_bits w
        ∧ ¬ a.lane i = b.lane i)
      ∨ (¬ (null.cmp_lt s a b).lane i = all_bits w ∧ ¬ (null.cmp_lt s b a).lane i = all_bits w
        ∧ a.lane i = b.lane i) := by
  rw [(null_cmp_lt_spec s hw a b i).1, (null_cmp_lt_spec s hw b a i).1,
    ← readLane_eq_iff s hw (a.bound i) (b.bound i)]
  omega

theorem null_cmp_lt_self (s : Signedness) {w n : Nat} (a : Reg w n) :
    null.cmp_lt s a a = make_const w n 0 := by
  apply Reg.ext_lane
  intro i
  rw [null_cmp_lt_lane, if_neg (lt_irrefl _)]
  simp [make_const]

/-- C20: `cmp_lt` is a strict order per lane on every path, signed and unsigned
(sign-bias arm included): for all vectors `a`, `b` of the six 128-bit integer types and
every lane `i`, exactly one of the following holds: `cmp_lt(a,b).lane(i)` is `all_bits`,
`cmp_lt(b,a).lane(i)` is `all_bits`, or `a.lane(i) == b.lane(i)`; and `cmp_lt(a,a)` is
the all-zero mask. -/
theorem cmp_lt_strict_order (c : Caps) (h : c.hasPrimary = true)
    (a8 b8 : Reg 8 16) (a16 b16 : Reg 16 8) (a32 b32 : Reg 32 4) :
    (∃ m₁ m₂, cmp_lt_int8x16 c a8 b8 = some m₁ ∧ cmp_lt_int8x16 c b8 a8 = some m₂
        ∧ (∀ i, (m₁.lane i = 0xff ∧ ¬ m₂.lane i = 0xff ∧ ¬ a8.lane i = b8.lane i)
            ∨ (¬ m₁.lane i = 0xff ∧ m₂.lane i = 0xff ∧ ¬ a8.lane i = b8.lane i)
            ∨ (¬ m₁.lane i = 0xff ∧ ¬ m₂.lane i = 0xff ∧ a8.lane i = b8.lane i))
        ∧ cmp_lt_int8x16 c a8 a8 = some (make_const 8 16 0))
    ∧ (∃ m₁ m₂, cmp_lt_uint8x16 c a8 b8 = some m₁ ∧ cmp_lt_uint8x16 c b8 a8 = some m₂
        ∧ (∀ i, (m₁.lane i = 0xff ∧ ¬ m₂.lane i = 0xff ∧ ¬ a8.lane i = b8.lane i)
            ∨ (¬ m₁.lane i = 0xff ∧ m₂.lane i = 0xff ∧ ¬ a8.lane i = b8.lane i)
            ∨ (¬ m₁.lane i = 0xff ∧ ¬ m₂.lane i = 0xff ∧ a8.lane i = b8.lane i))
        ∧ cmp_lt_uint8x16 c a8 a8 = some (make_const 8 16 0))
    ∧ (∃ m₁ m₂, cmp_lt_int16x8 c a16 b16 = some m₁ ∧ cmp_lt_int16x8 c b16 a16 = some m₂
        ∧ (∀ i, (m₁.lane i = 0xffff ∧ ¬ m₂.lane i = 0xffff ∧ ¬ a16.lane i = b16.lane i)
            ∨ (¬ m₁.lane i = 0xffff ∧ m₂.lane i = 0xffff ∧ ¬ a16.lane i = b16.lane i)
            ∨ (¬ m₁.lane i = 0xffff ∧ ¬ m₂.lane i = 0xffff ∧ a16.lane i = b16.lane i))
        ∧ cmp_lt_int16x8 c a16 a16 = some (make_const 16 8 0))
    ∧ (∃ m₁ m₂, cmp_lt_uint16x8 c a16 b16 = some m₁ ∧ cmp_lt_uint16x8 c b16 a16 = some m₂
        ∧ (∀ i, (m₁.lane i = 0xffff ∧ ¬ m₂.lane i = 0xffff ∧ ¬ a16.lane i = b16.lane i)
            ∨ (¬ m₁.lane i = 0xffff ∧ m₂.lane i = 0xffff ∧ ¬ a16.lane i = b16.lane i)
            ∨ (¬ m₁.lane i = 0xffff ∧ ¬ m₂.lane i = 0xffff ∧ a16.lane i = b16.lane i))
        ∧ cmp_lt_uint16x8 c a16 a16 = some (make_const 16 8 0))
    ∧ (∃ m₁ m₂, cmp_lt_int32x4 c a32 b32 = some m₁ ∧ cmp_lt_int32x4 c b32 a32 = some m₂
        ∧ (∀ i, (m₁.lane i = 0xffffffff ∧ ¬ m₂.lane i = 0xffffffff ∧ ¬ a32.lane i = b32.lane i)
            ∨ (¬ m₁.lane i = 0xffffffff ∧ m₂.lane i = 0xffffffff ∧ ¬ a32.lane i = b32.lane i)
            ∨ (¬ m₁.lane i = 0xffffffff ∧ ¬ m₂.lane i = 0xffffffff ∧ a32.lane i = b32.lane i))
        ∧ cmp_lt_int32x4 c a32 a32 = some (make_const 32 4 0))
    ∧ (∃ m₁ m₂, cmp_lt_uint32x4 c a32 b32 = some m₁ ∧ cmp_lt_uint32x4 c b32 a32 = some m₂
        ∧ (∀ i, (m₁.lane i = 0xffffffff ∧ ¬ m₂.lane i = 0xffffffff ∧ ¬ a32.lane i = b32.lane i)
            ∨ (¬ m₁.lane i = 0xffffffff ∧ m₂.lane i = 0xffffffff ∧ ¬ a32.lane i = b32.lane i)
            ∨ (¬ m₁.lane i = 0xffffffff ∧ ¬ m₂.lane i = 0xffffffff ∧ a32.lane i = b32.lane i))
        ∧ cmp_lt_uint32x4 c a32 a32 = some (make_const 32 4 0)) := by
  refine ⟨?_, ?_, ?_, ?_, ?_, ?_⟩
  · refine ⟨_, _, cmp_lt_int8x16_eq_null c h a8 b8, cmp_lt_int8x16_eq_null c h b8 a8, fun i => ?_, ?_⟩
    · have ht := null_cmp_lt_trichotomy Signedness.signed (by decide : 0 < 8) a8 b8 i
      rw [all_bits_8] at ht
      exact ht
    · rw [cmp_lt_int8x16_eq_null c h, null_cmp_lt_self]
  · refine ⟨_, _, cmp_lt_uint8x16_eq_null c h a8 b8, cmp_lt_uint8x16_eq_null c h b8 a8, fun i => ?_, ?_⟩
    · have ht := null_cmp_lt_trichotomy Signedness.unsigned (by decide : 0 < 8) a8 b8 i
      rw [all_bits_8] at ht
      exact ht
    · rw [cmp_lt_uint8x16_eq_null c h, null_cmp_lt_self]
  · refine ⟨_, _, cmp_lt_int16x8_eq_null c h a16 b16, cmp_lt_int16x8_eq_null c h b16 a16, fun i => ?_, ?_⟩
    · have ht := null_cmp_lt_trichotomy Signedness.signed (by decide : 0 < 16) a16 b16 i
      rw [all_bits_16] at ht
      exact ht
    · rw [cmp_lt_int16x8_eq_null c h, null_cmp_lt_self]
  · refine ⟨_, _, cmp_lt_uint16x8_eq_null c h a16 b16, cmp_lt_uint16x8_eq_null c h b16 a16, fun i => ?_, ?_⟩
    · have ht := null_cmp_lt_trichotomy Signedness.unsigned (by decide : 0 < 16) a16 b16 i
      rw [all_bits_16] at ht
      exact ht
    · rw [cmp_lt_uint16x8_eq_null c h, null_cmp_lt_self]
  · refine ⟨_, _, cmp_lt_int32x4_eq_null c h a32 b32, cmp_lt_int32x4_eq_null c h b32 a32, fun i => ?_, ?_⟩
    · have ht := null_cmp_lt_trichotomy Signedness.signed (by decide : 0 < 32) a32 b32 i
      rw [all_bits_32] at ht
      exact ht
    · rw [cmp_lt_int32x4_eq_null c h, null_cmp_lt_self]
  · refine ⟨_, _, cmp_lt_uint32x4_eq_null c h a32 b32, cmp_lt_uint32x4_eq_null c h b32 a32, fun i => ?_, ?_⟩
    · have ht := null_cmp_lt_trichotomy Signedness.unsigned (by decide : 0 < 32) a32 b32 i
      rw [all_bits_32] at ht
      exact ht
    · rw [cmp_lt_uint32x4_eq_null c h, null_cmp_lt_self]

set_option maxRecDepth 8192 in
/-- C20 on the plain SSE2 build (sign-bias arm for the unsigned overloads) with a ramp
against a constant it crosses: `[0, ..., 15]` against `[7]*16`, `[0x7ffc, ..., 0x8003]`
against `[0x8000]*8`, `[0x7ffffffe, ..., 0x80000001]` against `[0x80000000]*4`; the
unsigned and the signed 16-bit masks are listed lane by lane. -/
theorem cmp_lt_strict_order_witness :
    capsSSE2.hasPrimary = true
    ∧ ((∃ m₁ m₂, cmp_lt_int8x16 capsSSE2 (iotaVec 8 16) (make_const 8 16 7) = some m₁ ∧ cmp_lt_int8x16 capsSSE2 (make_const 8 16 7) (iotaVec 8 16) = some m₂
          ∧ (∀ i, (m₁.lane i = 0xff ∧ ¬ m₂.lane i = 0xff ∧ ¬ (iotaVec 8 16).lane i = (make_const 8 16 7).lane i)
              ∨ (¬ m₁.lane i = 0xff ∧ m₂.lane i = 0xff ∧ ¬ (iotaVec 8 16).lane i = (make_const 8 16 7).lane i)
              ∨ (¬ m₁.lane i = 0xff ∧ ¬ m₂.lane i = 0xff ∧ (iotaVec 8 16).lane i = (make_const 8 16 7).lane i))
          ∧ cmp_lt_int8x16 capsSSE2 (iotaVec 8 16) (iotaVec 8 16) = some (make_const 8 16 0))
      ∧ (∃ m₁ m₂, cmp_lt_uint8x16 capsSSE2 (iotaVec 8 16) (make_const 8 16 7) = some m₁ ∧ cmp_lt_uint8x16 capsSSE2 (make_const 8 16 7) (iotaVec 8 16) = some m₂
          ∧ (∀ i, (m₁.lane i = 0xff ∧ ¬ m₂.lane i = 0xff ∧ ¬ (iotaVec 8 16).lane i = (make_const 8 16 7).lane i)
              ∨ (¬ m₁.lane i = 0xff ∧ m₂.lane i = 0xff ∧ ¬ (iotaVec 8 16).lane i = (make_const 8 16 7).lane i)
              ∨ (¬ m₁.lane i = 0xff ∧ ¬ m₂.lane i = 0xff ∧ (iotaVec 8 16).lane i = (make_const 8 16 7).lane i))
          ∧ cmp_lt_uint8x16 capsSSE2 (iotaVec 8 16) (iotaVec 8 16) = some (make_const 8 16 0))
      ∧ (∃ m₁ m₂, cmp_lt_int16x8 capsSSE2 (rampVec 16 8 0x7ffb) (make_const 16 8 0x8000) = some m₁ ∧ cmp_lt_int16x8 capsSSE2 (make_const 16 8 0x8000) (rampVec 16 8 0x7ffb) = some m₂
          ∧ (∀ i, (m₁.lane i = 0xffff ∧ ¬ m₂.lane i = 0xffff ∧ ¬ (rampVec 16 8 0x7ffb).lane i = (make_const 16 8 0x8000).lane i)
              ∨ (¬ m₁.lane i = 0xffff ∧ m₂.lane i = 0xffff ∧ ¬ (rampVec 16 8 0x7ffb).lane i = (make_const 16 8 0x8000).lane i)
              ∨ (¬ m₁.lane i = 0xffff ∧ ¬ m₂.lane i = 0xffff ∧ (rampVec 16 8 0x7ffb).lane i = (make_const 16 8 0x8000).lane i))
          ∧ cmp_lt_int16x8 capsSSE2 (rampVec 16 8 0x7ffb) (rampVec 16 8 0x7ffb) = some (make_const 16 8 0))
      ∧ (∃ m₁ m₂, cmp_lt_uint16x8 capsSSE2 (rampVec 16 8 0x7ffb) (make_const 16 8 0x8000) = some m₁ ∧ cmp_lt_uint16x8 capsSSE2 (make_const 16 8 0x8000) (rampVec 16 8 0x7ffb) = some m₂
          ∧ (∀ i, (m₁.lane i = 0xffff ∧ ¬ m₂.lane i = 0xffff ∧ ¬ (rampVec 16 8 0x7ffb).lane i = (make_const 16 8 0x8000).lane i)
              ∨ (¬ m₁.lane i = 0xffff ∧ m₂.lane i = 0xffff ∧ ¬ (rampVec 16 8 0x7ffb).lane i = (make_const 16 8 0x8000).lane i)
              ∨ (¬ m₁.lane i = 0xffff ∧ ¬ m₂.lane i = 0xffff ∧ (rampVec 16 8 0x7ffb).lane i = (make_const 16 8 0x8000).lane i))
          ∧ cmp_lt_uint16x8 capsSSE2 (rampVec 16 8 0x7ffb) (rampVec 16 8 0x7ffb) = some (make_const 16 8 0))
      ∧ (∃ m₁ m₂, cmp_lt_int32x4 capsSSE2 (rampVec 32 4 0x7ffffffd) (make_const 32 4 0x80000000) = some m₁ ∧ cmp_lt_int32x4 capsSSE2 (make_const 32 4 0x80000000) (rampVec 32 4 0x7ffffffd) = some m₂
          ∧ (∀ i, (m₁.lane i = 0xffffffff ∧ ¬ m₂.lane i = 0xffffffff ∧ ¬ (rampVec 32 4 0x7ffffffd).lane i = (make_const 32 4 0x80000000).lane i)
              ∨ (¬ m₁.lane i = 0xffffffff ∧ m₂.lane i = 0xffffffff ∧ ¬ (rampVec 32 4 0x7ffffffd).lane i = (make_const 32 4 0x80000000).lane i)
              ∨ (¬ m₁.lane i = 0xffffffff ∧ ¬ m₂.lane i = 0xffffffff ∧ (rampVec 32 4 0x7ffffffd).lane i = (make_const 32 4 0x80000000).lane i))
          ∧ cmp_lt_int32x4 capsSSE2 (rampVec 32 4 0x7ffffffd) (rampVec 32 4 0x7ffffffd) = some (make_const 32 4 0))
      ∧ (∃ m₁ m₂, cmp_lt_uint32x4 capsSSE2 (rampVec 32 4 0x7ffffffd) (make_const 32 4 0x80000000) = some m₁ ∧ cmp_lt_uint32x4 capsSSE2 (make_const 32 4 0x80000000) (rampVec 32 4 0x7ffffffd) = some m₂
          ∧ (∀ i, (m₁.lane i = 0xffffffff ∧ ¬ m₂.lane i = 0xffffffff ∧ ¬ (rampVec 32 4 0x7ffffffd).lane i = (make_const 32 4 0x80000000).lane i)
              ∨ (¬ m₁.lane i = 0xffffffff ∧ m₂.lane i = 0xffffffff ∧ ¬ (rampVec 32 4 0x7ffffffd).lane i = (make_const 32 4 0x80000000).lane i)
              ∨ (¬ m₁.lane i = 0xffffffff ∧ ¬ m₂.lane i = 0xffffffff ∧ (rampVec 32 4 0x7ffffffd).lane i = (make_const 32 4 0x80000000).lane i))
          ∧ cmp_lt_uint32x4 capsSSE2 (rampVec 32 4 0x7ffffffd) (rampVec 32 4 0x7ffffffd) = some (make_const 32 4 0)))
    ∧ (∀ i : Fin 8,
        (cmp_lt_uint16x8 capsSSE2 (rampVec 16 8 0x7ffb) (make_const 16 8 0x8000)).map
            (fun m => m.lane i) = some (if i.val < 4 then 0xffff else 0)
        ∧ (cmp_lt_uint16x8 capsSSE2 (make_const 16 8 0x8000) (rampVec 16 8 0x7ffb)).map
            (fun m => m.lane i) = some (if 4 < i.val then 0xffff else 0)
        ∧ (cmp_lt_int16x8 capsSSE2 (rampVec 16 8 0x7ffb) (make_const 16 8 0x8000)).map
            (fun m => m.lane i) = some 0
        ∧ (cmp_lt_int16x8 capsSSE2 (make_const 16 8 0x8000) (rampVec 16 8 0x7ffb)).map
            (fun m => m.lane i) = some (if i.val = 4 then 0 else 0xffff)) :=
  ⟨by decide,
   cmp_lt_strict_order capsSSE2 (by decide) (iotaVec 8 16) (make_const 8 16 7)
     (rampVec 16 8 0x7ffb) (make_const 16 8 0x8000) (rampVec 32 4 0x7ffffffd)
     (make_const 32 4 0x80000000),
   by decide⟩

/-! ## Signed against unsigned `cmp_lt` -/

theorem testBit_7_eq {x : Nat} (hx : x < 256) : x.testBit 7 = decide (128 ≤ x) := by
  have e7 : (2 : Nat) ^ 7 = 128 := by norm_num
  rw [Nat.testBit_to_div_mod, e7]
  by_cases h : 128 ≤ x
  · have e : x / 128 % 2 = 1 := by omega
    simp [e, h]
  · have e : x / 128 % 2 = 0 := by omega
    simp [e, h]

theorem toSigned_8_eq (x : Nat) :
    toSigned 8 x = if x < 128 then (x : Int) else (x : Int) - 256 := by
  unfold toSigned
  norm_num

/-- On one 8-bit lane the signed and the unsigned compare differ exactly when the sign
bits (bit 7) of the operands differ. -/
theorem lane_signed_unsigned_differ {x y : Nat} (hx : x < 256) (hy : y < 256) :
    lane_null_cmp_lt Signedness.signed 8 x y ≠ lane_null_cmp_lt Signedness.unsigned 8 x y
      ↔ x.testBit 7 ≠ y.testBit 7 := by
  have hab : all_bits 8 ≠ 0 := by decide
  rw [testBit_7_eq hx, testBit_7_eq hy]
  simp only [lane_null_cmp_lt, readLane, toSigned_8_eq]
  by_cases h1 : x < 128 <;> by_cases h2 : y < 128 <;> by_cases h3 : x < y <;>
    simp [h1, h2, h3, hab] <;> omega

/-- C21: on the same 8-bit lane bit patterns the signed and the unsigned `cmp_lt`
disagree exactly where the operands' sign bits differ: for all `a`, `b` and every lane
`i`, `cmp_lt(int8x16)(a,b).lane(i) != cmp_lt(uint8x16)(a,b).lane(i)` iff bit 7 of
`a.lane(i)` differs from bit 7 of `b.lane(i)`. -/
theorem cmp_lt_signed_unsigned_differ (c : Caps) (h : c.hasPrimary = true) (a b : Reg 8 16) :
    ∃ ms mu, cmp_lt_int8x16 c a b = some ms ∧ cmp_lt_uint8x16 c a b = some mu
      ∧ ∀ i, (ms.lane i ≠ mu.lane i ↔ (a.lane i).testBit 7 ≠ (b.lane i).testBit 7) :=
  ⟨_, _, cmp_lt_int8x16_eq_null c h a b, cmp_lt_uint8x16_eq_null c h a b,
    fun i => lane_signed_unsigned_differ (a.bound i) (b.bound i)⟩

/-- C21 on the plain SSE2 build with `a = [120, ..., 135]` against `b = [50]*16`: the
sign bits differ in lanes `8..15`, where the signed mask is `0xff` and the unsigned mask
is `0`; in lanes `0..7` both are `0`. -/
theorem cmp_lt_signed_unsigned_differ_witness :
    capsSSE2.hasPrimary = true
    ∧ (∃ ms mu, cmp_lt_int8x16 capsSSE2 (rampVec 8 16 119) (make_const 8 16 50) = some ms
        ∧ cmp_lt_uint8x16 capsSSE2 (rampVec 8 16 119) (make_const 8 16 50) = some mu
        ∧ ∀ i, (ms.lane i ≠ mu.lane i
            ↔ ((rampVec 8 16 119).lane i).testBit 7 ≠ ((make_const 8 16 50).lane i).testBit 7))
    ∧ (∀ i : Fin 16,
        (cmp_lt_int8x16 capsSSE2 (rampVec 8 16 119) (make_const 8 16 50)).map
            (fun m => m.lane i) = some (if i.val < 8 then 0 else 0xff)
        ∧ (cmp_lt_uint8x16 capsSSE2 (rampVec 8 16 119) (make_const 8 16 50)).map
            (fun m => m.lane i) = some 0
        ∧ ((rampVec 8 16 119).lane i).testBit 7 = decide (8 ≤ i.val)
        ∧ ((make_const 8 16 50).lane i).testBit 7 = false) :=
  ⟨by decide,
   cmp_lt_signed_unsigned_differ capsSSE2 (by decide) (rampVec 8 16 119) (make_const 8 16 50),
   by decide⟩

/-! ## Algebra of `min` -/

theorem null_min_comm (s : Signedness) {w n : Nat} (hw : 0 < w) (a b : Reg w n) :
    null.min s a b = null.min s b a := by
  apply Reg.ext_lane
  intro i
  show (if readLane s w (a.lane i) ≤ readLane s w (b.lane i) then a.lane i else b.lane i)
    = if readLane s w (b.lane i) ≤ readLane s w (a.lane i) then b.lane i else a.lane i
  by_cases h1 : readLane s w (a.lane i) ≤ readLane s w (b.lane i)
  · by_cases h2 : readLane s w (b.lane i) ≤ readLane s w (a.lane i)
    · rw [if_pos h1, if_pos h2]
      exact readLane_inj s hw (a.bound i) (b.bound i) (le_antisymm h1 h2)
    · rw [if_pos h1, if_neg h2]
  · rw [if_neg h1, if_pos (le_of_lt (not_le.mp h1))]

/-- The composite `blend(a, b, cmp_lt(a, b))` is symmetric in its operands. -/
theorem composite_min_comm (s : Signedness) {w n : Nat} (hw : 0 < w) (a b : Reg w n) :
    blend a b (null.cmp_lt s a b) = blend b a (null.cmp_lt s b a) := by
  rw [blend_null_cmp_lt_eq_null_min s hw, blend_null_cmp_lt_eq_null_min s hw,
    null_min_comm s hw]

/-- C22: the composite SSE2 `min`, `blend(a, b, cmp_lt(a, b))`, is commutative
bit-for-bit although its tie-breaking is asymmetric: for all `a`, `b` of types
`int8x16`, `uint16x8`, `int32x4`, `uint32x4`, `min(a,b) == min(b,a)`, while on a tie
`min(a,b)` takes the lane of `b` and `min(b,a)` the lane of `a`. -/
theorem min_sse2_composite_comm (c : Caps) (h : c.sse2Composite = true)
    (a8 b8 : Reg 8 16) (a16 b16 : Reg 16 8) (a32 b32 u32 v32 : Reg 32 4) :
    (∃ m₁ m₂, cmp_lt_int8x16 c a8 b8 = some m₁ ∧ cmp_lt_int8x16 c b8 a8 = some m₂
        ∧ min_int8x16 c a8 b8 = some (blend a8 b8 m₁)
        ∧ min_int8x16 c b8 a8 = some (blend b8 a8 m₂)
        ∧ blend a8 b8 m₁ = blend b8 a8 m₂
        ∧ min_int8x16 c a8 b8 = min_int8x16 c b8 a8
        ∧ ∀ i, a8.lane i = b8.lane i →
            (blend a8 b8 m₁).lane i = b8.lane i ∧ (blend b8 a8 m₂).lane i = a8.lane i)
    ∧ (∃ m₁ m₂, cmp_lt_uint16x8 c a16 b16 = some m₁ ∧ cmp_lt_uint16x8 c b16 a16 = some m₂
        ∧ min_uint16x8 c a16 b16 = some (blend a16 b16 m₁)
        ∧ min_uint16x8 c b16 a16 = some (blend b16 a16 m₂)
        ∧ blend a16 b16 m₁ = blend b16 a16 m₂
        ∧ min_uint16x8 c a16 b16 = min_uint16x8 c b16 a16
        ∧ ∀ i, a16.lane i = b16.lane i →
            (blend a16 b16 m₁).lane i = b16.lane i ∧ (blend b16 a16 m₂).lane i = a16.lane i)
    ∧ (∃ m₁ m₂, cmp_lt_int32x4 c a32 b32 = some m₁ ∧ cmp_lt_int32x4 c b32 a32 = some m₂
        ∧ min_int32x4 c a32 b32 = some (blend a32 b32 m₁)
        ∧ min_int32x4 c b32 a32 = some (blend b32 a32 m₂)
        ∧ blend a32 b32 m₁ = blend b32 a32 m₂
        ∧ min_int32x4 c a32 b32 = min_int32x4 c b32 a32
        ∧ ∀ i, a32.lane i = b32.lane i →
            (blend a32 b32 m₁).lane i = b32.lane i ∧ (blend b32 a32 m₂).lane i = a32.lane i)
    ∧ (∃ m₁ m₂, cmp_lt_uint32x4 c u32 v32 = some m₁ ∧ cmp_lt_uint32x4 c v32 u32 = some m₂
        ∧ min_uint32x4 c u32 v32 = some (blend u32 v32 m₁)
        ∧ min_uint32x4 c v32 u32 = some (blend v32 u32 m₂)
        ∧ blend u32 v32 m₁ = blend v32 u32 m₂
        ∧ min_uint32x4 c u32 v32 = min_uint32x4 c v32 u32
        ∧ ∀ i, u32.lane i = v32.lane i →
            (blend u32 v32 m₁).lane i = v32.lane i ∧ (blend v32 u32 m₂).lane i = u32.lane i) := by
  have hp := hasPrimary_of_sse2Composite c h
  refine ⟨?_, ?_, ?_, ?_⟩
  · have e₁ := cmp_lt_int8x16_eq_null c hp a8 b8
    have e₂ := cmp_lt_int8x16_eq_null c hp b8 a8
    have hb := composite_min_comm Signedness.signed (by decide : 0 < 8) a8 b8
    have m₁ : min_int8x16 c a8 b8 = some (blend a8 b8 (null.cmp_lt Signedness.signed a8 b8)) := by
      rw [min_int8x16_sse2_arm c h, e₁]
      rfl
    have m₂ : min_int8x16 c b8 a8 = some (blend b8 a8 (null.cmp_lt Signedness.signed b8 a8)) := by
      rw [min_int8x16_sse2_arm c h, e₂]
      rfl
    refine ⟨_, _, e₁, e₂, m₁, m₂, hb, ?_, fun i he => ?_⟩
    · rw [m₁, m₂, hb]
    · exact ⟨((composite_min_lane Signedness.signed (by decide : 0 < 8) a8 b8 i).2 he).2,
        ((composite_min_lane Signedness.signed (by decide : 0 < 8) b8 a8 i).2 he.symm).2⟩
  · have e₁ := cmp_lt_uint16x8_eq_null c hp a16 b16
    have e₂ := cmp_lt_uint16x8_eq_null c hp b16 a16
    have hb := composite_min_comm Signedness.unsigned (by decide : 0 < 16) a16 b16
    have m₁ : min_uint16x8 c a16 b16 = some (blend a16 b16 (null.cmp_lt Signedness.unsigned a16 b16)) := by
      rw [min_uint16x8_sse2_arm c h, e₁]
      rfl
    have m₂ : min_uint16x8 c b16 a16 = some (blend b16 a16 (null.cmp_lt Signedness.unsigned b16 a16)) := by
      rw [min_uint16x8_sse2_arm c h, e₂]
      rfl
    refine ⟨_, _, e₁, e₂, m₁, m₂, hb, ?_, fun i he => ?_⟩
    · rw [m₁, m₂, hb]
    · exact ⟨((composite_min_lane Signedness.unsigned (by decide : 0 < 16) a16 b16 i).2 he).2,
        ((composite_min_lane Signedness.unsigned (by decide : 0 < 16) b16 a16 i).2 he.symm).2⟩
  · have e₁ := cmp_lt_int32x4_eq_null c hp a32 b32
    have e₂ := cmp_lt_int32x4_eq_null c hp b32 a32
    have hb := composite_min_comm Signedness.signed (by decide : 0 < 32) a32 b32
    have m₁ : min_int32x4 c a32 b32 = some (blend a32 b32 (null.cmp_lt Signedness.signed a32 b32)) := by
      rw [min_int32x4_sse2_arm c h, e₁]
      rfl
    have m₂ : min_int32x4 c b32 a32 = some (blend b32 a32 (null.cmp_lt Signedness.signed b32 a32)) := by
      rw [min_int32x4_sse2_arm c h, e₂]
      rfl
    refine ⟨_, _, e₁, e₂, m₁, m₂, hb, ?_, fun i he => ?_⟩
    · rw [m₁, m₂, hb]
    · exact ⟨((composite_min_lane Signedness.signed (by decide : 0 < 32) a32 b32 i).2 he).2,
        ((composite_min_lane Signedness.signed (by decide : 0 < 32) b32 a32 i).2 he.symm).2⟩
  · have e₁ := cmp_lt_uint32x4_eq_null c hp u32 v32
    have e₂ := cmp_lt_uint32x4_eq_null c hp v32 u32
    have hb := composite_min_comm Signedness.unsigned (by decide : 0 < 32) u32 v32
    have m₁ : min_uint32x4 c u32 v32 = some (blend u32 v32 (null.cmp_lt Signedness.unsigned u32 v32)) := by
      rw [min_uint32x4_sse2_arm c h, e₁]
      rfl
    have m₂ : min_uint32x4 c v32 u32 = some (blend v32 u32 (null.cmp_lt Signedness.unsigned v32 u32)) := by
      rw [min_uint32x4_sse2_arm c h, e₂]
      rfl
    refine ⟨_, _, e₁, e₂, m₁, m₂, hb, ?_, fun i he => ?_⟩
    · rw [m₁, m₂, hb]
    · exact ⟨((composite_min_lane Signedness.unsigned (by decide : 0 < 32) u32 v32 i).2 he).2,
        ((composite_min_lane Signedness.unsigned (by decide : 0 < 32) v32 u32 i).2 he.symm).2⟩

set_option maxRecDepth 8192 in
/-- C22 on the plain SSE2 build with a ramp against a constant it meets (a tie in one
lane): `[-8, ..., 7]` against `[0]*16` signed, `[0x7ffc, ..., 0x8003]` against
`[0x8000]*8` unsigned, `[0x7ffffffe, ..., 0x80000001]` against `[0x80000000]*4` signed
and unsigned; the 16-bit result in either operand order is
`[0x7ffc, 0x7ffd, 0x7ffe, 0x7fff, 0x8000, 0x8000, 0x8000, 0x8000]`. -/
theorem min_sse2_composite_comm_witness :
    capsSSE2.sse2Composite = true
    ∧ ((∃ m₁ m₂, cmp_lt_int8x16 capsSSE2 (rampVec 8 16 0xf7) (make_const 8 16 0) = some m₁ ∧ cmp_lt_int8x16 capsSSE2 (make_const 8 16 0) (rampVec 8 16 0xf7) = some m₂
          ∧ min_int8x16 capsSSE2 (rampVec 8 16 0xf7) (make_const 8 16 0) = some (blend (rampVec 8 16 0xf7) (make_const 8 16 0) m₁)
          ∧ min_int8x16 capsSSE2 (make_const 8 16 0) (rampVec 8 16 0xf7) = some (blend (make_const 8 16 0) (rampVec 8 16 0xf7) m₂)
          ∧ blend (rampVec 8 16 0xf7) (make_const 8 16 0) m₁ = blend (make_const 8 16 0) (rampVec 8 16 0xf7) m₂
          ∧ min_int8x16 capsSSE2 (rampVec 8 16 0xf7) (make_const 8 16 0) = min_int8x16 capsSSE2 (make_const 8 16 0) (rampVec 8 16 0xf7)
          ∧ ∀ i, (rampVec 8 16 0xf7).lane i = (make_const 8 16 0).lane i →
              (blend (rampVec 8 16 0xf7) (make_const 8 16 0) m₁).lane i = (make_const 8 16 0).lane i ∧ (blend (make_const 8 16 0) (rampVec 8 16 0xf7) m₂).lane i = (rampVec 8 16 0xf7).lane i)
      ∧ (∃ m₁ m₂, cmp_lt_uint16x8 capsSSE2 (rampVec 16 8 0x7ffb) (make_const 16 8 0x8000) = some m₁ ∧ cmp_lt_uint16x8 capsSSE2 (make_const 16 8 0x8000) (rampVec 16 8 0x7ffb) = some m₂
          ∧ min_uint16x8 capsSSE2 (rampVec 16 8 0x7ffb) (make_const 16 8 0x8000) = some (blend (rampVec 16 8 0x7ffb) (make_const 16 8 0x8000) m₁)
          ∧ min_uint16x8 capsSSE2 (make_const 16 8 0x8000) (rampVec 16 8 0x7ffb) = some (blend (make_const 16 8 0x8000) (rampVec 16 8 0x7ffb) m₂)
          ∧ blend (rampVec 16 8 0x7ffb) (make_const 16 8 0x8000) m₁ = blend (make_const 16 8 0x8000) (rampVec 16 8 0x7ffb) m₂
          ∧ min_uint16x8 capsSSE2 (rampVec 16 8 0x7ffb) (make_const 16 8 0x8000) = min_uint16x8 capsSSE2 (make_const 16 8 0x8000) (rampVec 16 8 0x7ffb)
          ∧ ∀ i, (rampVec 16 8 0x7ffb).lane i = (make_const 16 8 0x8000).lane i →
              (blend (rampVec 16 8 0x7ffb) (make_const 16 8 0x8000) m₁).lane i = (make_const 16 8 0x8000).lane i ∧ (blend (make_const 16 8 0x8000) (rampVec 16 8 0x7ffb) m₂).lane i = (rampVec 16 8 0x7ffb).lane i)
      ∧ (∃ m₁ m₂, cmp_lt_int32x4 capsSSE2 (rampVec 32 4 0x7ffffffd) (make_const 32 4 0x80000000) = some m₁ ∧ cmp_lt_int32x4 capsSSE2 (make_const 32 4 0x80000000) (rampVec 32 4 0x7ffffffd) = some m₂
          ∧ min_int32x4 capsSSE2 (rampVec 32 4 0x7ffffffd) (make_const 32 4 0x80000000) = some (blend (rampVec 32 4 0x7ffffffd) (make_const 32 4 0x80000000) m₁)
          ∧ min_int32x4 capsSSE2 (make_const 32 4 0x80000000) (rampVec 32 4 0x7ffffffd) = some (blend (make_const 32 4 0x80000000) (rampVec 32 4 0x7ffffffd) m₂)
          ∧ blend (rampVec 32 4 0x7ffffffd) (make_const 32 4 0x80000000) m₁ = blend (make_const 32 4 0x80000000) (rampVec 32 4 0x7ffffffd) m₂
          ∧ min_int32x4 capsSSE2 (rampVec 32 4 0x7ffffffd) (make_const 32 4 0x80000000) = min_int32x4 capsSSE2 (make_const 32 4 0x80000000) (rampVec 32 4 0x7ffffffd)
          ∧ ∀ i, (rampVec 32 4 0x7ffffffd).lane i = (make_const 32 4 0x80000000).lane i →
              (blend (rampVec 32 4 0x7ffffffd) (make_const 32 4 0x80000000) m₁).lane i = (make_const 32 4 0x80000000).lane i ∧ (blend (make_const 32 4 0x80000000) (rampVec 32 4 0x7ffffffd) m₂).lane i = (rampVec 32 4 0x7ffffffd).lane i)
      ∧ (∃ m₁ m₂, cmp_lt_uint32x4 capsSSE2 (rampVec 32 4 0x7ffffffd) (make_const 32 4 0x80000000) = some m₁ ∧ cmp_lt_uint32x4 capsSSE2 (make_const 32 4 0x80000000) (rampVec 32 4 0x7ffffffd) = some m₂
          ∧ min_uint32x4 capsSSE2 (rampVec 32 4 0x7ffffffd) (make_const 32 4 0x80000000) = some (blend (rampVec 32 4 0x7ffffffd) (make_const 32 4 0x80000000) m₁)
          ∧ min_uint32x4 capsSSE2 (make_const 32 4 0x80000000) (rampVec 32 4 0x7ffffffd) = some (blend (make_const 32 4 0x80000000) (rampVec 32 4 0x7ffffffd) m₂)
          ∧ blend (rampVec 32 4 0x7ffffffd) (make_const 32 4 0x80000000) m₁ = blend (make_const 32 4 0x80000000) (rampVec 32 4 0x7ffffffd) m₂
          ∧ min_uint32x4 capsSSE2 (rampVec 32 4 0x7ffffffd) (make_const 32 4 0x80000000) = min_uint32x4 capsSSE2 (make_const 32 4 0x80000000) (rampVec 32 4 0x7ffffffd)
          ∧ ∀ i, (rampVec 32 4 0x7ffffffd).lane i = (make_const 32 4 0x80000000).lane i →
              (blend (rampVec 32 4 0x7ffffffd) (make_const 32 4 0x80000000) m₁).lane i = (make_const 32 4 0x80000000).lane i ∧ (blend (make_const 32 4 0x80000000) (rampVec 32 4 0x7ffffffd) m₂).lane i = (rampVec 32 4 0x7ffffffd).lane i))
    ∧ (∀ i : Fin 8,
        (min_uint16x8 capsSSE2 (rampVec 16 8 0x7ffb) (make_const 16 8 0x8000)).map
            (fun r => r.lane i) = some (if i.val < 4 then 0x7ffc + i.val else 0x8000)
        ∧ (min_uint16x8 capsSSE2 (make_const 16 8 0x8000) (rampVec 16 8 0x7ffb)).map
            (fun r => r.lane i) = some (if i.val < 4 then 0x7ffc + i.val else 0x8000)) :=
  ⟨by decide,
   min_sse2_composite_comm capsSSE2 (by decide) (rampVec 8 16 0xf7) (make_const 8 16 0)
     (rampVec 16 8 0x7ffb) (make_const 16 8 0x8000) (rampVec 32 4 0x7ffffffd)
     (make_const 32 4 0x80000000) (rampVec 32 4 0x7ffffffd) (make_const 32 4 0x80000000),
   by decide⟩

theorem combine_null_min_halves (s : Signedness) {w : Nat} (n : Nat) (a b : Reg w (n + n)) :
    combine n (null.min s (half0 n a) (half0 n b)) (null.min s (half1 n a) (half1 n b))
      = null.min s a b :=
  combine_zipLanes_halves n _ _ a b

theorem min_int8x32_eq_null (c : Caps) (hav : c.USE_AVX2 = false) (hp : c.hasPrimary = true)
    (a b : int8x32) : min_int8x32 c a b = some (null.min Signedness.signed a b) := by
  simp [min_int8x32, hav,
    impl2_of_total 16 (min_int8x16 c) _ (min_int8x16_eq_null c hp) a b,
    combine_null_min_halves]

theorem cmp_lt_int8x32_eq_null (c : Caps) (hav : c.USE_AVX2 = false)
    (hp : c.hasPrimary = true) (a b : int8x32) :
    cmp_lt_int8x32 c a b
      = some (mask_int8x32.of_gint8x32 (null.cmp_lt Signedness.signed a b)) := by
  rw [cmp_lt_int8x32_split c hav hp, combine_null_cmp_lt_halves]

theorem min_uint8x32_eq_null (c : Caps) (hav : c.USE_AVX2 = false) (hp : c.hasPrimary = true)
    (a b : uint8x32) : min_uint8x32 c a b = some (null.min Signedness.unsigned a b) := by
  simp [min_uint8x32, hav,
    impl2_of_total 16 (min_uint8x16 c) _ (min_uint8x16_eq_null c hp) a b,
    combine_null_min_halves]

theorem cmp_lt_uint8x32_eq_null (c : Caps) (hav : c.USE_AVX2 = false)
    (hp : c.hasPrimary = true) (a b : uint8x32) :
    cmp_lt_uint8x32 c a b
      = some (mask_int8x32.of_gint8x32 (null.cmp_lt Signedness.unsigned a b)) := by
  rw [cmp_lt_uint8x32_split c hav hp, combine_null_cmp_lt_halves]

theorem min_int16x16_eq_null (c : Caps) (h : c.USE_AVX2 = true ∨ c.hasPrimary = true)
    (a b : int16x16) : min_int16x16 c a b = some (null.min Signedness.signed a b) := by
  by_cases hav : c.USE_AVX2 = true
  · simp [min_int16x16, hav, mm_min_eq_null Signedness.signed (by decide : 0 < 16)]
  · have hp : c.hasPrimary = true := h.resolve_left hav
    simp [min_int16x16, hav,
      impl2_of_total 8 (min_int16x8 c) _ (min_int16x8_eq_null c hp) a b,
      combine_null_min_halves]

theorem cmp_lt_int16x16_eq_null (c : Caps) (h : c.USE_AVX2 = true ∨ c.hasPrimary = true)
    (a b : int16x16) : cmp_lt_int16x16 c a b = some (null.cmp_lt Signedness.signed a b) := by
  by_cases hav : c.USE_AVX2 = true
  · simp [cmp_lt_int16x16, hav, mm_cmpgt_epi_swap]
  · have hp : c.hasPrimary = true := h.resolve_left hav
    simp [cmp_lt_int16x16, hav,
      impl2_of_total 8 (cmp_lt_int16x8 c) _ (cmp_lt_int16x8_eq_null c hp) a b,
      combine_null_cmp_lt_halves]

theorem min_uint16x16_eq_null (c : Caps) (h : c.USE_AVX2 = true ∨ c.hasPrimary = true)
    (a b : uint16x16) : min_uint16x16 c a b = some (null.min Signedness.unsigned a b) := by
  by_cases hav : c.USE_AVX2 = true
  · simp [min_uint16x16, hav, mm_min_eq_null Signedness.unsigned (by decide : 0 < 16)]
  · have hp : c.hasPrimary = true := h.resolve_left hav
    simp [min_uint16x16, hav,
      impl2_of_total 8 (min_uint16x8 c) _ (min_uint16x8_eq_null c hp) a b,
      combine_null_min_halves]

theorem cmp_lt_uint16x16_eq_null (c : Caps) (h : c.USE_AVX2 = true ∨ c.hasPrimary = true)
    (a b : uint16x16) : cmp_lt_uint16x16 c a b = some (null.cmp_lt Signedness.unsigned a b) := by
  have hb := @bias_cmplt_eq_null 16 16 (by decide) 0x8000 (by decide) a b
  unfold mm_cmplt_epi at hb
  by_cases hav : c.USE_AVX2 = true
  · simp [cmp_lt_uint16x16, hav, hb]
  · have hp : c.hasPrimary = true := h.resolve_left hav
    simp [cmp_lt_uint16x16, hav,
      impl2_of_total 8 (cmp_lt_uint16x8 c) _ (cmp_lt_uint16x8_eq_null c hp) a b,
      combine_null_cmp_lt_halves]

theorem min_int32x8_eq_null (c : Caps) (h : c.USE_AVX2 = true ∨ c.hasPrimary = true)
    (a b : int32x8) : min_int32x8 c a b = some (null.min Signedness.signed a b) := by
  by_cases hav : c.USE_AVX2 = true
  · simp [min_int32x8, hav, mm_min_eq_null Signedness.signed (by decide : 0 < 32)]
  · have hp : c.hasPrimary = true := h.resolve_left hav
    simp [min_int32x8, hav,
      impl2_of_total 4 (min_int32x4 c) _ (min_int32x4_eq_null c hp) a b,
      combine_null_min_halves]

theorem cmp_lt_int32x8_eq_null (c : Caps) (h : c.USE_AVX2 = true ∨ c.hasPrimary = true)
    (a b : int32x8) : cmp_lt_int32x8 c a b = some (null.cmp_lt Signedness.signed a b) := by
  by_cases hav : c.USE_AVX2 = true
  · simp [cmp_lt_int32x8, hav, mm_cmpgt_epi_swap]
  · have hp : c.hasPrimary = true := h.resolve_left hav
    simp [cmp_lt_int32x8, hav,
      impl2_of_total 4 (cmp_lt_int32x4 c) _ (cmp_lt_int32x4_eq_null c hp) a b,
      combine_null_cmp_lt_halves]

theorem min_uint32x8_eq_null (c : Caps) (h : c.USE_AVX2 = true ∨ c.hasPrimary = true)
    (a b : uint32x8) : min_uint32x8 c a b = some (null.min Signedness.unsigned a b) := by
  by_cases hav : c.USE_AVX2 = true
  · simp [min_uint32x8, hav, mm_min_eq_null Signedness.unsigned (by decide : 0 < 32)]
  · have hp : c.hasPrimary = true := h.resolve_left hav
    simp [min_uint32x8, hav,
      impl2_of_total 4 (min_uint32x4 c) _ (min_uint32x4_eq_null c hp) a b,
      combine_null_min_halves]

theorem cmp_lt_uint32x8_eq_null (c : Caps) (h : c.USE_AVX2 = true ∨ c.hasPrimary = true)
    (a b : uint32x8) : cmp_lt_uint32x8 c a b = some (null.cmp_lt Signedness.unsigned a b) := by
  have hb := @bias_cmplt_eq_null 32 8 (by decide) 0x80000000 (by decide) a b
  unfold mm_cmplt_epi at hb
  by_cases hav : c.USE_AVX2 = true
  · simp [cmp_lt_uint32x8, hav, hb]
  · have hp : c.hasPrimary = true := h.resolve_left hav
    simp [cmp_lt_uint32x8, hav,
      impl2_of_total 4 (cmp_lt_uint32x4 c) _ (cmp_lt_uint32x4_eq_null c hp) a b,
      combine_null_cmp_lt_halves]

theorem null_min_self (s : Signedness) {w n : Nat} (a : Reg w n) : null.min s a a = a := by
  apply Reg.ext_lane
  intro i
  show (if readLane s w (a.lane i) ≤ readLane s w (a.lane i) then a.lane i else a.lane i) = _
  rw [if_pos (le_refl _)]

/-- Lane facts of the scalar minimum: it is one of the two input lanes, and neither
input compares below it. -/
theorem null_min_props (s : Signedness) {w n : Nat} (hw : 0 < w) (a b : Reg w n) (i : Fin n) :
    ((null.min s a b).lane i = a.lane i ∨ (null.min s a b).lane i = b.lane i)
      ∧ (null.cmp_lt s a (null.min s a b)).lane i ≠ all_bits w
      ∧ (null.cmp_lt s b (null.min s a b)).lane i ≠ all_bits w
      ∧ (null.cmp_lt s a (null.min s a b)).lane i = 0
      ∧ (null.cmp_lt s b (null.min s a b)).lane i = 0 := by
  have hm : (null.min s a b).lane i
      = if readLane s w (a.lane i) ≤ readLane s w (b.lane i) then a.lane i else b.lane i := rfl
  have hpos := all_bits_pos hw
  have h1 : (null.cmp_lt s a (null.min s a b)).lane i = 0 := by
    rw [null_cmp_lt_lane, hm]
    by_cases h : readLane s w (a.lane i) ≤ readLane s w (b.lane i)
    · rw [if_pos h, if_neg (lt_irrefl _)]
    · rw [if_neg h, if_neg (not_lt.mpr (le_of_lt (not_le.mp h)))]
  have h2 : (null.cmp_lt s b (null.min s a b)).lane i = 0 := by
    rw [null_cmp_lt_lane, hm]
    by_cases h : readLane s w (a.lane i) ≤ readLane s w (b.lane i)
    · rw [if_pos h, if_neg (not_lt.mpr h)]
    · rw [if_neg h, if_neg (lt_irrefl _)]
  refine ⟨?_, ?_, ?_, h1, h2⟩
  · rw [hm]
    by_cases h : readLane s w (a.lane i) ≤ readLane s w (b.lane i)
    · exact Or.inl (if_pos h)
    · exact Or.inr (if_neg h)
  · rw [h1]
    omega
  · rw [h2]
    omega

/-- C23: for the six 128-bit integer `min` overloads on every configuration reaching
an arm of the chain (`c`), for `min(int8x32)` and `min(uint8x32)` in a build without
AVX2, and for the `int16x16`, `uint16x16`, `int32x8`, `uint32x8` overloads on every
path (`c'`), each lane of `min(a,b)` is one of the two input lanes and is a lower bound
of both: `min(a,b).lane(i)` is `a.lane(i)` or `b.lane(i)`, and neither
`cmp_lt(a, min(a,b)).lane(i)` nor `cmp_lt(b, min(a,b)).lane(i)` is set (it is `0`) under
the overload's signedness; and `min(a,a) == a`. In the AVX2 build `min(int8x32)`,
`min(uint8x32)` and the `cmp_lt` they are compared with hand class objects to the
intrinsic, which has no conversion to `__m256i`: they have no value. -/
theorem min_is_lower_bound (c c' : Caps) (h : c.hasPrimary = true)
    (h' : c'.USE_AVX2 = true ∨ c'.hasPrimary = true)
    (a8 b8 : Reg 8 16) (a16 b16 : Reg 16 8) (a32 b32 : Reg 32 4)
    (A8 B8 : Reg 8 32) (A16 B16 : Reg 16 16) (A32 B32 : Reg 32 8) :
    (∃ r m₁ m₂, min_int8x16 c a8 b8 = some r
        ∧ cmp_lt_int8x16 c a8 r = some m₁ ∧ cmp_lt_int8x16 c b8 r = some m₂
        ∧ (∀ i, (r.lane i = a8.lane i ∨ r.lane i = b8.lane i)
            ∧ m₁.lane i ≠ 0xff ∧ m₂.lane i ≠ 0xff ∧ m₁.lane i = 0 ∧ m₂.lane i = 0)
        ∧ min_int8x16 c a8 a8 = some a8)
    ∧ (∃ r m₁ m₂, min_uint8x16 c a8 b8 = some r
        ∧ cmp_lt_uint8x16 c a8 r = some m₁ ∧ cmp_lt_uint8x16 c b8 r = some m₂
        ∧ (∀ i, (r.lane i = a8.lane i ∨ r.lane i = b8.lane i)
            ∧ m₁.lane i ≠ 0xff ∧ m₂.lane i ≠ 0xff ∧ m₁.lane i = 0 ∧ m₂.lane i = 0)
        ∧ min_uint8x16 c a8 a8 = some a8)
    ∧ (∃ r m₁ m₂, min_int16x8 c a16 b16 = some r
        ∧ cmp_lt_int16x8 c a16 r = some m₁ ∧ cmp_lt_int16x8 c b16 r = some m₂
        ∧ (∀ i, (r.lane i = a16.lane i ∨ r.lane i = b16.lane i)
            ∧ m₁.lane i ≠ 0xffff ∧ m₂.lane i ≠ 0xffff ∧ m₁.lane i = 0 ∧ m₂.lane i = 0)
        ∧ min_int16x8 c a16 a16 = some a16)
    ∧ (∃ r m₁ m₂, min_uint16x8 c a16 b16 = some r
        ∧ cmp_lt_uint16x8 c a16 r = some m₁ ∧ cmp_lt_uint16x8 c b16 r = some m₂
        ∧ (∀ i, (r.lane i = a16.lane i ∨ r.lane i = b16.lane i)
            ∧ m₁.lane i ≠ 0xffff ∧ m₂.lane i ≠ 0xffff ∧ m₁.lane i = 0 ∧ m₂.lane i = 0)
        ∧ min_uint16x8 c a16 a16 = some a16)
    ∧ (∃ r m₁ m₂, min_int32x4 c a32 b32 = some r
        ∧ cmp_lt_int32x4 c a32 r = some m₁ ∧ cmp_lt_int32x4 c b32 r = some m₂
        ∧ (∀ i, (r.lane i = a32.lane i ∨ r.lane i = b32.lane i)
            ∧ m₁.lane i ≠ 0xffffffff ∧ m₂.lane i ≠ 0xffffffff ∧ m₁.lane i = 0 ∧ m₂.lane i = 0)
        ∧ min_int32x4 c a32 a32 = some a32)
    ∧ (∃ r m₁ m₂, min_uint32x4 c a32 b32 = some r
        ∧ cmp_lt_uint32x4 c a32 r = some m₁ ∧ cmp_lt_uint32x4 c b32 r = some m₂
        ∧ (∀ i, (r.lane i = a32.lane i ∨ r.lane i = b32.lane i)
            ∧ m₁.lane i ≠ 0xffffffff ∧ m₂.lane i ≠ 0xffffffff ∧ m₁.lane i = 0 ∧ m₂.lane i = 0)
        ∧ min_uint32x4 c a32 a32 = some a32)
    ∧ (c.USE_AVX2 = false →
        (∃ r m₁ m₂, min_int8x32 c A8 B8 = some r
            ∧ cmp_lt_int8x32 c A8 r = some m₁ ∧ cmp_lt_int8x32 c B8 r = some m₂
            ∧ (∀ i, (r.lane i = A8.lane i ∨ r.lane i = B8.lane i)
                ∧ m₁.lane i ≠ 0xff ∧ m₂.lane i ≠ 0xff ∧ m₁.lane i = 0 ∧ m₂.lane i = 0)
            ∧ min_int8x32 c A8 A8 = some A8))
    ∧ (c.USE_AVX2 = false →
        (∃ r m₁ m₂, min_uint8x32 c A8 B8 = some r
            ∧ cmp_lt_uint8x32 c A8 r = some m₁ ∧ cmp_lt_uint8x32 c B8 r = some m₂
            ∧ (∀ i, (r.lane i = A8.lane i ∨ r.lane i = B8.lane i)
                ∧ m₁.lane i ≠ 0xff ∧ m₂.lane i ≠ 0xff ∧ m₁.lane i = 0 ∧ m₂.lane i = 0)
            ∧ min_uint8x32 c A8 A8 = some A8))
    ∧ (∃ r m₁ m₂, min_int16x16 c' A16 B16 = some r
        ∧ cmp_lt_int16x16 c' A16 r = some m₁ ∧ cmp_lt_int16x16 c' B16 r = some m₂
        ∧ (∀ i, (r.lane i = A16.lane i ∨ r.lane i = B16.lane i)
            ∧ m₁.lane i ≠ 0xffff ∧ m₂.lane i ≠ 0xffff ∧ m₁.lane i = 0 ∧ m₂.lane i = 0)
        ∧ min_int16x16 c' A16 A16 = some A16)
    ∧ (∃ r m₁ m₂, min_uint16x16 c' A16 B16 = some r
        ∧ cmp_lt_uint16x16 c' A16 r = some m₁ ∧ cmp_lt_uint16x16 c' B16 r = some m₂
        ∧ (∀ i, (r.lane i = A16.lane i ∨ r.lane i = B16.lane i)
            ∧ m₁.lane i ≠ 0xffff ∧ m₂.lane i ≠ 0xffff ∧ m₁.lane i = 0 ∧ m₂.lane i = 0)
        ∧ min_uint16x16 c' A16 A16 = some A16)
    ∧ (∃ r m₁ m₂, min_int32x8 c' A32 B32 = some r
        ∧ cmp_lt_int32x8 c' A32 r = some m₁ ∧ cmp_lt_int32x8 c' B32 r = some m₂
        ∧ (∀ i, (r.lane i = A32.lane i ∨ r.lane i = B32.lane i)
            ∧ m₁.lane i ≠ 0xffffffff ∧ m₂.lane i ≠ 0xffffffff ∧ m₁.lane i = 0 ∧ m₂.lane i = 0)
        ∧ min_int32x8 c' A32 A32 = some A32)
    ∧ (∃ r m₁ m₂, min_uint32x8 c' A32 B32 = some r
        ∧ cmp_lt_uint32x8 c' A32 r = some m₁ ∧ cmp_lt_uint32x8 c' B32 r = some m₂
        ∧ (∀ i, (r.lane i = A32.lane i ∨ r.lane i = B32.lane i)
            ∧ m₁.lane i ≠ 0xffffffff ∧ m₂.lane i ≠ 0xffffffff ∧ m₁.lane i = 0 ∧ m₂.lane i = 0)
        ∧ min_uint32x8 c' A32 A32 = some A32)
    ∧ (c'.USE_AVX2 = true →
        min_int8x32 c' A8 B8 = none ∧ min_uint8x32 c' A8 B8 = none
        ∧ (∀ r, cmp_lt_int8x32 c' A8 r = none ∧ cmp_lt_uint8x32 c' A8 r = none)) := by
  refine ⟨?_, ?_, ?_, ?_, ?_, ?_, ?_, ?_, ?_, ?_, ?_, ?_, ?_⟩
  · refine ⟨_, _, _, min_int8x16_eq_null c h a8 b8, cmp_lt_int8x16_eq_null c h a8 _,
      cmp_lt_int8x16_eq_null c h b8 _, fun i => ?_, ?_⟩
    · have hpr := null_min_props Signedness.signed (by decide : 0 < 8) a8 b8 i
      rw [all_bits_8] at hpr
      exact hpr
    · rw [min_int8x16_eq_null c h, null_min_self]
  · refine ⟨_, _, _, min_uint8x16_eq_null c h a8 b8, cmp_lt_uint8x16_eq_null c h a8 _,
      cmp_lt_uint8x16_eq_null c h b8 _, fun i => ?_, ?_⟩
    · have hpr := null_min_props Signedness.unsigned (by decide : 0 < 8) a8 b8 i
      rw [all_bits_8] at hpr
      exact hpr
    · rw [min_uint8x16_eq_null c h, null_min_self]
  · refine ⟨_, _, _, min_int16x8_eq_null c h a16 b16, cmp_lt_int16x8_eq_null c h a16 _,
      cmp_lt_int16x8_eq_null c h b16 _, fun i => ?_, ?_⟩
    · have hpr := null_min_props Signedness.signed (by decide : 0 < 16) a16 b16 i
      rw [all_bits_16] at hpr
      exact hpr
    · rw [min_int16x8_eq_null c h, null_min_self]
  · refine ⟨_, _, _, min_uint16x8_eq_null c h a16 b16, cmp_lt_uint16x8_eq_null c h a16 _,
      cmp_lt_uint16x8_eq_null c h b16 _, fun i => ?_, ?_⟩
    · have hpr := null_min_props Signedness.unsigned (by decide : 0 < 16) a16 b16 i
      rw [all_bits_16] at hpr
      exact hpr
    · rw [min_uint16x8_eq_null c h, null_min_self]
  · refine ⟨_, _, _, min_int32x4_eq_null c h a32 b32, cmp_lt_int32x4_eq_null c h a32 _,
      cmp_lt_int32x4_eq_null c h b32 _, fun i => ?_, ?_⟩
    · have hpr := null_min_props Signedness.signed (by decide : 0 < 32) a32 b32 i
      rw [all_bits_32] at hpr
      exact hpr
    · rw [min_int32x4_eq_null c h, null_min_self]
  · refine ⟨_, _, _, min_uint32x4_eq_null c h a32 b32, cmp_lt_uint32x4_eq_null c h a32 _,
      cmp_lt_uint32x4_eq_null c h b32 _, fun i => ?_, ?_⟩
    · have hpr := null_min_props Signedness.unsigned (by decide : 0 < 32) a32 b32 i
      rw [all_bits_32] at hpr
      exact hpr
    · rw [min_uint32x4_eq_null c h, null_min_self]
  · intro hav
    refine ⟨_, _, _, min_int8x32_eq_null c hav h A8 B8, cmp_lt_int8x32_eq_null c hav h A8 _,
      cmp_lt_int8x32_eq_null c hav h B8 _, fun i => ?_, ?_⟩
    · have hpr := null_min_props Signedness.signed (by decide : 0 < 8) A8 B8 i
      rw [all_bits_8] at hpr
      exact hpr
    · rw [min_int8x32_eq_null c hav h, null_min_self]
  · intro hav
    refine ⟨_, _, _, min_uint8x32_eq_null c hav h A8 B8, cmp_lt_uint8x32_eq_null c hav h A8 _,
      cmp_lt_uint8x32_eq_null c hav h B8 _, fun i => ?_, ?_⟩
    · have hpr := null_min_props Signedness.unsigned (by decide : 0 < 8) A8 B8 i
      rw [all_bits_8] at hpr
      exact hpr
    · rw [min_uint8x32_eq_null c hav h, null_min_self]
  · refine ⟨_, _, _, min_int16x16_eq_null c' h' A16 B16, cmp_lt_int16x16_eq_null c' h' A16 _,
      cmp_lt_int16x16_eq_null c' h' B16 _, fun i => ?_, ?_⟩
    · have hpr := null_min_props Signedness.signed (by decide : 0 < 16) A16 B16 i
      rw [all_bits_16] at hpr
      exact hpr
    · rw [min_int16x16_eq_null c' h', null_min_self]
  · refine ⟨_, _, _, min_uint16x16_eq_null c' h' A16 B16, cmp_lt_uint16x16_eq_null c' h' A16 _,
      cmp_lt_uint16x16_eq_null c' h' B16 _, fun i => ?_, ?_⟩
    · have hpr := null_min_props Signedness.unsigned (by decide : 0 < 16) A16 B16 i
      rw [all_bits_16] at hpr
      exact hpr
    · rw [min_uint16x16_eq_null c' h', null_min_self]
  · refine ⟨_, _, _, min_int32x8_eq_null c' h' A32 B32, cmp_lt_int32x8_eq_null c' h' A32 _,
      cmp_lt_int32x8_eq_null c' h' B32 _, fun i => ?_, ?_⟩
    · have hpr := null_min_props Signedness.signed (by decide : 0 < 32) A32 B32 i
      rw [all_bits_32] at hpr
      exact hpr
    · rw [min_int32x8_eq_null c' h', null_min_self]
  · refine ⟨_, _, _, min_uint32x8_eq_null c' h' A32 B32, cmp_lt_uint32x8_eq_null c' h' A32 _,
      cmp_lt_uint32x8_eq_null c' h' B32 _, fun i => ?_, ?_⟩
    · have hpr := null_min_props Signedness.unsigned (by decide : 0 < 32) A32 B32 i
      rw [all_bits_32] at hpr
      exact hpr
    · rw [min_uint32x8_eq_null c' h', null_min_self]
  · intro hav
    exact ⟨min_int8x32_avx2_none c' hav _ _, min_uint8x32_avx2_none c' hav _ _,
      fun r => ⟨cmp_lt_int8x32_avx2_none c' hav _ r, cmp_lt_uint8x32_avx2_none c' hav _ r⟩⟩

set_option maxRecDepth 8192 in
/-- C23 on the plain SSE2 build (128-bit overloads on the composite and sign-bias arms,
and the decomposed 8x32 overloads) and on the AVX2 build (16x16 and 32x8 overloads;
the 8x32 overloads have no value there), with a ramp crossing the sign boundary against
a constant at the boundary; the 8-bit signed minimum of `[120, ..., 135]` and `[127]*16`
is `[120, ..., 127, 128, ..., 135]` (the lanes from `128` on are negative), the unsigned
one is `[120, ..., 127, 127, ..., 127]`. -/
theorem min_is_lower_bound_witness :
    capsSSE2.hasPrimary = true ∧ (capsAVX2.USE_AVX2 = true ∨ capsAVX2.hasPrimary = true)
    ∧ ((∃ r m₁ m₂, min_int8x16 capsSSE2 (rampVec 8 16 119) (make_const 8 16 127) = some r
          ∧ cmp_lt_int8x16 capsSSE2 (rampVec 8 16 119) r = some m₁ ∧ cmp_lt_int8x16 capsSSE2 (make_const 8 16 127) r = some m₂
          ∧ (∀ i, (r.lane i = (rampVec 8 16 119).lane i ∨ r.lane i = (make_const 8 16 127).lane i)
              ∧ m₁.lane i ≠ 0xff ∧ m₂.lane i ≠ 0xff ∧ m₁.lane i = 0 ∧ m₂.lane i = 0)
          ∧ min_int8x16 capsSSE2 (rampVec 8 16 119) (rampVec 8 16 119) = some (rampVec 8 16 119))
      ∧ (∃ r m₁ m₂, min_uint8x16 capsSSE2 (rampVec 8 16 119) (make_const 8 16 127) = some r
          ∧ cmp_lt_uint8x16 capsSSE2 (rampVec 8 16 119) r = some m₁ ∧ cmp_lt_uint8x16 capsSSE2 (make_const 8 16 127) r = some m₂
          ∧ (∀ i, (r.lane i = (rampVec 8 16 119).lane i ∨ r.lane i = (make_const 8 16 127).lane i)
              ∧ m₁.lane i ≠ 0xff ∧ m₂.lane i ≠ 0xff ∧ m₁.lane i = 0 ∧ m₂.lane i = 0)
          ∧ min_uint8x16 capsSSE2 (rampVec 8 16 119) (rampVec 8 16 119) = some (rampVec 8 16 119))
      ∧ (∃ r m₁ m₂, min_int16x8 capsSSE2 (rampVec 16 8 0x7ffb) (make_const 16 8 0x8000) = some r
          ∧ cmp_lt_int16x8 capsSSE2 (rampVec 16 8 0x7ffb) r = some m₁ ∧ cmp_lt_int16x8 capsSSE2 (make_const 16 8 0x8000) r = some m₂
          ∧ (∀ i, (r.lane i = (rampVec 16 8 0x7ffb).lane i ∨ r.lane i = (make_const 16 8 0x8000).lane i)
              ∧ m₁.lane i ≠ 0xffff ∧ m₂.lane i ≠ 0xffff ∧ m₁.lane i = 0 ∧ m₂.lane i = 0)
          ∧ min_int16x8 capsSSE2 (rampVec 16 8 0x7ffb) (rampVec 16 8 0x7ffb) = some (rampVec 16 8 0x7ffb))
      ∧ (∃ r m₁ m₂, min_uint16x8 capsSSE2 (rampVec 16 8 0x7ffb) (make_const 16 8 0x8000) = some r
          ∧ cmp_lt_uint16x8 capsSSE2 (rampVec 16 8 0x7ffb) r = some m₁ ∧ cmp_lt_uint16x8 capsSSE2 (make_const 16 8 0x8000) r = some m₂
          ∧ (∀ i, (r.lane i = (rampVec 16 8 0x7ffb).lane i ∨ r.lane i = (make_const 16 8 0x8000).lane i)
              ∧ m₁.lane i ≠ 0xffff ∧ m₂.lane i ≠ 0xffff ∧ m₁.lane i = 0 ∧ m₂.lane i = 0)
          ∧ min_uint16x8 capsSSE2 (rampVec 16 8 0x7ffb) (rampVec 16 8 0x7ffb) = some (rampVec 16 8 0x7ffb))
      ∧ (∃ r m₁ m₂, min_int32x4 capsSSE2 (rampVec 32 4 0x7ffffffd) (make_const 32 4 0x80000000) = some r
          ∧ cmp_lt_int32x4 capsSSE2 (rampVec 32 4 0x7ffffffd) r = some m₁ ∧ cmp_lt_int32x4 capsSSE2 (make_const 32 4 0x80000000) r = some m₂
          ∧ (∀ i, (r.lane i = (rampVec 32 4 0x7ffffffd).lane i ∨ r.lane i = (make_const 32 4 0x80000000).lane i)
              ∧ m₁.lane i ≠ 0xffffffff ∧ m₂.lane i ≠ 0xffffffff ∧ m₁.lane i = 0 ∧ m₂.lane i = 0)
          ∧ min_int32x4 capsSSE2 (rampVec 32 4 0x7ffffffd) (rampVec 32 4 0x7ffffffd) = some (rampVec 32 4 0x7ffffffd))
      ∧ (∃ r m₁ m₂, min_uint32x4 capsSSE2 (rampVec 32 4 0x7ffffffd) (make_const 32 4 0x80000000) = some r
          ∧ cmp_lt_uint32x4 capsSSE2 (rampVec 32 4 0x7ffffffd) r = some m₁ ∧ cmp_lt_uint32x4 capsSSE2 (make_const 32 4 0x80000000) r = some m₂
          ∧ (∀ i, (r.lane i = (rampVec 32 4 0x7ffffffd).lane i ∨ r.lane i = (make_const 32 4 0x80000000).lane i)
              ∧ m₁.lane i ≠ 0xffffffff ∧ m₂.lane i ≠ 0xffffffff ∧ m₁.lane i = 0 ∧ m₂.lane i = 0)
          ∧ min_uint32x4 capsSSE2 (rampVec 32 4 0x7ffffffd) (rampVec 32 4 0x7ffffffd) = some (rampVec 32 4 0x7ffffffd))
      ∧ (capsSSE2.USE_AVX2 = false →
          (∃ r m₁ m₂, min_int8x32 capsSSE2 (rampVec 8 32 111) (make_const 8 32 127) = some r
              ∧ cmp_lt_int8x32 capsSSE2 (rampVec 8 32 111) r = some m₁ ∧ cmp_lt_int8x32 capsSSE2 (make_const 8 32 127) r = some m₂
              ∧ (∀ i, (r.lane i = (rampVec 8 32 111).lane i ∨ r.lane i = (make_const 8 32 127).lane i)
                  ∧ m₁.lane i ≠ 0xff ∧ m₂.lane i ≠ 0xff ∧ m₁.lane i = 0 ∧ m₂.lane i = 0)
              ∧ min_int8x32 capsSSE2 (rampVec 8 32 111) (rampVec 8 32 111) = some (rampVec 8 32 111)))
      ∧ (capsSSE2.USE_AVX2 = false →
          (∃ r m₁ m₂, min_uint8x32 capsSSE2 (rampVec 8 32 111) (make_const 8 32 127) = some r
              ∧ cmp_lt_uint8x32 capsSSE2 (rampVec 8 32 111) r = some m₁ ∧ cmp_lt_uint8x32 capsSSE2 (make_const 8 32 127) r = some m₂
              ∧ (∀ i, (r.lane i = (rampVec 8 32 111).lane i ∨ r.lane i = (make_const 8 32 127).lane i)
                  ∧ m₁.lane i ≠ 0xff ∧ m₂.lane i ≠ 0xff ∧ m₁.lane i = 0 ∧ m₂.lane i = 0)
              ∧ min_uint8x32 capsSSE2 (rampVec 8 32 111) (rampVec 8 32 111) = some (rampVec 8 32 111)))
      ∧ (∃ r m₁ m₂, min_int16x16 capsAVX2 (rampVec 16 16 0x7ff7) (make_const 16 16 0x8000) = some r
          ∧ cmp_lt_int16x16 capsAVX2 (rampVec 16 16 0x7ff7) r = some m₁ ∧ cmp_lt_int16x16 capsAVX2 (make_const 16 16 0x8000) r = some m₂
          ∧ (∀ i, (r.lane i = (rampVec 16 16 0x7ff7).lane i ∨ r.lane i = (make_const 16 16 0x8000).lane i)
              ∧ m₁.lane i ≠ 0xffff ∧ m₂.lane i ≠ 0xffff ∧ m₁.lane i = 0 ∧ m₂.lane i = 0)
          ∧ min_int16x16 capsAVX2 (rampVec 16 16 0x7ff7) (rampVec 16 16 0x7ff7) = some (rampVec 16 16 0x7ff7))
      ∧ (∃ r m₁ m₂, min_uint16x16 capsAVX2 (rampVec 16 16 0x7ff7) (make_const 16 16 0x8000) = some r
          ∧ cmp_lt_uint16x16 capsAVX2 (rampVec 16 16 0x7ff7) r = some m₁ ∧ cmp_lt_uint16x16 capsAVX2 (make_const 16 16 0x8000) r = some m₂
          ∧ (∀ i, (r.lane i = (rampVec 16 16 0x7ff7).lane i ∨ r.lane i = (make_const 16 16 0x8000).lane i)
              ∧ m₁.lane i ≠ 0xffff ∧ m₂.lane i ≠ 0xffff ∧ m₁.lane i = 0 ∧ m₂.lane i = 0)
          ∧ min_uint16x16 capsAVX2 (rampVec 16 16 0x7ff7) (rampVec 16 16 0x7ff7) = some (rampVec 16 16 0x7ff7))
      ∧ (∃ r m₁ m₂, min_int32x8 capsAVX2 (rampVec 32 8 0x7ffffffb) (make_const 32 8 0x80000000) = some r
          ∧ cmp_lt_int32x8 capsAVX2 (rampVec 32 8 0x7ffffffb) r = some m₁ ∧ cmp_lt_int32x8 capsAVX2 (make_const 32 8 0x80000000) r = some m₂
          ∧ (∀ i, (r.lane i = (rampVec 32 8 0x7ffffffb).lane i ∨ r.lane i = (make_const 32 8 0x80000000).lane i)
              ∧ m₁.lane i ≠ 0xffffffff ∧ m₂.lane i ≠ 0xffffffff ∧ m₁.lane i = 0 ∧ m₂.lane i = 0)
          ∧ min_int32x8 capsAVX2 (rampVec 32 8 0x7ffffffb) (rampVec 32 8 0x7ffffffb) = some (rampVec 32 8 0x7ffffffb))
      ∧ (∃ r m₁ m₂, min_uint32x8 capsAVX2 (rampVec 32 8 0x7ffffffb) (make_const 32 8 0x80000000) = some r
          ∧ cmp_lt_uint32x8 capsAVX2 (rampVec 32 8 0x7ffffffb) r = some m₁ ∧ cmp_lt_uint32x8 capsAVX2 (make_const 32 8 0x80000000) r = some m₂
          ∧ (∀ i, (r.lane i = (rampVec 32 8 0x7ffffffb).lane i ∨ r.lane i = (make_const 32 8 0x80000000).lane i)
              ∧ m₁.lane i ≠ 0xffffffff ∧ m₂.lane i ≠ 0xffffffff ∧ m₁.lane i = 0 ∧ m₂.lane i = 0)
          ∧ min_uint32x8 capsAVX2 (rampVec 32 8 0x7ffffffb) (rampVec 32 8 0x7ffffffb) = some (rampVec 32 8 0x7ffffffb))
      ∧ (capsAVX2.USE_AVX2 = true →
          min_int8x32 capsAVX2 (rampVec 8 32 111) (make_const 8 32 127) = none ∧ min_uint8x32 capsAVX2 (rampVec 8 32 111) (make_const 8 32 127) = none
          ∧ (∀ r, cmp_lt_int8x32 capsAVX2 (rampVec 8 32 111) r = none ∧ cmp_lt_uint8x32 capsAVX2 (rampVec 8 32 111) r = none)))
    ∧ (∀ c ∈ [capsNULL, capsSSE2, capsSSE4_1, capsNEON, capsALTIVEC], ∀ i : Fin 16,
        (min_int8x16 c (rampVec 8 16 119) (make_const 8 16 127)).map
            (fun r => r.lane i) = some (120 + i.val)
        ∧ (min_uint8x16 c (rampVec 8 16 119) (make_const 8 16 127)).map
            (fun r => r.lane i) = some (if i.val < 8 then 120 + i.val else 127))
    ∧ (∀ i : Fin 32,
        (min_int8x32 capsSSE2 (rampVec 8 32 111) (make_const 8 32 127)).map
            (fun r => r.lane i) = some (112 + i.val)
        ∧ (min_uint8x32 capsSSE2 (rampVec 8 32 111) (make_const 8 32 127)).map
            (fun r => r.lane i) = some (if i.val < 16 then 112 + i.val else 127))
    ∧ (min_int8x32 capsAVX2 (rampVec 8 32 111) (make_const 8 32 127)).isNone = true
    ∧ (min_uint8x32 capsAVX2 (rampVec 8 32 111) (make_const 8 32 127)).isNone = true :=
  ⟨by decide, Or.inl (by decide),
   min_is_lower_bound capsSSE2 capsAVX2 (by decide) (Or.inl (by decide))
     (rampVec 8 16 119) (make_const 8 16 127) (rampVec 16 8 0x7ffb) (make_const 16 8 0x8000)
     (rampVec 32 4 0x7ffffffd) (make_const 32 4 0x80000000)
     (rampVec 8 32 111) (make_const 8 32 127) (rampVec 16 16 0x7ff7)
     (make_const 16 16 0x8000) (rampVec 32 8 0x7ffffffb) (make_const 32 8 0x80000000),
   by decide, by decide, by decide, by decide⟩

end simdpp
